import Mathlib

/-!
# Yandex Cloud Functions trigger resource: resolver and projector

A shallow embedding of `yandex/resource_yandex_function_trigger.go`:
the resolver `resourceYandexFunctionTriggerCreate` (configuration to
`CreateTriggerRequest`), the projector `flattenYandexFunctionTrigger`
(`Trigger` response to configuration) and their helpers, followed by
theorems about them.

Conventions of the embedding.

* `*schema.ResourceData` is a keyed store read and written by dotted path
  (`ResourceData`).  The schema fixes the type of every path, so the store
  is split by type: string attributes, boolean attributes, string sets,
  list blocks (by number of items) and the `labels` map.
* Go `int64` values are `Int`; `strconv.ParseInt` enforces the 64-bit range.
* A Go `(value, error)` result is `Except Fault value`; a nil pointer is
  `none`.  `Fault.panic` is a run-time panic (nil dereference).
* What the Go runtime or a library outside the file decides is a field of
  `Env`: every theorem holds for all values of `Env`.
-/

namespace Yandex

/-! ## Failures -/

/-- A failed call: an `error` value with its message, or a run-time panic. -/
inductive Fault where
  | error (msg : String)
  | panic (msg : String)
  deriving DecidableEq, Repr

/-- `fmt.Errorf(format, ...)`: an error with the formatted text. -/
def Errorf (text : String) : Fault := Fault.error text

/-! ## strconv -/

deriving instance DecidableEq for Except

/-- The two causes of a `*strconv.NumError`. -/
inductive NumErr where
  | ErrSyntax
  | ErrRange
  deriving DecidableEq, Repr

/-- The value of a decimal digit byte, `none` for every other byte (in base 10
    `strconv.ParseUint` rejects letters and `_` as well). -/
def digitVal (c : Char) : Option Nat :=
  if 48 ≤ c.toNat ∧ c.toNat ≤ 57 then some (c.toNat - 48) else none

/-- `maxUint64`. -/
def maxUint64 : Nat := 2 ^ 64 - 1

/-- The digit loop of `strconv.ParseUint(s, 10, 64)`: `n` is the value read
    so far; `cutoff = maxUint64/10 + 1`. -/
def parseUintLoop : List Char → Nat → Except NumErr Nat
  | [], n => .ok n
  | c :: cs, n =>
    match digitVal c with
    | none => .error NumErr.ErrSyntax
    | some dgt =>
      if n ≥ maxUint64 / 10 + 1 then .error NumErr.ErrRange
      else if n * 10 + dgt > maxUint64 then .error NumErr.ErrRange
      else parseUintLoop cs (n * 10 + dgt)

/-- `strconv.ParseUint(s, 10, 64)` on the bytes of `s`. -/
def ParseUint (s : List Char) : Except NumErr Nat :=
  match s with
  | [] => .error NumErr.ErrSyntax
  | _ => parseUintLoop s 0

/-- `strconv.ParseInt(s, 10, 64)`: optional sign, then `ParseUint`; a syntax
    error of `ParseUint` is returned as is, a range error or a value outside
    `[-2^63, 2^63 - 1]` is a range error. -/
def ParseInt (s : String) : Except NumErr Int :=
  match s.data with
  | [] => .error NumErr.ErrSyntax
  | c :: cs =>
    let neg := c = '-'
    let rest := if c = '+' ∨ c = '-' then cs else c :: cs
    match ParseUint rest with
    | .error NumErr.ErrSyntax => .error NumErr.ErrSyntax
    | .error NumErr.ErrRange => .error NumErr.ErrRange
    | .ok un =>
      if ¬ neg ∧ un ≥ 2 ^ 63 then .error NumErr.ErrRange
      else if neg ∧ un > 2 ^ 63 then .error NumErr.ErrRange
      else if neg then .ok (-(un : Int)) else .ok (un : Int)

/-- The byte of a decimal digit `d < 10`. -/
def digitChar (d : Nat) : Char := Char.ofNat (48 + d)

/-- The digits of `u` in base 10, most significant first (`formatBits`):
    the last digit is `u % 10`, the digits before it are those of `u / 10`
    while `u ≥ 10`. -/
def formatBits (u : Nat) : List Char :=
  if _h : u < 10 then [digitChar u]
  else formatBits (u / 10) ++ [digitChar (u % 10)]
decreasing_by omega

/-- `strconv.FormatInt(i, 10)`. -/
def FormatInt (i : Int) : String :=
  if i < 0 then String.mk ('-' :: formatBits i.natAbs) else String.mk (formatBits i.natAbs)

/-- The text of the `*strconv.NumError` that `ParseInt` returns for input `s`;
    `quote` is `strconv.Quote`. -/
def NumErr.Error (quote : String → String) (s : String) : NumErr → String
  | NumErr.ErrSyntax => "strconv.ParseInt: parsing " ++ quote s ++ ": invalid syntax"
  | NumErr.ErrRange => "strconv.ParseInt: parsing " ++ quote s ++ ": value out of range"

/-- The idiom `v, err := f(); if err != nil { return fmt.Errorf(text + "%s", err) }`:
    the value of `r`, or the error whose message is `text` followed by the
    message of the error of `r`. -/
def orErrorf {α : Type} (text : String) (r : Except String α) : Except Fault α :=
  match r with
  | .error err => .error (Errorf (text ++ err))
  | .ok v => .ok v

/-- `strconv.ParseInt(s, 10, 64)` with its error rendered as text. -/
def ParseIntText (quote : String → String) (s : String) : Except String Int :=
  match ParseInt s with
  | .error err => .error (err.Error quote s)
  | .ok n => .ok n

/-! ## strings -/

/-- `strings.ToLower`: every rune is mapped by `unicode.ToLower`, which maps
    `A`..`Z` to `a`..`z`, leaves the other ASCII runes alone and consults the
    Unicode case tables (`table`) above `MaxASCII`. -/
def ToLower (table : Char → Char) (s : String) : String :=
  String.mk (s.data.map (fun r =>
    if r.toNat ≤ 127 then
      (if 65 ≤ r.toNat ∧ r.toNat ≤ 90 then Char.ofNat (r.toNat + 32) else r)
    else table r))

/-! ## Messages of the triggers API (`triggers/v1`, `logging/v1`) -/

/-- `logging.LogLevel_Level`. -/
inductive LogLevel_Level where
  | LEVEL_UNSPECIFIED
  | TRACE
  | DEBUG
  | INFO
  | WARN
  | ERROR
  | FATAL
  deriving DecidableEq, Repr

/-- `triggers.Trigger_ObjectStorageEventType`. -/
inductive Trigger_ObjectStorageEventType where
  | UNSPECIFIED
  | CREATE_OBJECT
  | UPDATE_OBJECT
  | DELETE_OBJECT
  deriving DecidableEq, Repr

/-- `duration.Duration`. -/
structure Duration where
  Seconds : Int
  Nanos : Int := 0
  deriving DecidableEq, Repr

/-- `timestamp.Timestamp`. -/
structure Timestamp where
  Seconds : Int
  Nanos : Int := 0
  deriving DecidableEq, Repr

/-- `triggers.RetrySettings`. -/
structure RetrySettings where
  RetryAttempts : Int := 0
  Interval : Option Duration := none
  deriving DecidableEq, Repr

/-- `triggers.PutQueueMessage`. -/
structure PutQueueMessage where
  QueueId : String
  ServiceAccountId : String
  deriving DecidableEq, Repr

/-- `triggers.InvokeFunctionOnce`. -/
structure InvokeFunctionOnce where
  FunctionId : String
  FunctionTag : String
  ServiceAccountId : String
  deriving DecidableEq, Repr

/-- `triggers.InvokeFunctionWithRetry`. -/
structure InvokeFunctionWithRetry where
  FunctionId : String
  FunctionTag : String
  ServiceAccountId : String
  RetrySettings : Option RetrySettings
  DeadLetterQueue : Option PutQueueMessage
  deriving DecidableEq, Repr

/-- `triggers.BatchSettings`. -/
structure BatchSettings where
  Size : Int := 0
  Cutoff : Option Duration := none
  deriving DecidableEq, Repr

/-- `triggers.CloudLogsBatchSettings`. -/
structure CloudLogsBatchSettings where
  Size : Int
  Cutoff : Option Duration
  deriving DecidableEq, Repr

/-- `triggers.LoggingBatchSettings`. -/
structure LoggingBatchSettings where
  Size : Int
  Cutoff : Option Duration
  deriving DecidableEq, Repr

/-- `triggers.Trigger_IoTMessage`; its `Action` oneof has the single case
    `InvokeFunction`. -/
structure Trigger_IoTMessage where
  RegistryId : String
  DeviceId : String
  MqttTopic : String
  Action : Option InvokeFunctionWithRetry
  deriving DecidableEq, Repr

/-- `triggers.Trigger_MessageQueue`; its `Action` oneof has the single case
    `InvokeFunction`. -/
structure Trigger_MessageQueue where
  QueueId : String
  ServiceAccountId : String
  BatchSettings : Option BatchSettings
  VisibilityTimeout : Option Duration := none
  Action : Option InvokeFunctionOnce
  deriving DecidableEq, Repr

/-- `triggers.Trigger_ObjectStorage`. -/
structure Trigger_ObjectStorage where
  EventType : List Trigger_ObjectStorageEventType
  BucketId : String
  Prefix : String
  Suffix : String
  Action : Option InvokeFunctionWithRetry
  deriving DecidableEq, Repr

/-- The `Action` oneof of `triggers.Trigger_Timer`. -/
inductive Trigger_Timer_Action where
  | InvokeFunction (f : InvokeFunctionOnce)
  | InvokeFunctionWithRetry (f : InvokeFunctionWithRetry)
  deriving DecidableEq, Repr

/-- `triggers.Trigger_Timer`. -/
structure Trigger_Timer where
  CronExpression : String
  Action : Option Trigger_Timer_Action := none
  deriving DecidableEq, Repr

/-- `triggers.Trigger_CloudLogs`. -/
structure Trigger_CloudLogs where
  LogGroupId : List String
  BatchSettings : Option CloudLogsBatchSettings := none
  Action : Option InvokeFunctionWithRetry
  deriving DecidableEq, Repr

/-- `triggers.Trigger_Logging`. -/
structure Trigger_Logging where
  LogGroupId : String
  ResourceId : List String
  ResourceType : List String
  Levels : List LogLevel_Level
  BatchSettings : Option LoggingBatchSettings := none
  Action : Option InvokeFunctionWithRetry
  deriving DecidableEq, Repr

/-- The `Rule` oneof of `triggers.Trigger_Rule`: one variant at a time. -/
inductive Trigger_Rule where
  | IotMessage (r : Trigger_IoTMessage)
  | MessageQueue (r : Trigger_MessageQueue)
  | ObjectStorage (r : Trigger_ObjectStorage)
  | Timer (r : Trigger_Timer)
  | CloudLogs (r : Trigger_CloudLogs)
  | Logging (r : Trigger_Logging)
  deriving DecidableEq, Repr

/-- A `map[string]string`, as the list of its entries. -/
abbrev Labels := List (String × String)

/-- `triggers.CreateTriggerRequest`; `Rule = none` is the nil rule. -/
structure CreateTriggerRequest where
  FolderId : String
  Name : String
  Description : String
  Labels : Labels
  Rule : Option Trigger_Rule := none
  deriving DecidableEq, Repr

/-- `triggers.Trigger`. -/
structure Trigger where
  Id : String
  FolderId : String
  CreatedAt : Option Timestamp
  Name : String
  Description : String
  Labels : Labels
  Rule : Option Trigger_Rule
  deriving DecidableEq, Repr

/-! The nil-safe getters of the generated code. -/

/-- `(*Trigger_Rule).GetIotMessage`. -/
def GetIotMessage : Option Trigger_Rule → Option Trigger_IoTMessage
  | some (.IotMessage r) => some r
  | _ => none

/-- `(*Trigger_Rule).GetMessageQueue`. -/
def GetMessageQueue : Option Trigger_Rule → Option Trigger_MessageQueue
  | some (.MessageQueue r) => some r
  | _ => none

/-- `(*Trigger_Rule).GetObjectStorage`. -/
def GetObjectStorage : Option Trigger_Rule → Option Trigger_ObjectStorage
  | some (.ObjectStorage r) => some r
  | _ => none

/-- `(*Trigger_Rule).GetTimer`. -/
def GetTimer : Option Trigger_Rule → Option Trigger_Timer
  | some (.Timer r) => some r
  | _ => none

/-- `(*Trigger_Rule).GetCloudLogs`. -/
def GetCloudLogs : Option Trigger_Rule → Option Trigger_CloudLogs
  | some (.CloudLogs r) => some r
  | _ => none

/-- `(*Trigger_Rule).GetLogging`. -/
def GetLogging : Option Trigger_Rule → Option Trigger_Logging
  | some (.Logging r) => some r
  | _ => none

/-- `(*Trigger_Timer).GetInvokeFunctionWithRetry`. -/
def Trigger_Timer.GetInvokeFunctionWithRetry (t : Trigger_Timer) : Option InvokeFunctionWithRetry :=
  match t.Action with
  | some (.InvokeFunctionWithRetry f) => some f
  | _ => none

/-- `(*Trigger_Timer).GetInvokeFunction`. -/
def Trigger_Timer.GetInvokeFunction (t : Trigger_Timer) : Option InvokeFunctionOnce :=
  match t.Action with
  | some (.InvokeFunction f) => some f
  | _ => none

/-! ## The configuration object (`*schema.ResourceData`) -/

/-- The configuration seen through `d.Get` and `d.GetOk`, by dotted path.
    `strs` holds the `TypeString` attributes (`""` when unset), `bools` the
    `TypeBool` attributes, `sets` the elements of the `TypeSet` attributes in
    the order of `Set.List()`, `lists` the number of items of each `TypeList`
    block, `maps` the `TypeMap` attributes. -/
structure ResourceData where
  strs : String → String
  bools : String → Bool
  sets : String → List String
  lists : String → Nat
  maps : String → Labels

/-- A configuration in which nothing is set. -/
def ResourceData.fresh : ResourceData :=
  { strs := fun _ => "", bools := fun _ => false, sets := fun _ => [],
    lists := fun _ => 0, maps := fun _ => [] }

/-- `d.Get(key).(string)`. -/
def ResourceData.GetStr (d : ResourceData) (key : String) : String := d.strs key

/-- `d.Get(key).(bool)`. -/
def ResourceData.GetBool (d : ResourceData) (key : String) : Bool := d.bools key

/-- `d.Get(key).(*schema.Set)`. -/
def ResourceData.GetSet (d : ResourceData) (key : String) : List String := d.sets key

/-- `d.Get(key)` of a map attribute. -/
def ResourceData.GetMap (d : ResourceData) (key : String) : Labels := d.maps key

/-- The `ok` of `d.GetOk(key)` for a string attribute: set and not the zero
    value `""`. -/
def ResourceData.GetOkStr (d : ResourceData) (key : String) : Bool := d.strs key != ""

/-- The `ok` of `d.GetOk(key)` for a list block: the list is not empty. -/
def ResourceData.GetOkList (d : ResourceData) (key : String) : Bool := d.lists key != 0

/-- A value stored under a key of a `map[string]interface{}`. -/
inductive Value where
  | str (s : String)
  | bool (b : Bool)
  | set (xs : List String)

/-- `d.Set(key, value)` for a string attribute. -/
def ResourceData.SetStr (d : ResourceData) (key : String) (v : String) : ResourceData :=
  { d with strs := fun k => if k = key then v else d.strs k }

/-- `d.Set(key, value)` for a map attribute. -/
def ResourceData.SetMap (d : ResourceData) (key : String) (v : Labels) : ResourceData :=
  { d with maps := fun k => if k = key then v else d.maps k }

/-- Writing one entry `field: v` of the single item of block `key`: the value
    goes to the path `key.0.field`. -/
def ResourceData.setField (d : ResourceData) (key : String) (field : String) : Value → ResourceData
  | .str s => { d with strs := fun k => if k = key ++ ".0." ++ field then s else d.strs k }
  | .bool b => { d with bools := fun k => if k = key ++ ".0." ++ field then b else d.bools k }
  | .set xs => { d with sets := fun k => if k = key ++ ".0." ++ field then xs else d.sets k }

/-- `d.Set(key, []map[string]interface{}{m})` for a list block: the block has
    one item afterwards and every entry of `m` is written to its path; a later
    `Get` of a path that `m` does not mention sees what it saw before. -/
def ResourceData.SetBlock (d : ResourceData) (key : String) (m : List (String × Value)) : ResourceData :=
  let d1 := m.foldl (fun acc kv => acc.setField key kv.1 kv.2) d
  { d1 with lists := fun k => if k = key then 1 else d1.lists k }

/-- `(*schema.Set).Add` on a set listed as `xs`. -/
def setAdd (xs : List String) (x : String) : List String :=
  if x ∈ xs then xs else xs ++ [x]

/-! ## What the file takes from its surroundings -/

/-- The six orders in which a `range` over the three-entry map `eventsName`
    can visit its entries. -/
inductive RangeOrder where
  | o012 | o021 | o102 | o120 | o201 | o210
  deriving DecidableEq, Repr

/-- The entries `a, b, c` in the order `o`. -/
def RangeOrder.visit (o : RangeOrder) (a b c : α) : List α :=
  match o with
  | .o012 => [a, b, c]
  | .o021 => [a, c, b]
  | .o102 => [b, a, c]
  | .o120 => [b, c, a]
  | .o201 => [c, a, b]
  | .o210 => [c, b, a]

/-- What the Go runtime and the packages outside the file decide. -/
structure Env where
  /-- `unicode.ToLower` above `MaxASCII`. -/
  lowerTable : Char → Char
  /-- `strconv.Quote`. -/
  quote : String → String
  /-- The order of the `range` over `eventsName`. -/
  eventsOrder : RangeOrder
  /-- `getFolderID(d, config)`: the folder id or the text of its error. -/
  getFolderID : ResourceData → Except String String
  /-- `getTimestamp`. -/
  getTimestamp : Option Timestamp → String
  /-- `(*schema.Set).List()` of a set with the hash function
      `schema.HashString`: from the elements in the order they were added,
      each once, the elements in the order of their hash codes. -/
  setList : List String → List String
  /-- The listing holds the elements of the set, each once (distinct elements
      are taken to have distinct hash codes). -/
  setList_perm : ∀ xs, (setList xs).Perm xs

/-- Modelled from the spec: `expandLabels` is defined outside the given
    sources; the spec has the labels as a string to string mapping that the
    resolver carries into the request, so every entry is copied and no error
    is raised. -/
def expandLabels (v : Labels) : Except String Labels := .ok v

/-- Modelled from the spec: `convertStringSet` is defined outside the given
    sources; the spec has these attributes as sets of strings carried into
    the request, so the result lists the elements of the set. -/
def convertStringSet (set : List String) : List String := set

/-! ## Constants and tables -/

def triggerTypeIoT : String := "iot"
def triggerTypeMessageQueue : String := "message_queue"
def triggerTypeObjectStorage : String := "object_storage"
def triggerTypeTimer : String := "timer"
def triggerTypeLogGroup : String := "log_group"
def triggerTypeLogging : String := "logging"

/-- `functionTriggerTypesList`. -/
def functionTriggerTypesList : List String :=
  [triggerTypeIoT, triggerTypeMessageQueue, triggerTypeObjectStorage,
   triggerTypeTimer, triggerTypeLogGroup, triggerTypeLogging]

/-- The map `levelNameToEnum`: the lookup `v, ok := levelNameToEnum[name]`. -/
def levelNameToEnum (name : String) : Option LogLevel_Level :=
  if name = "debug" then some .DEBUG
  else if name = "error" then some .ERROR
  else if name = "fatal" then some .FATAL
  else if name = "info" then some .INFO
  else if name = "trace" then some .TRACE
  else if name = "warn" then some .WARN
  else none

/-- The map `levelEnumToName`: the lookup `l, ok := levelEnumToName[level]`. -/
def levelEnumToName : LogLevel_Level → Option String
  | .DEBUG => some "debug"
  | .ERROR => some "error"
  | .FATAL => some "fatal"
  | .INFO => some "info"
  | .TRACE => some "trace"
  | .WARN => some "warn"
  | .LEVEL_UNSPECIFIED => none

/-! ## The resolver: configuration to request -/

/-- `expandRetrySettings`. -/
def expandRetrySettings (env : Env) (d : ResourceData) : Except Fault (Option RetrySettings) := do
  let mut settings : RetrySettings := {}
  let mut present := false
  if d.GetOkStr "function.0.retry_attempts" then
    present := true
    let retryAttempts ← orErrorf "Cannot define function.retry_attempts for Yandex Cloud Functions Trigger: "
      (ParseIntText env.quote (d.GetStr "function.0.retry_attempts"))
    settings := { settings with RetryAttempts := retryAttempts }
  if d.GetOkStr "function.0.retry_interval" then
    present := true
    let retryInterval ← orErrorf "Cannot define function.retry_interval for Yandex Cloud Functions Trigger: "
      (ParseIntText env.quote (d.GetStr "function.0.retry_interval"))
    settings := { settings with Interval := some { Seconds := retryInterval } }
  if ¬ present then
    return none
  return some settings

/-- `expandDLQSettings`. -/
def expandDLQSettings (d : ResourceData) : Except Fault (Option PutQueueMessage) :=
  if ¬ d.GetOkList "dlq" then
    .ok none
  else
    .ok (some { QueueId := d.GetStr "dlq.0.queue_id",
                ServiceAccountId := d.GetStr "dlq.0.service_account_id" })

/-- `expandBatchSettings`; `pfx` is the parameter `prefix`. -/
def expandBatchSettings (env : Env) (d : ResourceData) (pfx : String) : Except Fault (Option BatchSettings) := do
  if ¬ d.GetOkStr (pfx ++ ".batch_size") then
    return none
  let mut settings : BatchSettings := {}
  let size ← orErrorf ("Cannot define " ++ pfx ++ ".batch_size for Yandex Cloud Functions Trigger: ")
    (ParseIntText env.quote (d.GetStr (pfx ++ ".batch_size")))
  settings := { settings with Size := size }
  let batchCutoff ← orErrorf ("Cannot define " ++ pfx ++ "batch_cutoff for Yandex Cloud Functions Trigger: ")
    (ParseIntText env.quote (d.GetStr (pfx ++ ".batch_cutoff")))
  settings := { settings with Cutoff := some { Seconds := batchCutoff } }
  return some settings

/-- The loop `for k, v := range eventsName` of the object-storage branch:
    the entries are visited in the order `env.eventsOrder` and the kind of
    every entry whose boolean is set is appended. -/
def objectStorageEvents (env : Env) (d : ResourceData) : List Trigger_ObjectStorageEventType :=
  (env.eventsOrder.visit
    ("object_storage.0.create", Trigger_ObjectStorageEventType.CREATE_OBJECT)
    ("object_storage.0.update", Trigger_ObjectStorageEventType.UPDATE_OBJECT)
    ("object_storage.0.delete", Trigger_ObjectStorageEventType.DELETE_OBJECT)).foldl
    (fun events kv => if d.GetBool kv.1 then events ++ [kv.2] else events) []

/-- The loop over `logging.0.levels` of the logging branch: the value of
    every name that `levelNameToEnum` knows, after lower-casing, is appended. -/
def loggingLevels (env : Env) (d : ResourceData) : List LogLevel_Level :=
  (convertStringSet (d.GetSet "logging.0.levels")).foldl
    (fun levels l =>
      match levelNameToEnum (ToLower env.lowerTable l) with
      | some v => levels ++ [v]
      | none => levels) []

/-- `resourceYandexFunctionTriggerCreate` up to the call of the API: the
    result is the request handed to `Trigger().Create`, or the error returned
    before that call.  The variables `req` and `triggerCnt` that the six
    `if` blocks update in turn are passed from block to block. -/
def resourceYandexFunctionTriggerCreate (env : Env) (d : ResourceData) : Except Fault CreateTriggerRequest := do
  let labels ← orErrorf "Error expanding labels while creating Yandex Cloud Functions Trigger: "
    (expandLabels (d.GetMap "labels"))
  let folderID ← orErrorf "Error getting folder ID while creating Yandex Cloud Functions Trigger: "
    (env.getFolderID d)
  let req : CreateTriggerRequest :=
    { FolderId := folderID, Name := d.GetStr "name", Description := d.GetStr "description",
      Labels := labels }
  let retrySettings ← expandRetrySettings env d
  let dlqSettings ← expandDLQSettings d
  let getInvokeFunctionWithRetry : Unit → InvokeFunctionWithRetry := fun _ =>
    { FunctionId := d.GetStr "function.0.id", FunctionTag := d.GetStr "function.0.tag",
      ServiceAccountId := d.GetStr "function.0.service_account_id",
      RetrySettings := retrySettings, DeadLetterQueue := dlqSettings }
  let getInvokeFunctionOnce : Unit → InvokeFunctionOnce := fun _ =>
    { FunctionId := d.GetStr "function.0.id", FunctionTag := d.GetStr "function.0.tag",
      ServiceAccountId := d.GetStr "function.0.service_account_id" }
  let triggerCnt := 0
  let (req, triggerCnt) ←
    (if d.GetOkList triggerTypeIoT then
      let iot : Trigger_IoTMessage :=
        { RegistryId := d.GetStr "iot.0.registry_id", DeviceId := d.GetStr "iot.0.device_id",
          MqttTopic := d.GetStr "iot.0.topic", Action := some (getInvokeFunctionWithRetry ()) }
      pure ({ req with Rule := some (.IotMessage iot) }, triggerCnt + 1)
    else pure (req, triggerCnt))
  let (req, triggerCnt) ←
    (if d.GetOkList triggerTypeMessageQueue then do
      let batch ← expandBatchSettings env d "message_queue.0"
      let messageQueue : Trigger_MessageQueue :=
        { QueueId := d.GetStr "message_queue.0.queue_id",
          ServiceAccountId := d.GetStr "message_queue.0.service_account_id",
          BatchSettings := batch, Action := some (getInvokeFunctionOnce ()) }
      let messageQueue ←
        (if d.GetOkStr "message_queue.0.visibility_timeout" then do
          let timeout ← orErrorf "Cannot define message_queue.visibility_timeout for Yandex Cloud Functions Trigger: "
            (ParseIntText env.quote (d.GetStr "message_queue.0.visibility_timeout"))
          pure { messageQueue with VisibilityTimeout := some { Seconds := timeout } }
        else pure messageQueue)
      pure ({ req with Rule := some (.MessageQueue messageQueue) }, triggerCnt + 1)
    else pure (req, triggerCnt))
  let (req, triggerCnt) ←
    (if d.GetOkList triggerTypeObjectStorage then
      let events := objectStorageEvents env d
      let storageTrigger : Trigger_ObjectStorage :=
        { BucketId := d.GetStr "object_storage.0.bucket_id", Prefix := d.GetStr "object_storage.0.prefix",
          Suffix := d.GetStr "object_storage.0.suffix", EventType := events,
          Action := some (getInvokeFunctionWithRetry ()) }
      pure ({ req with Rule := some (.ObjectStorage storageTrigger) }, triggerCnt + 1)
    else pure (req, triggerCnt))
  let (req, triggerCnt) ←
    (if d.GetOkList triggerTypeTimer then
      let timer : Trigger_Timer := { CronExpression := d.GetStr "timer.0.cron_expression" }
      let timer : Trigger_Timer :=
        if retrySettings.isSome ∨ dlqSettings.isSome then
          { timer with Action := some (.InvokeFunctionWithRetry (getInvokeFunctionWithRetry ())) }
        else
          { timer with Action := some (.InvokeFunction (getInvokeFunctionOnce ())) }
      pure ({ req with Rule := some (.Timer timer) }, triggerCnt + 1)
    else pure (req, triggerCnt))
  let (req, triggerCnt) ←
    (if d.GetOkList triggerTypeLogGroup then do
      let cloudLogs : Trigger_CloudLogs :=
        { LogGroupId := convertStringSet (d.GetSet "log_group.0.log_group_ids"),
          Action := some (getInvokeFunctionWithRetry ()) }
      let batch ← expandBatchSettings env d "log_group.0"
      let cloudLogs : Trigger_CloudLogs :=
        match batch with
        | some batch => { cloudLogs with BatchSettings := some { Size := batch.Size, Cutoff := batch.Cutoff } }
        | none => cloudLogs
      pure ({ req with Rule := some (.CloudLogs cloudLogs) }, triggerCnt + 1)
    else pure (req, triggerCnt))
  let (req, triggerCnt) ←
    (if d.GetOkList triggerTypeLogging then do
      let levels := loggingLevels env d
      let logging : Trigger_Logging :=
        { LogGroupId := d.GetStr "logging.0.group_id",
          ResourceId := convertStringSet (d.GetSet "logging.0.resource_ids"),
          ResourceType := convertStringSet (d.GetSet "logging.0.resource_types"),
          Levels := levels, Action := some (getInvokeFunctionWithRetry ()) }
      let batch ← expandBatchSettings env d "logging.0"
      let logging : Trigger_Logging :=
        match batch with
        | some batch => { logging with BatchSettings := some { Size := batch.Size, Cutoff := batch.Cutoff } }
        | none => logging
      pure ({ req with Rule := some (.Logging logging) }, triggerCnt + 1)
    else pure (req, triggerCnt))
  if triggerCnt ≠ 1 then
    throw (Errorf "Yandex Cloud Functions Trigger must have only one any iot, message_queue, object_storage, timer, logging section")
  return req

/-! ## The projector: response to configuration -/

/-- `d.Set` as used with an error check: the values written here have the
    type the schema declares for their key, so the write succeeds. -/
def ResourceData.Set (d : ResourceData) (key : String) (m : List (String × Value)) : Except Fault ResourceData :=
  .ok (d.SetBlock key m)

/-- `flattenYandexFunctionTriggerInvokeOnce`. -/
def flattenYandexFunctionTriggerInvokeOnce (d : ResourceData) (function : InvokeFunctionOnce) : Except Fault ResourceData :=
  let f : List (String × Value) :=
    [("id", .str function.FunctionId), ("tag", .str function.FunctionTag),
     ("service_account_id", .str function.ServiceAccountId)]
  d.Set "function" f

/-- `flattenYandexFunctionTriggerInvokeWithRetry`. -/
def flattenYandexFunctionTriggerInvokeWithRetry (d : ResourceData) (function : InvokeFunctionWithRetry) : Except Fault ResourceData := do
  let f : List (String × Value) :=
    [("id", .str function.FunctionId), ("tag", .str function.FunctionTag),
     ("service_account_id", .str function.ServiceAccountId)]
  let f : List (String × Value) :=
    match function.RetrySettings with
    | some retrySettings =>
      let f := f ++ [("retry_attempts", .str (FormatInt retrySettings.RetryAttempts))]
      match retrySettings.Interval with
      | some interval => f ++ [("retry_interval", .str (FormatInt interval.Seconds))]
      | none => f
    | none => f
  let d ← d.Set "function" f
  (match function.DeadLetterQueue with
   | some deadLetter =>
     let dlq : List (String × Value) :=
       [("queue_id", .str deadLetter.QueueId), ("service_account_id", .str deadLetter.ServiceAccountId)]
     d.Set "dlq" dlq
   | none => pure d)

/-- The access `batch.Cutoff.Seconds`: reading a field through a nil pointer
    panics. -/
def cutoffSeconds (cutoff : Option Duration) : Except Fault Int :=
  match cutoff with
  | some c => .ok c.Seconds
  | none => .error (Fault.panic "invalid memory address or nil pointer dereference")

/-- The map `events` of the object-storage branch of the projector: the
    lookup `name, ok := events[t]`. -/
def eventTypeName : Trigger_ObjectStorageEventType → Option String
  | .CREATE_OBJECT => some "create"
  | .UPDATE_OBJECT => some "update"
  | .DELETE_OBJECT => some "delete"
  | .UNSPECIFIED => none

/-- The loop over `storage.EventType`: `s[events[t]] = true` for every kind
    that the map `events` knows. -/
def storageEventEntries (eventType : List Trigger_ObjectStorageEventType) : List (String × Value) :=
  eventType.foldl
    (fun s t =>
      match eventTypeName t with
      | some name => s ++ [(name, Value.bool true)]
      | none => s) []

/-- The loops that fill a fresh `schema.Set` with the given strings; the
    result is the set as `Set.List()` lists it once it is stored. -/
def stringSetOf (env : Env) (xs : List String) : List String := env.setList (xs.foldl setAdd [])

/-- The loop over `logging.Levels`: the name of every level that
    `levelEnumToName` knows is added to a fresh set; the result is the set as
    `Set.List()` lists it once it is stored. -/
def levelNames (env : Env) (levels : List LogLevel_Level) : List String :=
  env.setList
    (levels.foldl
      (fun acc level =>
        match levelEnumToName level with
        | some l => setAdd acc l
        | none => acc) [])

/-- The entries `batch_size` and `batch_cutoff` that the projector adds to
    the map of a block when the batch settings are present: `size` is
    `batch.Size` and `cutoff` is `batch.Cutoff`, read as `batch.Cutoff.Seconds`. -/
def batchEntries (m : List (String × Value)) (size : Int) (cutoff : Option Duration) :
    Except Fault (List (String × Value)) := do
  let m := m ++ [("batch_size", .str (FormatInt size))]
  let seconds ← cutoffSeconds cutoff
  pure (m ++ [("batch_cutoff", .str (FormatInt seconds))])

/-- `flattenYandexFunctionTrigger`.  The configuration `d` and the map of the
    block under construction are passed from statement to statement. -/
def flattenYandexFunctionTrigger (env : Env) (d : ResourceData) (trig : Trigger) : Except Fault ResourceData := do
  let d := d.SetStr "name" trig.Name
  let d := d.SetStr "folder_id" trig.FolderId
  let d := d.SetStr "description" trig.Description
  let d := d.SetStr "created_at" (env.getTimestamp trig.CreatedAt)
  let d := d.SetMap "labels" trig.Labels
  if let some iot := GetIotMessage trig.Rule then
    let i : List (String × Value) :=
      [("registry_id", .str iot.RegistryId), ("device_id", .str iot.DeviceId),
       ("topic", .str iot.MqttTopic)]
    let d ← d.Set triggerTypeIoT i
    (match iot.Action with
     | some function => flattenYandexFunctionTriggerInvokeWithRetry d function
     | none => pure d)
  else if let some messageQueue := GetMessageQueue trig.Rule then
    let m : List (String × Value) :=
      [("queue_id", .str messageQueue.QueueId),
       ("service_account_id", .str messageQueue.ServiceAccountId)]
    let m : List (String × Value) :=
      match messageQueue.VisibilityTimeout with
      | some timeout => m ++ [("visibility_timeout", .str (FormatInt timeout.Seconds))]
      | none => m
    let m ←
      (match messageQueue.BatchSettings with
       | some batch => batchEntries m batch.Size batch.Cutoff
       | none => pure m)
    let d ← d.Set triggerTypeMessageQueue m
    (match messageQueue.Action with
     | some function => flattenYandexFunctionTriggerInvokeOnce d function
     | none => pure d)
  else if let some storage := GetObjectStorage trig.Rule then
    let s : List (String × Value) :=
      [("bucket_id", .str storage.BucketId), ("prefix", .str storage.Prefix),
       ("suffix", .str storage.Suffix)] ++ storageEventEntries storage.EventType
    let d ← d.Set triggerTypeObjectStorage s
    (match storage.Action with
     | some function => flattenYandexFunctionTriggerInvokeWithRetry d function
     | none => pure d)
  else if let some timer := GetTimer trig.Rule then
    let t : List (String × Value) := [("cron_expression", .str timer.CronExpression)]
    let d ← d.Set triggerTypeTimer t
    (match timer.GetInvokeFunctionWithRetry with
     | some function => flattenYandexFunctionTriggerInvokeWithRetry d function
     | none =>
       match timer.GetInvokeFunction with
       | some function => flattenYandexFunctionTriggerInvokeOnce d function
       | none => pure d)
  else if let some logGroup := GetCloudLogs trig.Rule then
    let groupIDs := stringSetOf env logGroup.LogGroupId
    let lg : List (String × Value) := [("log_group_ids", .set groupIDs)]
    let lg ←
      (match logGroup.BatchSettings with
       | some batch => batchEntries lg batch.Size batch.Cutoff
       | none => pure lg)
    let d ←
      (match logGroup.Action with
       | some function => flattenYandexFunctionTriggerInvokeWithRetry d function
       | none => pure d)
    d.Set triggerTypeLogGroup lg
  else if let some logging := GetLogging trig.Rule then
    let resourceIDs := stringSetOf env logging.ResourceId
    let resourceTypes := stringSetOf env logging.ResourceType
    let levels := levelNames env logging.Levels
    let lg : List (String × Value) :=
      [("group_id", .str logging.LogGroupId), ("resource_ids", .set resourceIDs),
       ("resource_types", .set resourceTypes), ("levels", .set levels)]
    let lg ←
      (match logging.BatchSettings with
       | some batch => batchEntries lg batch.Size batch.Cutoff
       | none => pure lg)
    let d ←
      (match logging.Action with
       | some function => flattenYandexFunctionTriggerInvokeWithRetry d function
       | none => pure d)
    d.Set triggerTypeLogging lg
  else
    pure d

/-! ## Predicates on configurations used to state the properties -/

/-- The text `s` is accepted by `strconv.ParseInt(s, 10, 64)`. -/
def parses (s : String) : Bool :=
  match ParseInt s with
  | .ok _ => true
  | .error _ => false

/-- The number of variant blocks that are populated, the final value of
    `triggerCnt` when no step fails. -/
def populatedCount (d : ResourceData) : Nat :=
  (functionTriggerTypesList.filter (fun t => d.GetOkList t)).length

/-- Block `t` is populated and no other variant block is. -/
def onlyPopulated (d : ResourceData) (t : String) : Prop :=
  ∀ u ∈ functionTriggerTypesList, (d.GetOkList u = true ↔ u = t)

instance (d : ResourceData) (t : String) : Decidable (onlyPopulated d t) := by
  unfold onlyPopulated; infer_instance

/-- The retry texts of the `function` block are empty or parse. -/
def retryTextValid (d : ResourceData) : Prop :=
  (d.strs "function.0.retry_attempts" = "" ∨ parses (d.strs "function.0.retry_attempts") = true) ∧
  (d.strs "function.0.retry_interval" = "" ∨ parses (d.strs "function.0.retry_interval") = true)

instance (d : ResourceData) : Decidable (retryTextValid d) := by
  unfold retryTextValid; infer_instance

/-- The batch texts under `pfx`: no `batch_size`, or both `batch_size` and
    `batch_cutoff` parse. -/
def batchTextValid (d : ResourceData) (pfx : String) : Prop :=
  d.strs (pfx ++ ".batch_size") = "" ∨
    (parses (d.strs (pfx ++ ".batch_size")) = true ∧ parses (d.strs (pfx ++ ".batch_cutoff")) = true)

instance (d : ResourceData) (pfx : String) : Decidable (batchTextValid d pfx) := by
  unfold batchTextValid; infer_instance

/-- Every numeric text that the resolver parses is valid: the retry texts,
    and for a populated `message_queue`, `log_group` or `logging` block its
    batch texts and visibility timeout. -/
def numericTextValid (d : ResourceData) : Prop :=
  retryTextValid d ∧
  (d.GetOkList "message_queue" = true →
    batchTextValid d "message_queue.0" ∧
    (d.strs "message_queue.0.visibility_timeout" = "" ∨
      parses (d.strs "message_queue.0.visibility_timeout") = true)) ∧
  (d.GetOkList "log_group" = true → batchTextValid d "log_group.0") ∧
  (d.GetOkList "logging" = true → batchTextValid d "logging.0")

instance (d : ResourceData) : Decidable (numericTextValid d) := by
  unfold numericTextValid; infer_instance

/-! ## Sample configurations -/

/-- An environment for the samples: ASCII-only texts, folder `b1g`, sets
    listed in the order their elements were added. -/
def sampleEnv : Env :=
  { lowerTable := fun c => c, quote := fun s => "\"" ++ s ++ "\"", eventsOrder := RangeOrder.o012,
    getFolderID := fun _ => .ok "b1g", getTimestamp := fun _ => "",
    setList := fun xs => xs, setList_perm := fun xs => List.Perm.refl xs }

/-- The configuration `timer { cron_expression = "* * * * *" }` with a
    `function` block and neither retry settings nor `dlq`. -/
def timerConfig : ResourceData :=
  { ResourceData.fresh with
    strs := fun k =>
      if k = "name" then "tick"
      else if k = "function.0.id" then "fn1"
      else if k = "timer.0.cron_expression" then "* * * * *"
      else "",
    lists := fun k => if k = "function" then 1 else if k = "timer" then 1 else 0 }

/-- A `message_queue` block with `batch_size = "5"` and no `batch_cutoff`. -/
def batchSizeOnlyConfig : ResourceData :=
  { ResourceData.fresh with
    strs := fun k =>
      if k = "name" then "mq"
      else if k = "function.0.id" then "fn1"
      else if k = "message_queue.0.queue_id" then "q1"
      else if k = "message_queue.0.service_account_id" then "sa1"
      else if k = "message_queue.0.batch_size" then "5"
      else "",
    lists := fun k => if k = "function" then 1 else if k = "message_queue" then 1 else 0 }

/-- The configuration
    `message_queue { queue_id = "q1" service_account_id = "sa1" batch_cutoff = "10" }`
    with no `batch_size`. -/
def cutoffOnlyConfig : ResourceData :=
  { ResourceData.fresh with
    strs := fun k =>
      if k = "name" then "mq"
      else if k = "function.0.id" then "fn1"
      else if k = "message_queue.0.queue_id" then "q1"
      else if k = "message_queue.0.service_account_id" then "sa1"
      else if k = "message_queue.0.batch_cutoff" then "10"
      else "",
    lists := fun k => if k = "function" then 1 else if k = "message_queue" then 1 else 0 }

/-- A `logging` block with `levels = ["debug", "bogus"]`. -/
def loggingConfig : ResourceData :=
  { ResourceData.fresh with
    strs := fun k =>
      if k = "name" then "log"
      else if k = "function.0.id" then "fn1"
      else if k = "logging.0.group_id" then "g1"
      else "",
    sets := fun k => if k = "logging.0.levels" then ["debug", "bogus"] else [],
    lists := fun k => if k = "function" then 1 else if k = "logging" then 1 else 0 }

/-- The names that `levelNameToEnum` has as keys. -/
def knownLevelNames : List String := ["debug", "error", "fatal", "info", "trace", "warn"]

/-- An `iot` block with `retry_attempts = "3"` and a `dlq` block. -/
def iotRetryConfig : ResourceData :=
  { ResourceData.fresh with
    strs := fun k =>
      if k = "name" then "iot"
      else if k = "function.0.id" then "fn1"
      else if k = "function.0.retry_attempts" then "3"
      else if k = "iot.0.registry_id" then "r1"
      else if k = "dlq.0.queue_id" then "q9"
      else if k = "dlq.0.service_account_id" then "sa9"
      else "",
    lists := fun k =>
      if k = "function" then 1 else if k = "iot" then 1 else if k = "dlq" then 1 else 0 }

/-- Path `k` belongs to the block `key`: it is the block itself or the path
    of a field of its item. -/
def touches (key : String) (k : String) : Prop :=
  k = key ∨ ∃ field : String, k = key ++ ".0." ++ field

/-- Configuration `d'` holds what `d` holds at every path outside `P`: the
    string, boolean, set, list and map stores agree there. -/
def agreesOff (P : String → Prop) (d d' : ResourceData) : Prop :=
  ∀ k, ¬ P k →
    d'.strs k = d.strs k ∧ d'.bools k = d.bools k ∧ d'.sets k = d.sets k ∧
    d'.lists k = d.lists k ∧ d'.maps k = d.maps k

/-- The key under which the projector stores a rule of each variant. -/
def variantKey : Trigger_Rule → String
  | .IotMessage _ => triggerTypeIoT
  | .MessageQueue _ => triggerTypeMessageQueue
  | .ObjectStorage _ => triggerTypeObjectStorage
  | .Timer _ => triggerTypeTimer
  | .CloudLogs _ => triggerTypeLogGroup
  | .Logging _ => triggerTypeLogging

/-- The top-level attributes that the projector writes for every trigger. -/
def topLevelKeys : List String := ["name", "folder_id", "description", "created_at", "labels"]

/-- The paths that the projector may write for the response `trig`: the
    top-level attributes, the `function` and `dlq` blocks and the block of the
    rule variant that is present. -/
def written (trig : Trigger) (k : String) : Prop :=
  k ∈ topLevelKeys ∨ touches "function" k ∨ touches "dlq" k ∨
    ∃ r, trig.Rule = some r ∧ touches (variantKey r) k

/-- Two texts differ at some position that both have: neither is the start
    of the other. -/
def incomparable : List Char → List Char → Bool
  | a :: as, b :: bs => if a = b then incomparable as bs else true
  | _, _ => false

/-- The names of the blocks and top-level attributes that the projector
    writes. -/
def projectorKeys : List String :=
  functionTriggerTypesList ++ ["function", "dlq"] ++ topLevelKeys

/-- A response with a Timer rule that invokes function `fn1` once. -/
def timerTrigger : Trigger :=
  { Id := "t1", FolderId := "b1g", CreatedAt := none, Name := "tick", Description := "", Labels := [],
    Rule := some (.Timer
      { CronExpression := "* * * * *",
        Action := some (.InvokeFunction { FunctionId := "fn1", FunctionTag := "", ServiceAccountId := "" }) }) }

/-- An `object_storage` block with `create = true` and `delete = true`. -/
def storageConfig : ResourceData :=
  { ResourceData.fresh with
    strs := fun k =>
      if k = "name" then "os"
      else if k = "function.0.id" then "fn1"
      else if k = "object_storage.0.bucket_id" then "b1"
      else "",
    bools := fun k =>
      if k = "object_storage.0.create" then true
      else if k = "object_storage.0.delete" then true
      else false,
    lists := fun k => if k = "function" then 1 else if k = "object_storage" then 1 else 0 }

/-- A list of digits in the form `formatBits` prints: not empty and, unless
    it is the single digit `0`, not starting with `0`. -/
def canonDigits : List Char → Bool
  | [] => false
  | ['0'] => true
  | c :: _ => c != '0'

/-- A decimal text in the form `strconv.FormatInt` prints: no `+` sign, no
    leading zero and no `-0`. -/
def canonicalDecimal (s : String) : Bool :=
  match s.data with
  | '+' :: _ => false
  | '-' :: rest => canonDigits rest && rest != ['0']
  | ds => canonDigits ds

/-- The numeric text at path `k` after a round trip: the text of `d` parses
    to a value, `d'` holds the decimal print of that value, and the print is
    the text of `d` exactly when that text is in the form `strconv.FormatInt`
    prints. -/
def numericRoundTrip (d d' : ResourceData) (k : String) : Prop :=
  ∃ n, ParseInt (d.strs k) = .ok n ∧ d'.strs k = FormatInt n ∧
    (d'.strs k = d.strs k ↔ canonicalDecimal (d.strs k) = true)

/-- The batch texts under `pfx` after a round trip: without `batch_size`
    neither text is read and both come back empty; with it, `batch_size` and
    `batch_cutoff` come back as `numericRoundTrip` says. -/
def batchRoundTrip (d d' : ResourceData) (pfx : String) : Prop :=
  (d.strs (pfx ++ ".batch_size") = "" →
    d'.strs (pfx ++ ".batch_size") = "" ∧ d'.strs (pfx ++ ".batch_cutoff") = "") ∧
  (d.strs (pfx ++ ".batch_size") ≠ "" →
    numericRoundTrip d d' (pfx ++ ".batch_size") ∧ numericRoundTrip d d' (pfx ++ ".batch_cutoff"))

/-- A `message_queue` block with `visibility_timeout = "+5"`. -/
def plusTimeoutConfig : ResourceData :=
  { ResourceData.fresh with
    strs := fun k =>
      if k = "name" then "mq"
      else if k = "function.0.id" then "fn1"
      else if k = "message_queue.0.queue_id" then "q1"
      else if k = "message_queue.0.service_account_id" then "sa1"
      else if k = "message_queue.0.visibility_timeout" then "+5"
      else "",
    lists := fun k => if k = "function" then 1 else if k = "message_queue" then 1 else 0 }

/-- A `logging` block with `levels = ["DEBUG"]`. -/
def upperLevelConfig : ResourceData :=
  { ResourceData.fresh with
    strs := fun k =>
      if k = "name" then "log"
      else if k = "function.0.id" then "fn1"
      else if k = "logging.0.group_id" then "g1"
      else "",
    sets := fun k => if k = "logging.0.levels" then ["DEBUG"] else [],
    lists := fun k => if k = "function" then 1 else if k = "logging" then 1 else 0 }

/-- The response that carries the name, description, labels and rule of a
    create request. -/
def triggerOfRequest (id : String) (req : CreateTriggerRequest) : Trigger :=
  { Id := id, FolderId := req.FolderId, CreatedAt := none, Name := req.Name,
    Description := req.Description, Labels := req.Labels, Rule := req.Rule }

/-- A response with a Logging rule whose levels are `DEBUG`, the unspecified
    level, `DEBUG` again and `WARN`. -/
def loggingTrigger : Trigger :=
  { Id := "t2", FolderId := "b1g", CreatedAt := none, Name := "log", Description := "", Labels := [],
    Rule := some (.Logging
      { LogGroupId := "g1", ResourceId := [], ResourceType := [],
        Levels := [.DEBUG, .LEVEL_UNSPECIFIED, .DEBUG, .WARN],
        Action := none }) }

/-- The text `t` occurs in the text `s` (`strings.Contains(s, t)`). -/
def contains (s t : String) : Prop := t.data <:+: s.data

instance (s t : String) : Decidable (contains s t) := by
  unfold contains; infer_instance

/-- The configuration
    `message_queue { queue_id = "q1" service_account_id = "sa1" batch_size = "1" batch_cutoff = "x" }`. -/
def badCutoffConfig : ResourceData :=
  { ResourceData.fresh with
    strs := fun k =>
      if k = "name" then "mq"
      else if k = "function.0.id" then "fn1"
      else if k = "message_queue.0.queue_id" then "q1"
      else if k = "message_queue.0.service_account_id" then "sa1"
      else if k = "message_queue.0.batch_size" then "1"
      else if k = "message_queue.0.batch_cutoff" then "x"
      else "",
    lists := fun k => if k = "function" then 1 else if k = "message_queue" then 1 else 0 }

/-- The configuration of `badCutoffConfig` with `batch_size = "x"` and
    `batch_cutoff = "1"` instead. -/
def badSizeConfig : ResourceData :=
  { ResourceData.fresh with
    strs := fun k =>
      if k = "name" then "mq"
      else if k = "function.0.id" then "fn1"
      else if k = "message_queue.0.queue_id" then "q1"
      else if k = "message_queue.0.service_account_id" then "sa1"
      else if k = "message_queue.0.batch_size" then "x"
      else if k = "message_queue.0.batch_cutoff" then "1"
      else "",
    lists := fun k => if k = "function" then 1 else if k = "message_queue" then 1 else 0 }

/-- The error of the check `triggerCnt != 1` at the end of the resolver. -/
def variantCountError : Fault :=
  Errorf "Yandex Cloud Functions Trigger must have only one any iot, message_queue, object_storage, timer, logging section"

/-- A configuration with both an `iot` and a `timer` block. -/
def twoBlocksConfig : ResourceData :=
  { ResourceData.fresh with
    strs := fun k =>
      if k = "name" then "two"
      else if k = "function.0.id" then "fn1"
      else if k = "iot.0.registry_id" then "r1"
      else if k = "timer.0.cron_expression" then "* * * * *"
      else "",
    lists := fun k =>
      if k = "function" then 1 else if k = "iot" then 1 else if k = "timer" then 1 else 0 }

/-- A configuration with both a `message_queue` and a `timer` block, the
    former with `batch_size = "x"`. -/
def twoBlocksBadSizeConfig : ResourceData :=
  { ResourceData.fresh with
    strs := fun k =>
      if k = "name" then "two"
      else if k = "function.0.id" then "fn1"
      else if k = "message_queue.0.queue_id" then "q1"
      else if k = "message_queue.0.service_account_id" then "sa1"
      else if k = "message_queue.0.batch_size" then "x"
      else if k = "timer.0.cron_expression" then "* * * * *"
      else "",
    lists := fun k =>
      if k = "function" then 1 else if k = "message_queue" then 1 else if k = "timer" then 1
      else 0 }

/-! ## The operations on the API -/

/-- `triggers.UpdateTriggerRequest`; `UpdateMask` lists the `Paths` of the
    field mask. -/
structure UpdateTriggerRequest where
  TriggerId : String
  Name : String
  Description : String
  Labels : Labels
  UpdateMask : List String
  deriving DecidableEq, Repr

/-- A request issued to the triggers API. -/
inductive ApiCall where
  | Create (req : CreateTriggerRequest)
  | Get (triggerId : String)
  | Update (req : UpdateTriggerRequest)
  deriving DecidableEq, Repr

/-- The handle of a long-running operation.  `Metadata` is the result of
    `op.Metadata()`: the text of its error, or the `TriggerId` of the metadata
    when it is a `*triggers.CreateTriggerMetadata` and `none` when it has
    another type.  `Wait` is the error of `op.Wait(ctx)`, `none` for nil. -/
structure Operation where
  Metadata : Except String (Option String)
  Wait : Option String

/-- The cloud SDK and the helpers of the provider that the operations call;
    an error is given by its text. -/
structure Api where
  /-- `config.sdk.WrapOperation(...Trigger().Create(ctx, &req))`. -/
  Create : CreateTriggerRequest → Except String Operation
  /-- `...Trigger().Get(ctx, &req)` by trigger id. -/
  Get : String → Except String Trigger
  /-- `...Trigger().Update(ctx, &req)` followed by `waitOperation`: the error,
      `none` for nil. -/
  Update : UpdateTriggerRequest → Option String
  /-- `handleNotFoundError(err, d, text)`: from the error, the id of `d` and
      the text, the id of `d` afterwards and the error returned. -/
  handleNotFoundError : String → String → String → String × Option Fault

/-- The `*schema.ResourceData` of an operation together with the requests
    issued so far: the configuration `d`, the resource id (`d.Id`, `d.SetId`),
    the answer of `d.HasChange`, the flag of `d.Partial`, and the requests in
    the order they were sent. -/
structure Session where
  d : ResourceData
  Id : String
  HasChange : String → Bool
  Partial : Bool
  calls : List ApiCall

/-- `resourceYandexFunctionTriggerRead`. -/
def resourceYandexFunctionTriggerRead (env : Env) (api : Api) (s : Session) : Session × Option Fault :=
  let s := { s with calls := s.calls ++ [ApiCall.Get s.Id] }
  match api.Get s.Id with
  | .error err =>
    let r := api.handleNotFoundError err s.Id ("Yandex Cloud Functions Trigger " ++ env.quote s.Id)
    ({ s with Id := r.1 }, r.2)
  | .ok trig =>
    match flattenYandexFunctionTrigger env s.d trig with
    | .error e => (s, some e)
    | .ok d => ({ s with d := d }, none)

/-- The whole of `resourceYandexFunctionTriggerCreate`: the request is built
    as `resourceYandexFunctionTriggerCreate` above describes, an error there
    is returned at once, and otherwise the request is sent, the id is set from
    the metadata of the operation, the operation is awaited and the trigger
    is read back. -/
def resourceYandexFunctionTriggerCreateOp (env : Env) (api : Api) (s : Session) : Session × Option Fault :=
  match resourceYandexFunctionTriggerCreate env s.d with
  | .error e => (s, some e)
  | .ok req =>
    let s := { s with calls := s.calls ++ [ApiCall.Create req] }
    match api.Create req with
    | .error err =>
      (s, some (Errorf ("Error while requesting API to create Yandex Cloud Functions Trigger: " ++ err)))
    | .ok op =>
      match op.Metadata with
      | .error err =>
        (s, some (Errorf ("Error while requesting API to create Yandex Cloud Function Trigger: " ++ err)))
      | .ok none =>
        (s, some (Errorf "Could not get Yandex Cloud Functions Trigger ID from create operation metadata"))
      | .ok (some triggerId) =>
        let s := { s with Id := triggerId }
        match op.Wait with
        | some err =>
          (s, some (Errorf ("Error while requesting API to create Yandex Cloud Functions Trigger: " ++ err)))
        | none => resourceYandexFunctionTriggerRead env api s

/-- `resourceYandexFunctionTriggerUpdate`. -/
def resourceYandexFunctionTriggerUpdate (env : Env) (api : Api) (s : Session) : Session × Option Fault :=
  match expandLabels (s.d.GetMap "labels") with
  | .error err =>
    (s, some (Errorf ("Error expanding labels while creating Yandex Cloud Functions Trigger: " ++ err)))
  | .ok labels =>
    let s := { s with Partial := true }
    let updatePaths : List String := []
    let updatePaths := if s.HasChange "name" then updatePaths ++ ["name"] else updatePaths
    let updatePaths := if s.HasChange "description" then updatePaths ++ ["description"] else updatePaths
    let updatePaths := if s.HasChange "labels" then updatePaths ++ ["labels"] else updatePaths
    if updatePaths.length ≠ 0 then
      let req : UpdateTriggerRequest :=
        { TriggerId := s.Id, Name := s.d.GetStr "name", Description := s.d.GetStr "description",
          Labels := labels, UpdateMask := updatePaths }
      let s := { s with calls := s.calls ++ [ApiCall.Update req] }
      match api.Update req with
      | some err =>
        (s, some (Errorf ("Error while requesting API to update Yandex Cloud Functions Trigger: " ++ err)))
      | none => resourceYandexFunctionTriggerRead env api { s with Partial := false }
    else
      resourceYandexFunctionTriggerRead env api { s with Partial := false }

/-- A session on configuration `d` before any request: no id, no change. -/
def Session.start (d : ResourceData) : Session :=
  { d := d, Id := "", HasChange := fun _ => false, Partial := false, calls := [] }

/-- An API whose every call succeeds: the trigger gets the id `trg1` and is
    read back as `timerTrigger`. -/
def sampleApi : Api :=
  { Create := fun _ => .ok { Metadata := .ok (some "trg1"), Wait := none },
    Get := fun _ => .ok timerTrigger,
    Update := fun _ => none,
    handleNotFoundError := fun err id _ => (id, some (Fault.error err)) }

/-- The rule of `trig` has batch settings whose `Cutoff` is nil. -/
def batchWithoutCutoff (trig : Trigger) : Bool :=
  match trig.Rule with
  | some (.MessageQueue mq) =>
    (match mq.BatchSettings with
     | some b => b.Cutoff.isNone
     | none => false)
  | some (.CloudLogs lg) =>
    (match lg.BatchSettings with
     | some b => b.Cutoff.isNone
     | none => false)
  | some (.Logging lg) =>
    (match lg.BatchSettings with
     | some b => b.Cutoff.isNone
     | none => false)
  | _ => false

/-- A response with a message-queue rule whose batch settings have the size
    10 and no cutoff. -/
def noCutoffTrigger : Trigger :=
  { Id := "t3", FolderId := "b1g", CreatedAt := none, Name := "mq", Description := "", Labels := [],
    Rule := some (.MessageQueue
      { QueueId := "q1", ServiceAccountId := "sa1",
        BatchSettings := some { Size := 10, Cutoff := none },
        Action := some { FunctionId := "fn1", FunctionTag := "", ServiceAccountId := "" } }) }

/-- A response with a timer rule that invokes with retry: three attempts and
    no interval. -/
def noIntervalTrigger : Trigger :=
  { Id := "t4", FolderId := "b1g", CreatedAt := none, Name := "tick", Description := "", Labels := [],
    Rule := some (.Timer
      { CronExpression := "* * * * *",
        Action := some (.InvokeFunctionWithRetry
          { FunctionId := "fn1", FunctionTag := "", ServiceAccountId := "",
            RetrySettings := some { RetryAttempts := 3, Interval := none },
            DeadLetterQueue := none }) }) }

/-- `functionTriggerConflictingTypes`. -/
def functionTriggerConflictingTypes (triggerType : String) : List String :=
  functionTriggerTypesList.foldl
    (fun res tType => if tType ≠ triggerType then res ++ [tType] else res) []

/-- A response with a message-queue rule whose batch settings have the size
    0 and a cutoff of minus seven seconds. -/
def batchTrigger : Trigger :=
  { Id := "t5", FolderId := "b1g", CreatedAt := none, Name := "mq", Description := "", Labels := [],
    Rule := some (.MessageQueue
      { QueueId := "q1", ServiceAccountId := "sa1",
        BatchSettings := some { Size := 0, Cutoff := some { Seconds := -7 } },
        Action := some { FunctionId := "fn1", FunctionTag := "", ServiceAccountId := "" } }) }

/-! ## Lemmas on the helpers of the resolver -/

theorem ok_bind {ε α β : Type} (a : α) (f : α → Except ε β) : (Except.ok a >>= f) = f a := rfl

theorem error_bind {ε α β : Type} (e : ε) (f : α → Except ε β) :
    ((Except.error e : Except ε α) >>= f) = Except.error e := rfl

theorem bind_eq_ok {ε α β : Type} (x : Except ε α) (f : α → Except ε β) (b : β) :
    (x >>= f) = Except.ok b ↔ ∃ a, x = Except.ok a ∧ f a = Except.ok b := by
  cases x <;> simp [ok_bind, error_bind]

theorem pure_eq_ok {ε α : Type} (a : α) : (pure a : Except ε α) = Except.ok a := rfl

theorem throw_eq_error {ε α : Type} (e : ε) : (throw e : Except ε α) = Except.error e := rfl

theorem orErrorf_ok {α : Type} (text : String) (v : α) : orErrorf text (.ok v) = .ok v := rfl

theorem orErrorf_error {α : Type} (text err : String) :
    orErrorf text (.error err : Except String α) = .error (Errorf (text ++ err)) := rfl

theorem orErrorf_eq_ok {α : Type} (text : String) (r : Except String α) (v : α) :
    orErrorf text r = .ok v ↔ r = .ok v := by
  cases r <;> simp [orErrorf]

theorem ParseIntText_ok (quote : String → String) (s : String) (n : Int) (h : ParseInt s = .ok n) :
    ParseIntText quote s = .ok n := by
  simp [ParseIntText, h]

theorem ParseIntText_eq_ok (quote : String → String) (s : String) (n : Int) :
    ParseIntText quote s = .ok n ↔ ParseInt s = .ok n := by
  unfold ParseIntText
  cases ParseInt s <;> simp

theorem parses_iff (s : String) : parses s = true ↔ ∃ n, ParseInt s = .ok n := by
  unfold parses
  cases h : ParseInt s <;> simp

theorem not_parses_empty : parses "" = false := by decide

theorem ne_empty_of_parses (s : String) (h : parses s = true) : s ≠ "" := by
  intro h0
  rw [h0, not_parses_empty] at h
  exact Bool.false_ne_true h

theorem expandDLQSettings_eq (d : ResourceData) :
    expandDLQSettings d = .ok
      (if d.GetOkList "dlq" = true then
        some { QueueId := d.strs "dlq.0.queue_id",
               ServiceAccountId := d.strs "dlq.0.service_account_id" }
       else none) := by
  unfold expandDLQSettings
  by_cases h : d.GetOkList "dlq" = true <;> simp [ResourceData.GetStr, h]

theorem expandRetrySettings_ok (env : Env) (d : ResourceData) (h : retryTextValid d) :
    ∃ rs, expandRetrySettings env d = .ok rs ∧
      (rs = none ↔ d.strs "function.0.retry_attempts" = "" ∧ d.strs "function.0.retry_interval" = "") := by
  obtain ⟨ha, hi⟩ := h
  rcases ha with ha | ha <;> rcases hi with hi | hi
  · exact ⟨none, by simp [expandRetrySettings, ResourceData.GetOkStr, ha, hi, ok_bind, pure_eq_ok], by simp [ha, hi]⟩
  · obtain ⟨n, hn⟩ := (parses_iff _).1 hi
    have hne := ne_empty_of_parses _ hi
    exact ⟨some { Interval := some { Seconds := n } },
      by simp [expandRetrySettings, ResourceData.GetOkStr, ResourceData.GetStr, ha, hne,
          ParseIntText_ok _ _ _ hn, orErrorf_ok, ok_bind, pure_eq_ok],
      by simp [hne]⟩
  · obtain ⟨n, hn⟩ := (parses_iff _).1 ha
    have hne := ne_empty_of_parses _ ha
    exact ⟨some { RetryAttempts := n },
      by simp [expandRetrySettings, ResourceData.GetOkStr, ResourceData.GetStr, hi, hne,
          ParseIntText_ok _ _ _ hn, orErrorf_ok, ok_bind, pure_eq_ok],
      by simp [hne]⟩
  · obtain ⟨n, hn⟩ := (parses_iff _).1 ha
    obtain ⟨m, hm⟩ := (parses_iff _).1 hi
    have hne := ne_empty_of_parses _ ha
    have hne2 := ne_empty_of_parses _ hi
    exact ⟨some { RetryAttempts := n, Interval := some { Seconds := m } },
      by simp [expandRetrySettings, ResourceData.GetOkStr, ResourceData.GetStr, hne, hne2,
          ParseIntText_ok _ _ _ hn, ParseIntText_ok _ _ _ hm, orErrorf_ok, ok_bind, pure_eq_ok],
      by simp [hne]⟩

theorem expandBatchSettings_none (env : Env) (d : ResourceData) (pfx : String)
    (h : d.strs (pfx ++ ".batch_size") = "") : expandBatchSettings env d pfx = .ok none := by
  simp [expandBatchSettings, ResourceData.GetOkStr, h, pure_eq_ok]

theorem expandBatchSettings_some (env : Env) (d : ResourceData) (pfx : String) (n c : Int)
    (h : d.strs (pfx ++ ".batch_size") ≠ "")
    (hn : ParseInt (d.strs (pfx ++ ".batch_size")) = .ok n)
    (hc : ParseInt (d.strs (pfx ++ ".batch_cutoff")) = .ok c) :
    expandBatchSettings env d pfx = .ok (some { Size := n, Cutoff := some { Seconds := c } }) := by
  simp [expandBatchSettings, ResourceData.GetOkStr, ResourceData.GetStr, h,
    ParseIntText_ok _ _ _ hn, ParseIntText_ok _ _ _ hc, orErrorf_ok, ok_bind, pure_eq_ok]

theorem expandBatchSettings_ok (env : Env) (d : ResourceData) (pfx : String)
    (h : batchTextValid d pfx) :
    ∃ b, expandBatchSettings env d pfx = .ok b ∧
      (b = none ↔ d.strs (pfx ++ ".batch_size") = "") := by
  rcases h with h | ⟨hs, hc⟩
  · exact ⟨none, expandBatchSettings_none env d pfx h, by simp [h]⟩
  · obtain ⟨n, hn⟩ := (parses_iff _).1 hs
    obtain ⟨c, hc⟩ := (parses_iff _).1 hc
    have hne := ne_empty_of_parses _ hs
    exact ⟨_, expandBatchSettings_some env d pfx n c hne hn hc, by simp [hne]⟩


/-! ## The request built for each variant -/

theorem create_iot (env : Env) (d : ResourceData) (fid : String) (rs : Option RetrySettings)
    (dl : Option PutQueueMessage)
    (hf : env.getFolderID d = .ok fid) (hr : expandRetrySettings env d = .ok rs)
    (hd : expandDLQSettings d = .ok dl) (h : onlyPopulated d "iot") :
    resourceYandexFunctionTriggerCreate env d = .ok
      { FolderId := fid, Name := d.strs "name", Description := d.strs "description",
        Labels := d.maps "labels",
        Rule := some (.IotMessage
          { RegistryId := d.strs "iot.0.registry_id", DeviceId := d.strs "iot.0.device_id",
            MqttTopic := d.strs "iot.0.topic",
            Action := some
              { FunctionId := d.strs "function.0.id", FunctionTag := d.strs "function.0.tag",
                ServiceAccountId := d.strs "function.0.service_account_id",
                RetrySettings := rs, DeadLetterQueue := dl } }) } := by
  simp [onlyPopulated, functionTriggerTypesList, triggerTypeIoT, triggerTypeMessageQueue,
    triggerTypeObjectStorage, triggerTypeTimer, triggerTypeLogGroup, triggerTypeLogging] at h
  obtain ⟨h1, h2, h3, h4, h5, h6⟩ := h
  simp [resourceYandexFunctionTriggerCreate, hf, hr, hd, h1, h2, h3, h4, h5, h6, expandLabels,
    ResourceData.GetStr, ResourceData.GetMap, triggerTypeIoT, triggerTypeMessageQueue,
    triggerTypeObjectStorage, triggerTypeTimer, triggerTypeLogGroup, triggerTypeLogging, ok_bind, orErrorf_ok, pure_eq_ok]

theorem create_message_queue (env : Env) (d : ResourceData) (fid : String) (rs : Option RetrySettings)
    (dl : Option PutQueueMessage) (b : Option BatchSettings) (vt : Option Duration)
    (hf : env.getFolderID d = .ok fid) (hr : expandRetrySettings env d = .ok rs)
    (hd : expandDLQSettings d = .ok dl) (h : onlyPopulated d "message_queue")
    (hb : expandBatchSettings env d "message_queue.0" = .ok b)
    (hv : (d.strs "message_queue.0.visibility_timeout" = "" ∧ vt = none) ∨
      (d.strs "message_queue.0.visibility_timeout" ≠ "" ∧
        ∃ t, ParseInt (d.strs "message_queue.0.visibility_timeout") = .ok t ∧ vt = some { Seconds := t })) :
    resourceYandexFunctionTriggerCreate env d = .ok
      { FolderId := fid, Name := d.strs "name", Description := d.strs "description",
        Labels := d.maps "labels",
        Rule := some (.MessageQueue
          { QueueId := d.strs "message_queue.0.queue_id",
            ServiceAccountId := d.strs "message_queue.0.service_account_id",
            BatchSettings := b, VisibilityTimeout := vt,
            Action := some
              { FunctionId := d.strs "function.0.id", FunctionTag := d.strs "function.0.tag",
                ServiceAccountId := d.strs "function.0.service_account_id" } }) } := by
  simp [onlyPopulated, functionTriggerTypesList, triggerTypeIoT, triggerTypeMessageQueue,
    triggerTypeObjectStorage, triggerTypeTimer, triggerTypeLogGroup, triggerTypeLogging] at h
  obtain ⟨h1, h2, h3, h4, h5, h6⟩ := h
  rcases hv with ⟨hv, rfl⟩ | ⟨hv, t, ht, rfl⟩
  · simp [resourceYandexFunctionTriggerCreate, hf, hr, hd, hb, hv, h1, h2, h3, h4, h5, h6, expandLabels,
      ResourceData.GetOkStr, ResourceData.GetStr, ResourceData.GetMap, triggerTypeIoT,
      triggerTypeMessageQueue, triggerTypeObjectStorage, triggerTypeTimer, triggerTypeLogGroup,
      triggerTypeLogging, ok_bind, orErrorf_ok, pure_eq_ok]
  · simp [resourceYandexFunctionTriggerCreate, hf, hr, hd, hb, hv, ParseIntText_ok _ _ _ ht, h1, h2, h3, h4, h5, h6, expandLabels,
      ResourceData.GetOkStr, ResourceData.GetStr, ResourceData.GetMap, triggerTypeIoT,
      triggerTypeMessageQueue, triggerTypeObjectStorage, triggerTypeTimer, triggerTypeLogGroup,
      triggerTypeLogging, ok_bind, orErrorf_ok, pure_eq_ok]

theorem create_object_storage (env : Env) (d : ResourceData) (fid : String) (rs : Option RetrySettings)
    (dl : Option PutQueueMessage)
    (hf : env.getFolderID d = .ok fid) (hr : expandRetrySettings env d = .ok rs)
    (hd : expandDLQSettings d = .ok dl) (h : onlyPopulated d "object_storage") :
    resourceYandexFunctionTriggerCreate env d = .ok
      { FolderId := fid, Name := d.strs "name", Description := d.strs "description",
        Labels := d.maps "labels",
        Rule := some (.ObjectStorage
          { BucketId := d.strs "object_storage.0.bucket_id", Prefix := d.strs "object_storage.0.prefix",
            Suffix := d.strs "object_storage.0.suffix", EventType := objectStorageEvents env d,
            Action := some
              { FunctionId := d.strs "function.0.id", FunctionTag := d.strs "function.0.tag",
                ServiceAccountId := d.strs "function.0.service_account_id",
                RetrySettings := rs, DeadLetterQueue := dl } }) } := by
  simp [onlyPopulated, functionTriggerTypesList, triggerTypeIoT, triggerTypeMessageQueue,
    triggerTypeObjectStorage, triggerTypeTimer, triggerTypeLogGroup, triggerTypeLogging] at h
  obtain ⟨h1, h2, h3, h4, h5, h6⟩ := h
  simp [resourceYandexFunctionTriggerCreate, hf, hr, hd, h1, h2, h3, h4, h5, h6, expandLabels,
    ResourceData.GetStr, ResourceData.GetMap, triggerTypeIoT, triggerTypeMessageQueue,
    triggerTypeObjectStorage, triggerTypeTimer, triggerTypeLogGroup, triggerTypeLogging, ok_bind, orErrorf_ok, pure_eq_ok]

theorem create_timer (env : Env) (d : ResourceData) (fid : String) (rs : Option RetrySettings)
    (dl : Option PutQueueMessage)
    (hf : env.getFolderID d = .ok fid) (hr : expandRetrySettings env d = .ok rs)
    (hd : expandDLQSettings d = .ok dl) (h : onlyPopulated d "timer") :
    resourceYandexFunctionTriggerCreate env d = .ok
      { FolderId := fid, Name := d.strs "name", Description := d.strs "description",
        Labels := d.maps "labels",
        Rule := some (.Timer
          { CronExpression := d.strs "timer.0.cron_expression",
            Action :=
              if rs.isSome ∨ dl.isSome then
                some (.InvokeFunctionWithRetry
                  { FunctionId := d.strs "function.0.id", FunctionTag := d.strs "function.0.tag",
                    ServiceAccountId := d.strs "function.0.service_account_id",
                    RetrySettings := rs, DeadLetterQueue := dl })
              else
                some (.InvokeFunction
                  { FunctionId := d.strs "function.0.id", FunctionTag := d.strs "function.0.tag",
                    ServiceAccountId := d.strs "function.0.service_account_id" }) }) } := by
  simp [onlyPopulated, functionTriggerTypesList, triggerTypeIoT, triggerTypeMessageQueue,
    triggerTypeObjectStorage, triggerTypeTimer, triggerTypeLogGroup, triggerTypeLogging] at h
  obtain ⟨h1, h2, h3, h4, h5, h6⟩ := h
  by_cases hc : rs.isSome = true ∨ dl.isSome = true
  · simp [resourceYandexFunctionTriggerCreate, hf, hr, hd, hc, h1, h2, h3, h4, h5, h6, expandLabels,
      ResourceData.GetStr, ResourceData.GetMap, triggerTypeIoT, triggerTypeMessageQueue,
      triggerTypeObjectStorage, triggerTypeTimer, triggerTypeLogGroup, triggerTypeLogging, ok_bind, orErrorf_ok, pure_eq_ok]
  · simp [resourceYandexFunctionTriggerCreate, hf, hr, hd, hc, h1, h2, h3, h4, h5, h6, expandLabels,
      ResourceData.GetStr, ResourceData.GetMap, triggerTypeIoT, triggerTypeMessageQueue,
      triggerTypeObjectStorage, triggerTypeTimer, triggerTypeLogGroup, triggerTypeLogging, ok_bind, orErrorf_ok, pure_eq_ok]

theorem create_log_group (env : Env) (d : ResourceData) (fid : String) (rs : Option RetrySettings)
    (dl : Option PutQueueMessage) (b : Option BatchSettings)
    (hf : env.getFolderID d = .ok fid) (hr : expandRetrySettings env d = .ok rs)
    (hd : expandDLQSettings d = .ok dl) (h : onlyPopulated d "log_group")
    (hb : expandBatchSettings env d "log_group.0" = .ok b) :
    resourceYandexFunctionTriggerCreate env d = .ok
      { FolderId := fid, Name := d.strs "name", Description := d.strs "description",
        Labels := d.maps "labels",
        Rule := some (.CloudLogs
          { LogGroupId := d.sets "log_group.0.log_group_ids",
            BatchSettings := b.map (fun x => { Size := x.Size, Cutoff := x.Cutoff }),
            Action := some
              { FunctionId := d.strs "function.0.id", FunctionTag := d.strs "function.0.tag",
                ServiceAccountId := d.strs "function.0.service_account_id",
                RetrySettings := rs, DeadLetterQueue := dl } }) } := by
  simp [onlyPopulated, functionTriggerTypesList, triggerTypeIoT, triggerTypeMessageQueue,
    triggerTypeObjectStorage, triggerTypeTimer, triggerTypeLogGroup, triggerTypeLogging] at h
  obtain ⟨h1, h2, h3, h4, h5, h6⟩ := h
  cases b <;>
  simp [resourceYandexFunctionTriggerCreate, hf, hr, hd, hb, h1, h2, h3, h4, h5, h6, expandLabels,
    ResourceData.GetStr, ResourceData.GetMap, ResourceData.GetSet, convertStringSet,
    triggerTypeIoT, triggerTypeMessageQueue,
    triggerTypeObjectStorage, triggerTypeTimer, triggerTypeLogGroup, triggerTypeLogging, ok_bind, orErrorf_ok, pure_eq_ok]

theorem create_logging (env : Env) (d : ResourceData) (fid : String) (rs : Option RetrySettings)
    (dl : Option PutQueueMessage) (b : Option BatchSettings)
    (hf : env.getFolderID d = .ok fid) (hr : expandRetrySettings env d = .ok rs)
    (hd : expandDLQSettings d = .ok dl) (h : onlyPopulated d "logging")
    (hb : expandBatchSettings env d "logging.0" = .ok b) :
    resourceYandexFunctionTriggerCreate env d = .ok
      { FolderId := fid, Name := d.strs "name", Description := d.strs "description",
        Labels := d.maps "labels",
        Rule := some (.Logging
          { LogGroupId := d.strs "logging.0.group_id",
            ResourceId := d.sets "logging.0.resource_ids",
            ResourceType := d.sets "logging.0.resource_types",
            Levels := loggingLevels env d,
            BatchSettings := b.map (fun x => { Size := x.Size, Cutoff := x.Cutoff }),
            Action := some
              { FunctionId := d.strs "function.0.id", FunctionTag := d.strs "function.0.tag",
                ServiceAccountId := d.strs "function.0.service_account_id",
                RetrySettings := rs, DeadLetterQueue := dl } }) } := by
  simp [onlyPopulated, functionTriggerTypesList, triggerTypeIoT, triggerTypeMessageQueue,
    triggerTypeObjectStorage, triggerTypeTimer, triggerTypeLogGroup, triggerTypeLogging] at h
  obtain ⟨h1, h2, h3, h4, h5, h6⟩ := h
  cases b <;>
  simp [resourceYandexFunctionTriggerCreate, hf, hr, hd, hb, h1, h2, h3, h4, h5, h6, expandLabels,
    ResourceData.GetStr, ResourceData.GetMap, ResourceData.GetSet, convertStringSet,
    triggerTypeIoT, triggerTypeMessageQueue,
    triggerTypeObjectStorage, triggerTypeTimer, triggerTypeLogGroup, triggerTypeLogging, ok_bind, orErrorf_ok, pure_eq_ok]


/-! ## The variant count -/

theorem filter_length_six (p : String → Bool) (a b c e f g : String) :
    ([a, b, c, e, f, g].filter p).length =
      (p a).toNat + (p b).toNat + (p c).toNat + (p e).toNat + (p f).toNat + (p g).toNat := by
  simp only [List.filter]
  cases p a <;> cases p b <;> cases p c <;> cases p e <;> cases p f <;> cases p g <;> rfl

theorem populatedCount_eq (d : ResourceData) :
    populatedCount d =
      (d.GetOkList "iot").toNat + (d.GetOkList "message_queue").toNat +
      (d.GetOkList "object_storage").toNat + (d.GetOkList "timer").toNat +
      (d.GetOkList "log_group").toNat + (d.GetOkList "logging").toNat := by
  simp only [populatedCount, functionTriggerTypesList, filter_length_six, triggerTypeIoT,
    triggerTypeMessageQueue, triggerTypeObjectStorage, triggerTypeTimer, triggerTypeLogGroup,
    triggerTypeLogging]

theorem onlyPopulated_iff (d : ResourceData) (t : String) :
    onlyPopulated d t ↔
      ((d.GetOkList "iot" = true ↔ "iot" = t) ∧ (d.GetOkList "message_queue" = true ↔ "message_queue" = t) ∧
       (d.GetOkList "object_storage" = true ↔ "object_storage" = t) ∧ (d.GetOkList "timer" = true ↔ "timer" = t) ∧
       (d.GetOkList "log_group" = true ↔ "log_group" = t) ∧ (d.GetOkList "logging" = true ↔ "logging" = t)) := by
  simp [onlyPopulated, functionTriggerTypesList, triggerTypeIoT,
    triggerTypeMessageQueue, triggerTypeObjectStorage, triggerTypeTimer, triggerTypeLogGroup,
    triggerTypeLogging]

theorem populatedCount_eq_one_iff (d : ResourceData) :
    populatedCount d = 1 ↔ ∃ t ∈ functionTriggerTypesList, onlyPopulated d t := by
  rw [populatedCount_eq]
  simp only [onlyPopulated_iff, functionTriggerTypesList, triggerTypeIoT,
    triggerTypeMessageQueue, triggerTypeObjectStorage, triggerTypeTimer, triggerTypeLogGroup,
    triggerTypeLogging]
  generalize d.GetOkList "iot" = b1
  generalize d.GetOkList "message_queue" = b2
  generalize d.GetOkList "object_storage" = b3
  generalize d.GetOkList "timer" = b4
  generalize d.GetOkList "log_group" = b5
  generalize d.GetOkList "logging" = b6
  cases b1 <;> cases b2 <;> cases b3 <;> cases b4 <;> cases b5 <;> cases b6 <;> simp


theorem create_ok_count (env : Env) (d : ResourceData) (req : CreateTriggerRequest)
    (h : resourceYandexFunctionTriggerCreate env d = .ok req) : populatedCount d = 1 := by
  rw [populatedCount_eq]
  unfold resourceYandexFunctionTriggerCreate at h
  simp only [bind_eq_ok, triggerTypeIoT, triggerTypeMessageQueue, triggerTypeObjectStorage,
    triggerTypeTimer, triggerTypeLogGroup, triggerTypeLogging] at h
  obtain ⟨labels, -, fid, -, rs, -, dl, -, ⟨r1, c1⟩, h1, ⟨r2, c2⟩, h2, ⟨r3, c3⟩, h3, ⟨r4, c4⟩, h4,
    ⟨r5, c5⟩, h5, ⟨r6, c6⟩, h6, h⟩ := h
  have e1 : c1 = (d.GetOkList "iot").toNat := by
    cases hb : d.GetOkList "iot" <;>
    simp only [hb, pure_eq_ok, Except.ok.injEq, Prod.mk.injEq, Bool.false_eq_true, if_false, if_true] at h1 <;>
    simp [← h1.2]
  have e2 : c2 = c1 + (d.GetOkList "message_queue").toNat := by
    cases hb : d.GetOkList "message_queue"
    · simp only [hb, pure_eq_ok, Except.ok.injEq, Prod.mk.injEq, Bool.false_eq_true, if_false] at h2
      simp [← h2.2]
    · simp only [hb, bind_eq_ok, pure_eq_ok, Except.ok.injEq, Prod.mk.injEq, if_true] at h2
      obtain ⟨_, _, _, _, _, h2⟩ := h2
      simp [← h2]
  have e3 : c3 = c2 + (d.GetOkList "object_storage").toNat := by
    cases hb : d.GetOkList "object_storage" <;>
    simp only [hb, pure_eq_ok, Except.ok.injEq, Prod.mk.injEq, Bool.false_eq_true, if_false, if_true] at h3 <;>
    simp [← h3.2]
  have e4 : c4 = c3 + (d.GetOkList "timer").toNat := by
    cases hb : d.GetOkList "timer" <;>
    simp only [hb, pure_eq_ok, Except.ok.injEq, Prod.mk.injEq, Bool.false_eq_true, if_false, if_true] at h4 <;>
    simp [← h4.2]
  have e5 : c5 = c4 + (d.GetOkList "log_group").toNat := by
    cases hb : d.GetOkList "log_group"
    · simp only [hb, pure_eq_ok, Except.ok.injEq, Prod.mk.injEq, Bool.false_eq_true, if_false] at h5
      simp [← h5.2]
    · simp only [hb, bind_eq_ok, pure_eq_ok, Except.ok.injEq, Prod.mk.injEq, if_true] at h5
      obtain ⟨_, _, _, h5⟩ := h5
      simp [← h5]
  have e6 : c6 = c5 + (d.GetOkList "logging").toNat := by
    cases hb : d.GetOkList "logging"
    · simp only [hb, pure_eq_ok, Except.ok.injEq, Prod.mk.injEq, Bool.false_eq_true, if_false] at h6
      simp [← h6.2]
    · simp only [hb, bind_eq_ok, pure_eq_ok, Except.ok.injEq, Prod.mk.injEq, if_true] at h6
      obtain ⟨_, _, _, h6⟩ := h6
      simp [← h6]
  have e7 : c6 = 1 := by
    by_contra hne
    simp [hne, throw_eq_error, error_bind] at h
  omega



/-! ## C1: exactly one variant -/

theorem visibility_cases (d : ResourceData)
    (hv : d.strs "message_queue.0.visibility_timeout" = "" ∨
      parses (d.strs "message_queue.0.visibility_timeout") = true) :
    ∃ vt : Option Duration,
      (d.strs "message_queue.0.visibility_timeout" = "" ∧ vt = none) ∨
      (d.strs "message_queue.0.visibility_timeout" ≠ "" ∧
        ∃ t, ParseInt (d.strs "message_queue.0.visibility_timeout") = .ok t ∧ vt = some { Seconds := t }) := by
  rcases hv with hv | hv
  · exact ⟨none, Or.inl ⟨hv, rfl⟩⟩
  · obtain ⟨t, ht⟩ := (parses_iff _).1 hv
    exact ⟨some { Seconds := t }, Or.inr ⟨ne_empty_of_parses _ hv, t, ht, rfl⟩⟩

/-- C1. For every configuration whose folder id resolves and whose numeric
    texts are valid: when exactly one of the six variant blocks is populated
    the request is built, and each getter of its `Rule` returns a value
    exactly for the populated block; when the number of populated blocks is
    not one the operation returns an error, whatever the rest of the
    configuration. -/
theorem create_exactly_one_variant (env : Env) (d : ResourceData) :
    (populatedCount d = 1 → numericTextValid d → (∃ fid, env.getFolderID d = .ok fid) →
      ∃ req, resourceYandexFunctionTriggerCreate env d = .ok req ∧
        (GetIotMessage req.Rule).isSome = d.GetOkList "iot" ∧
        (GetMessageQueue req.Rule).isSome = d.GetOkList "message_queue" ∧
        (GetObjectStorage req.Rule).isSome = d.GetOkList "object_storage" ∧
        (GetTimer req.Rule).isSome = d.GetOkList "timer" ∧
        (GetCloudLogs req.Rule).isSome = d.GetOkList "log_group" ∧
        (GetLogging req.Rule).isSome = d.GetOkList "logging") ∧
    (populatedCount d ≠ 1 → ∃ e, resourceYandexFunctionTriggerCreate env d = .error e) := by
  constructor
  · intro hc hv ⟨fid, hf⟩
    obtain ⟨t, ht, ho⟩ := (populatedCount_eq_one_iff d).1 hc
    obtain ⟨hr, hmq, hlg, hlog⟩ := hv
    obtain ⟨rs, hrs, -⟩ := expandRetrySettings_ok env d hr
    have hd := expandDLQSettings_eq d
    have ho' := (onlyPopulated_iff d t).1 ho
    simp only [functionTriggerTypesList, triggerTypeIoT, triggerTypeMessageQueue,
      triggerTypeObjectStorage, triggerTypeTimer, triggerTypeLogGroup, triggerTypeLogging,
      List.mem_cons, List.mem_singleton, List.not_mem_nil, or_false] at ht
    rcases ht with rfl | rfl | rfl | rfl | rfl | rfl
    · refine ⟨_, create_iot env d fid rs _ hf hrs hd ho, ?_⟩
      simp at ho'
      simp [GetIotMessage, GetMessageQueue, GetObjectStorage, GetTimer, GetCloudLogs, GetLogging, ho']
    · have hp : d.GetOkList "message_queue" = true := by simpa using ho'.2.1
      obtain ⟨hb, hvis⟩ := hmq hp
      obtain ⟨b, hb, -⟩ := expandBatchSettings_ok env d _ hb
      obtain ⟨vt, hvt⟩ := visibility_cases d hvis
      refine ⟨_, create_message_queue env d fid rs _ b vt hf hrs hd ho hb hvt, ?_⟩
      simp at ho'
      simp [GetIotMessage, GetMessageQueue, GetObjectStorage, GetTimer, GetCloudLogs, GetLogging, ho']
    · refine ⟨_, create_object_storage env d fid rs _ hf hrs hd ho, ?_⟩
      simp at ho'
      simp [GetIotMessage, GetMessageQueue, GetObjectStorage, GetTimer, GetCloudLogs, GetLogging, ho']
    · refine ⟨_, create_timer env d fid rs _ hf hrs hd ho, ?_⟩
      simp at ho'
      simp [GetIotMessage, GetMessageQueue, GetObjectStorage, GetTimer, GetCloudLogs, GetLogging, ho']
    · have hp : d.GetOkList "log_group" = true := by simpa using ho'.2.2.2.2.1
      obtain ⟨b, hb, -⟩ := expandBatchSettings_ok env d _ (hlg hp)
      refine ⟨_, create_log_group env d fid rs _ b hf hrs hd ho hb, ?_⟩
      simp at ho'
      simp [GetIotMessage, GetMessageQueue, GetObjectStorage, GetTimer, GetCloudLogs, GetLogging, ho']
    · have hp : d.GetOkList "logging" = true := by simpa using ho'.2.2.2.2.2
      obtain ⟨b, hb, -⟩ := expandBatchSettings_ok env d _ (hlog hp)
      refine ⟨_, create_logging env d fid rs _ b hf hrs hd ho hb, ?_⟩
      simp at ho'
      simp [GetIotMessage, GetMessageQueue, GetObjectStorage, GetTimer, GetCloudLogs, GetLogging, ho']
  · intro hne
    cases h : resourceYandexFunctionTriggerCreate env d with
    | error e => exact ⟨e, rfl⟩
    | ok req => exact absurd (create_ok_count env d req h) hne


theorem create_exactly_one_variant_witness :
    (∃ req, resourceYandexFunctionTriggerCreate sampleEnv timerConfig = .ok req ∧
        (GetIotMessage req.Rule).isSome = timerConfig.GetOkList "iot" ∧
        (GetMessageQueue req.Rule).isSome = timerConfig.GetOkList "message_queue" ∧
        (GetObjectStorage req.Rule).isSome = timerConfig.GetOkList "object_storage" ∧
        (GetTimer req.Rule).isSome = timerConfig.GetOkList "timer" ∧
        (GetCloudLogs req.Rule).isSome = timerConfig.GetOkList "log_group" ∧
        (GetLogging req.Rule).isSome = timerConfig.GetOkList "logging") ∧
    (∃ e, resourceYandexFunctionTriggerCreate sampleEnv ResourceData.fresh = .error e) :=
  ⟨(create_exactly_one_variant sampleEnv timerConfig).1 (by decide) (by decide) ⟨"b1g", rfl⟩,
   (create_exactly_one_variant sampleEnv ResourceData.fresh).2 (by decide)⟩


/-! ## The projector on each variant -/

theorem flatten_timer_once (env : Env) (d0 : ResourceData) (trig : Trigger) (cron : String)
    (f : InvokeFunctionOnce)
    (h : trig.Rule = some (.Timer { CronExpression := cron, Action := some (.InvokeFunction f) })) :
    ∃ d', flattenYandexFunctionTrigger env d0 trig = .ok d' ∧
      d'.strs "timer.0.cron_expression" = cron ∧ d'.lists "timer" = 1 ∧
      d'.strs "function.0.id" = f.FunctionId ∧ d'.strs "function.0.tag" = f.FunctionTag ∧
      d'.strs "function.0.service_account_id" = f.ServiceAccountId ∧
      d'.strs "function.0.retry_attempts" = d0.strs "function.0.retry_attempts" ∧
      d'.strs "function.0.retry_interval" = d0.strs "function.0.retry_interval" ∧
      d'.lists "dlq" = d0.lists "dlq" ∧
      d'.strs "dlq.0.queue_id" = d0.strs "dlq.0.queue_id" ∧
      d'.strs "dlq.0.service_account_id" = d0.strs "dlq.0.service_account_id" := by
  cases trig
  simp only at h
  subst h
  refine ⟨_, rfl, ?_⟩
  simp [ResourceData.SetBlock, ResourceData.setField, ResourceData.SetStr, ResourceData.SetMap,
      triggerTypeTimer]

/-! ## C3: the invoke policy of a timer -/

/-- C3. For every configuration whose only variant block is `timer` (folder
    id resolved, retry texts valid) the request is built with a Timer rule
    that keeps the cron expression; it carries `InvokeFunctionWithRetry`
    exactly when `function.0.retry_attempts` or `function.0.retry_interval`
    is non-empty or a `dlq` block is present, and `InvokeFunctionOnce`
    exactly otherwise; projecting the once shape into any configuration
    stores the cron expression and writes neither the retry attributes nor
    the `dlq` block, which keep the value they had (unset when fresh). -/
theorem timer_invoke_policy (env : Env) (d : ResourceData)
    (ho : onlyPopulated d "timer") (hr : retryTextValid d)
    (hf : ∃ fid, env.getFolderID d = .ok fid) :
    ∃ req timer, resourceYandexFunctionTriggerCreate env d = .ok req ∧
      req.Rule = some (.Timer timer) ∧
      timer.CronExpression = d.strs "timer.0.cron_expression" ∧
      (timer.GetInvokeFunctionWithRetry.isSome = true ↔
        (d.strs "function.0.retry_attempts" ≠ "" ∨ d.strs "function.0.retry_interval" ≠ "" ∨
          d.GetOkList "dlq" = true)) ∧
      (timer.GetInvokeFunction.isSome = true ↔
        ¬ (d.strs "function.0.retry_attempts" ≠ "" ∨ d.strs "function.0.retry_interval" ≠ "" ∨
          d.GetOkList "dlq" = true)) ∧
      (¬ (d.strs "function.0.retry_attempts" ≠ "" ∨ d.strs "function.0.retry_interval" ≠ "" ∨
          d.GetOkList "dlq" = true) →
        ∀ (d0 : ResourceData) (trig : Trigger), trig.Rule = req.Rule →
          ∃ d', flattenYandexFunctionTrigger env d0 trig = .ok d' ∧
            d'.strs "timer.0.cron_expression" = d.strs "timer.0.cron_expression" ∧
            d'.strs "function.0.retry_attempts" = d0.strs "function.0.retry_attempts" ∧
            d'.strs "function.0.retry_interval" = d0.strs "function.0.retry_interval" ∧
            d'.lists "dlq" = d0.lists "dlq" ∧
            d'.strs "dlq.0.queue_id" = d0.strs "dlq.0.queue_id" ∧
            d'.strs "dlq.0.service_account_id" = d0.strs "dlq.0.service_account_id") := by
  obtain ⟨fid, hf⟩ := hf
  obtain ⟨rs, hrs, hnone⟩ := expandRetrySettings_ok env d hr
  have hd := expandDLQSettings_eq d
  refine ⟨_, _, create_timer env d fid rs _ hf hrs hd ho, rfl, rfl, ?_, ?_, ?_⟩
  · by_cases hq : d.GetOkList "dlq" = true
    · simp [Trigger_Timer.GetInvokeFunctionWithRetry, hq]
    · cases rs with
      | none =>
        have := hnone.1 rfl
        simp [Trigger_Timer.GetInvokeFunctionWithRetry, hq, this]
      | some r =>
        have : ¬ (d.strs "function.0.retry_attempts" = "" ∧ d.strs "function.0.retry_interval" = "") :=
          fun hh => by simpa using hnone.2 hh
        simp [Trigger_Timer.GetInvokeFunctionWithRetry, hq]
        tauto
  · by_cases hq : d.GetOkList "dlq" = true
    · simp [Trigger_Timer.GetInvokeFunction, hq]
    · cases rs with
      | none =>
        have := hnone.1 rfl
        simp [Trigger_Timer.GetInvokeFunction, hq, this]
      | some r =>
        have : ¬ (d.strs "function.0.retry_attempts" = "" ∧ d.strs "function.0.retry_interval" = "") :=
          fun hh => by simpa using hnone.2 hh
        simp [Trigger_Timer.GetInvokeFunction, hq]
        tauto
  · intro hno d0 trig ht
    have hq : ¬ d.GetOkList "dlq" = true := fun h => hno (Or.inr (Or.inr h))
    have hrn : rs = none := hnone.2 ⟨by_contra fun h => hno (Or.inl h),
      by_contra fun h => hno (Or.inr (Or.inl h))⟩
    subst hrn
    simp only [hq, if_false, Option.isSome_none, Bool.false_eq_true, or_self] at ht
    obtain ⟨d', hd', h1, -, -, -, -, h2, h3, h4, h5, h6⟩ := flatten_timer_once env d0 trig _ _ ht
    exact ⟨d', hd', h1, h2, h3, h4, h5, h6⟩

theorem timer_invoke_policy_witness :
    ∃ req timer, resourceYandexFunctionTriggerCreate sampleEnv timerConfig = .ok req ∧
      req.Rule = some (.Timer timer) ∧
      timer.CronExpression = "* * * * *" ∧
      timer.GetInvokeFunction.isSome = true ∧
      ∃ d', flattenYandexFunctionTrigger sampleEnv ResourceData.fresh
              { Id := "t1", FolderId := req.FolderId, CreatedAt := none, Name := req.Name,
                Description := req.Description, Labels := req.Labels, Rule := req.Rule } = .ok d' ∧
            d'.strs "timer.0.cron_expression" = "* * * * *" ∧
            d'.strs "function.0.retry_attempts" = "" ∧ d'.lists "dlq" = 0 := by
  obtain ⟨req, timer, h1, h2, h3, -, h5, h6⟩ :=
    timer_invoke_policy sampleEnv timerConfig (by decide) (by decide) ⟨"b1g", rfl⟩
  have hno : ¬ (timerConfig.strs "function.0.retry_attempts" ≠ "" ∨
      timerConfig.strs "function.0.retry_interval" ≠ "" ∨ timerConfig.GetOkList "dlq" = true) := by
    decide
  obtain ⟨d', hd', e1, e2, -, e4, -, -⟩ := h6 hno ResourceData.fresh
    { Id := "t1", FolderId := req.FolderId, CreatedAt := none, Name := req.Name,
      Description := req.Description, Labels := req.Labels, Rule := req.Rule } rfl
  exact ⟨req, timer, h1, h2, h3, h5.2 hno, d', hd', e1, e2, e4⟩



/-! ## C5, C7: batch settings -/

/-- C5. Whenever `<prefix>.batch_size` is a non-empty text and
    `<prefix>.batch_cutoff` is empty, `expandBatchSettings` returns an error
    (and with it no settings), for every prefix and also when `batch_size` is
    a valid decimal integer. -/
theorem expandBatchSettings_size_without_cutoff (env : Env) (d : ResourceData) (pfx : String)
    (hs : d.strs (pfx ++ ".batch_size") ≠ "") (hc : d.strs (pfx ++ ".batch_cutoff") = "") :
    ∃ msg, expandBatchSettings env d pfx = .error (Fault.error msg) := by
  cases hn : ParseInt (d.strs (pfx ++ ".batch_size")) with
  | error e =>
    refine ⟨"Cannot define " ++ pfx ++ ".batch_size for Yandex Cloud Functions Trigger: " ++
      e.Error env.quote (d.strs (pfx ++ ".batch_size")), ?_⟩
    simp [expandBatchSettings, ResourceData.GetOkStr, ResourceData.GetStr, hs, ParseIntText, hn,
      orErrorf_error, error_bind, Errorf]
  | ok n =>
    have he : ParseInt "" = .error NumErr.ErrSyntax := by decide
    refine ⟨"Cannot define " ++ pfx ++ "batch_cutoff for Yandex Cloud Functions Trigger: " ++
      NumErr.ErrSyntax.Error env.quote "", ?_⟩
    simp [expandBatchSettings, ResourceData.GetOkStr, ResourceData.GetStr, hs, hc, ParseIntText, hn, he,
      orErrorf_error, orErrorf_ok, ok_bind, error_bind, Errorf]

theorem expandBatchSettings_size_without_cutoff_witness :
    ParseInt (batchSizeOnlyConfig.strs "message_queue.0.batch_size") = .ok 5 ∧
    ∃ msg, expandBatchSettings sampleEnv batchSizeOnlyConfig "message_queue.0" = .error (Fault.error msg) :=
  ⟨by decide,
   expandBatchSettings_size_without_cutoff sampleEnv batchSizeOnlyConfig "message_queue.0"
     (by decide) (by decide)⟩

/-- C7. With `<prefix>.batch_size` empty `expandBatchSettings` returns nil
    settings and no error, for every prefix and whatever `batch_cutoff`
    holds; hence a configuration whose only variant block is a
    `message_queue` without `batch_size` (folder id resolved, retry texts and
    visibility timeout valid) is resolved into a MessageQueue rule whose
    `BatchSettings` is nil. -/
theorem no_batch_size_no_batching (env : Env) (d : ResourceData) :
    (∀ pfx, d.strs (pfx ++ ".batch_size") = "" → expandBatchSettings env d pfx = .ok none) ∧
    (onlyPopulated d "message_queue" → d.strs "message_queue.0.batch_size" = "" →
      retryTextValid d →
      (d.strs "message_queue.0.visibility_timeout" = "" ∨
        parses (d.strs "message_queue.0.visibility_timeout") = true) →
      (∃ fid, env.getFolderID d = .ok fid) →
      ∃ req mq, resourceYandexFunctionTriggerCreate env d = .ok req ∧
        req.Rule = some (.MessageQueue mq) ∧ mq.BatchSettings = none) := by
  refine ⟨fun pfx h => expandBatchSettings_none env d pfx h, ?_⟩
  intro ho hs hr hv ⟨fid, hf⟩
  obtain ⟨rs, hrs, -⟩ := expandRetrySettings_ok env d hr
  obtain ⟨vt, hvt⟩ := visibility_cases d hv
  have hb := expandBatchSettings_none env d "message_queue.0" (by simpa using hs)
  exact ⟨_, _, create_message_queue env d fid rs _ none vt hf hrs (expandDLQSettings_eq d) ho hb hvt,
    rfl, rfl⟩

theorem no_batch_size_no_batching_witness :
    cutoffOnlyConfig.strs "message_queue.0.batch_cutoff" = "10" ∧
    expandBatchSettings sampleEnv cutoffOnlyConfig "message_queue.0" = .ok none ∧
    ∃ req mq, resourceYandexFunctionTriggerCreate sampleEnv cutoffOnlyConfig = .ok req ∧
      req.Rule = some (.MessageQueue mq) ∧ mq.BatchSettings = none :=
  ⟨by decide,
   (no_batch_size_no_batching sampleEnv cutoffOnlyConfig).1 "message_queue.0" (by decide),
   (no_batch_size_no_batching sampleEnv cutoffOnlyConfig).2 (by decide) (by decide) (by decide)
     (by decide) ⟨"b1g", rfl⟩⟩



/-! ## C8: severity levels in the resolve direction -/

theorem foldl_append_toList {α β : Type} (f : List β → α → List β) (g : α → Option β)
    (hf : ∀ ys x, f ys x = ys ++ (g x).toList) (xs : List α) (acc : List β) :
    xs.foldl f acc = acc ++ xs.filterMap g := by
  induction xs generalizing acc with
  | nil => simp
  | cons x xs ih =>
    simp only [List.foldl_cons, List.filterMap_cons, ih, hf]
    cases g x with
    | none => simp
    | some v => simp

theorem loggingLevels_eq (env : Env) (d : ResourceData) :
    loggingLevels env d =
      (d.sets "logging.0.levels").filterMap (fun l => levelNameToEnum (ToLower env.lowerTable l)) := by
  unfold loggingLevels convertStringSet ResourceData.GetSet
  rw [foldl_append_toList _ (fun l => levelNameToEnum (ToLower env.lowerTable l))]
  · rfl
  · intro ys x
    cases levelNameToEnum (ToLower env.lowerTable x) <;> simp

theorem levelNameToEnum_isSome (name : String) :
    (levelNameToEnum name).isSome = true ↔ name ∈ knownLevelNames := by
  unfold levelNameToEnum knownLevelNames
  by_cases h1 : name = "debug"
  · simp [h1]
  by_cases h2 : name = "error"
  · simp [h2]
  by_cases h3 : name = "fatal"
  · simp [h3]
  by_cases h4 : name = "info"
  · simp [h4]
  by_cases h5 : name = "trace"
  · simp [h5]
  by_cases h6 : name = "warn"
  · simp [h6]
  simp [h1, h2, h3, h4, h5, h6]

theorem length_filterMap_eq_countP {α β : Type} (g : α → Option β) (xs : List α) :
    (xs.filterMap g).length = xs.countP (fun x => (g x).isSome) := by
  induction xs with
  | nil => simp
  | cons x xs ih =>
    simp only [List.filterMap_cons, List.countP_cons]
    cases g x with
    | none => simp [ih]
    | some v => simp [ih]

/-- C8. For every list of names in `logging.0.levels` of a configuration
    whose only variant block is `logging` (folder id resolved, retry and batch
    texts valid), the request is built and `Rule.Logging.Levels` holds, in
    order, the enum value of each name whose lower-cased form is one of
    `debug`, `error`, `fatal`, `info`, `trace`, `warn`; every other name is
    dropped without an error, so the length of `Levels` is the number of
    recognised names. -/
theorem logging_levels_resolved (env : Env) (d : ResourceData)
    (ho : onlyPopulated d "logging") (hr : retryTextValid d) (hb : batchTextValid d "logging.0")
    (hf : ∃ fid, env.getFolderID d = .ok fid) :
    ∃ req lg, resourceYandexFunctionTriggerCreate env d = .ok req ∧
      req.Rule = some (.Logging lg) ∧
      lg.Levels = (d.sets "logging.0.levels").filterMap
        (fun l => levelNameToEnum (ToLower env.lowerTable l)) ∧
      lg.Levels.length = (d.sets "logging.0.levels").countP
        (fun l => decide (ToLower env.lowerTable l ∈ knownLevelNames)) ∧
      (∀ v, v ∈ lg.Levels ↔ ∃ l ∈ d.sets "logging.0.levels",
        ToLower env.lowerTable l ∈ knownLevelNames ∧
        levelNameToEnum (ToLower env.lowerTable l) = some v) := by
  obtain ⟨fid, hf⟩ := hf
  obtain ⟨rs, hrs, -⟩ := expandRetrySettings_ok env d hr
  obtain ⟨b, hb, -⟩ := expandBatchSettings_ok env d _ hb
  refine ⟨_, _, create_logging env d fid rs _ b hf hrs (expandDLQSettings_eq d) ho hb, rfl,
    loggingLevels_eq env d, ?_, ?_⟩
  · simp only [loggingLevels_eq, length_filterMap_eq_countP]
    congr 1
    funext l
    rw [Bool.eq_iff_iff]
    simp [levelNameToEnum_isSome]
  · intro v
    simp only [loggingLevels_eq, List.mem_filterMap]
    constructor
    · rintro ⟨l, hl, hv⟩
      refine ⟨l, hl, ?_, hv⟩
      rw [← levelNameToEnum_isSome, hv]
      rfl
    · rintro ⟨l, hl, -, hv⟩
      exact ⟨l, hl, hv⟩

theorem logging_levels_resolved_witness :
    ∃ req lg, resourceYandexFunctionTriggerCreate sampleEnv loggingConfig = .ok req ∧
      req.Rule = some (.Logging lg) ∧ lg.Levels = [LogLevel_Level.DEBUG] ∧ lg.Levels.length = 1 := by
  obtain ⟨req, lg, h1, h2, h3, h4, -⟩ :=
    logging_levels_resolved sampleEnv loggingConfig (by decide) (by decide) (by decide) ⟨"b1g", rfl⟩
  refine ⟨req, lg, h1, h2, ?_, ?_⟩
  · rw [h3]; decide
  · rw [h4]; decide

/-! ## C9: the invoke policy of the other variants -/

/-- C9. For every configuration (folder id resolved, retry texts valid) the
    retry settings and the dead-letter queue are derived once, from the
    `function` and `dlq` blocks (nil exactly when not configured); the rule
    built for `iot`, `object_storage`, `log_group` or `logging` carries an
    `InvokeFunctionWithRetry` made of the function id, tag and service
    account id of the `function` block and of those two values, and the rule
    built for `message_queue` carries an `InvokeFunctionOnce` with the
    function id, tag and service account id only. -/
theorem invoke_policy_per_variant (env : Env) (d : ResourceData) (hr : retryTextValid d)
    (hf : ∃ fid, env.getFolderID d = .ok fid) :
    ∃ rs dl, expandRetrySettings env d = .ok rs ∧ expandDLQSettings d = .ok dl ∧
      (rs = none ↔ d.strs "function.0.retry_attempts" = "" ∧ d.strs "function.0.retry_interval" = "") ∧
      (dl = if d.GetOkList "dlq" = true then
          some { QueueId := d.strs "dlq.0.queue_id", ServiceAccountId := d.strs "dlq.0.service_account_id" }
        else none) ∧
      (onlyPopulated d "iot" →
        ∃ req r, resourceYandexFunctionTriggerCreate env d = .ok req ∧
          req.Rule = some (.IotMessage r) ∧
          r.Action = some
            { FunctionId := d.strs "function.0.id", FunctionTag := d.strs "function.0.tag",
              ServiceAccountId := d.strs "function.0.service_account_id",
              RetrySettings := rs, DeadLetterQueue := dl }) ∧
      (onlyPopulated d "object_storage" →
        ∃ req r, resourceYandexFunctionTriggerCreate env d = .ok req ∧
          req.Rule = some (.ObjectStorage r) ∧
          r.Action = some
            { FunctionId := d.strs "function.0.id", FunctionTag := d.strs "function.0.tag",
              ServiceAccountId := d.strs "function.0.service_account_id",
              RetrySettings := rs, DeadLetterQueue := dl }) ∧
      (onlyPopulated d "log_group" → batchTextValid d "log_group.0" →
        ∃ req r, resourceYandexFunctionTriggerCreate env d = .ok req ∧
          req.Rule = some (.CloudLogs r) ∧
          r.Action = some
            { FunctionId := d.strs "function.0.id", FunctionTag := d.strs "function.0.tag",
              ServiceAccountId := d.strs "function.0.service_account_id",
              RetrySettings := rs, DeadLetterQueue := dl }) ∧
      (onlyPopulated d "logging" → batchTextValid d "logging.0" →
        ∃ req r, resourceYandexFunctionTriggerCreate env d = .ok req ∧
          req.Rule = some (.Logging r) ∧
          r.Action = some
            { FunctionId := d.strs "function.0.id", FunctionTag := d.strs "function.0.tag",
              ServiceAccountId := d.strs "function.0.service_account_id",
              RetrySettings := rs, DeadLetterQueue := dl }) ∧
      (onlyPopulated d "message_queue" → batchTextValid d "message_queue.0" →
        (d.strs "message_queue.0.visibility_timeout" = "" ∨
          parses (d.strs "message_queue.0.visibility_timeout") = true) →
        ∃ req r, resourceYandexFunctionTriggerCreate env d = .ok req ∧
          req.Rule = some (.MessageQueue r) ∧
          r.Action = some
            { FunctionId := d.strs "function.0.id", FunctionTag := d.strs "function.0.tag",
              ServiceAccountId := d.strs "function.0.service_account_id" }) := by
  obtain ⟨fid, hf⟩ := hf
  obtain ⟨rs, hrs, hnone⟩ := expandRetrySettings_ok env d hr
  have hd := expandDLQSettings_eq d
  refine ⟨rs, _, hrs, hd, hnone, rfl, ?_, ?_, ?_, ?_, ?_⟩
  · intro ho
    exact ⟨_, _, create_iot env d fid rs _ hf hrs hd ho, rfl, rfl⟩
  · intro ho
    exact ⟨_, _, create_object_storage env d fid rs _ hf hrs hd ho, rfl, rfl⟩
  · intro ho hb
    obtain ⟨b, hb, -⟩ := expandBatchSettings_ok env d _ hb
    exact ⟨_, _, create_log_group env d fid rs _ b hf hrs hd ho hb, rfl, rfl⟩
  · intro ho hb
    obtain ⟨b, hb, -⟩ := expandBatchSettings_ok env d _ hb
    exact ⟨_, _, create_logging env d fid rs _ b hf hrs hd ho hb, rfl, rfl⟩
  · intro ho hb hv
    obtain ⟨b, hb, -⟩ := expandBatchSettings_ok env d _ hb
    obtain ⟨vt, hvt⟩ := visibility_cases d hv
    exact ⟨_, _, create_message_queue env d fid rs _ b vt hf hrs hd ho hb hvt, rfl, rfl⟩


theorem invoke_policy_per_variant_witness :
    ∃ req r, resourceYandexFunctionTriggerCreate sampleEnv iotRetryConfig = .ok req ∧
      req.Rule = some (.IotMessage r) ∧
      r.Action = some
        { FunctionId := "fn1", FunctionTag := "", ServiceAccountId := "",
          RetrySettings := some { RetryAttempts := 3 },
          DeadLetterQueue := some { QueueId := "q9", ServiceAccountId := "sa9" } } := by
  obtain ⟨rs, dl, h1, h2, -, -, hiot, -⟩ :=
    invoke_policy_per_variant sampleEnv iotRetryConfig (by decide) ⟨"b1g", rfl⟩
  obtain ⟨req, r, e1, e2, e3⟩ := hiot (by decide)
  have hrs : expandRetrySettings sampleEnv iotRetryConfig = .ok (some { RetryAttempts := 3 }) := by
    decide
  have hdl : expandDLQSettings iotRetryConfig =
      .ok (some { QueueId := "q9", ServiceAccountId := "sa9" }) := by decide
  rw [hrs] at h1
  rw [hdl] at h2
  cases h1
  cases h2
  exact ⟨req, r, e1, e2, e3⟩



/-! ## What a write leaves alone -/

theorem agreesOff_refl (P : String → Prop) (d : ResourceData) : agreesOff P d d :=
  fun _ _ => ⟨rfl, rfl, rfl, rfl, rfl⟩

theorem agreesOff_trans {P : String → Prop} {d1 d2 d3 : ResourceData}
    (h12 : agreesOff P d1 d2) (h23 : agreesOff P d2 d3) : agreesOff P d1 d3 := by
  intro k hk
  obtain ⟨a1, a2, a3, a4, a5⟩ := h12 k hk
  obtain ⟨b1, b2, b3, b4, b5⟩ := h23 k hk
  exact ⟨b1.trans a1, b2.trans a2, b3.trans a3, b4.trans a4, b5.trans a5⟩

theorem agreesOff_mono {P Q : String → Prop} {d d' : ResourceData}
    (hPQ : ∀ k, P k → Q k) (h : agreesOff P d d') : agreesOff Q d d' :=
  fun k hk => h k (fun hp => hk (hPQ k hp))

theorem SetStr_agreesOff (d : ResourceData) (key v : String) :
    agreesOff (fun k => k = key) d (d.SetStr key v) := by
  intro k hk
  simp [ResourceData.SetStr, hk]

theorem SetMap_agreesOff (d : ResourceData) (key : String) (v : Labels) :
    agreesOff (fun k => k = key) d (d.SetMap key v) := by
  intro k hk
  simp [ResourceData.SetMap, hk]

theorem setField_agreesOff (d : ResourceData) (key field : String) (v : Value) :
    agreesOff (touches key) d (d.setField key field v) := by
  intro k hk
  have hne : k ≠ key ++ ".0." ++ field := fun h => hk (Or.inr ⟨field, h⟩)
  cases v <;> simp [ResourceData.setField, hne]

theorem foldl_setField_agreesOff (key : String) (m : List (String × Value)) (d : ResourceData) :
    agreesOff (touches key) d (m.foldl (fun acc kv => acc.setField key kv.1 kv.2) d) := by
  induction m generalizing d with
  | nil => exact agreesOff_refl _ _
  | cons kv m ih =>
    simp only [List.foldl_cons]
    exact agreesOff_trans (setField_agreesOff d key kv.1 kv.2) (ih _)

theorem SetBlock_agreesOff (d : ResourceData) (key : String) (m : List (String × Value)) :
    agreesOff (touches key) d (d.SetBlock key m) := by
  intro k hk
  have hne : k ≠ key := fun h => hk (Or.inl h)
  obtain ⟨a1, a2, a3, a4, a5⟩ := foldl_setField_agreesOff key m d k hk
  simp only [ResourceData.SetBlock]
  exact ⟨a1, a2, a3, by simp [hne, a4], a5⟩

theorem invokeOnce_agreesOff (d d' : ResourceData) (f : InvokeFunctionOnce)
    (h : flattenYandexFunctionTriggerInvokeOnce d f = .ok d') :
    agreesOff (touches "function") d d' := by
  simp only [flattenYandexFunctionTriggerInvokeOnce, ResourceData.Set, Except.ok.injEq] at h
  subst h
  exact SetBlock_agreesOff _ _ _

theorem invokeWithRetry_agreesOff (d d' : ResourceData) (f : InvokeFunctionWithRetry)
    (h : flattenYandexFunctionTriggerInvokeWithRetry d f = .ok d') :
    agreesOff (fun k => touches "function" k ∨ touches "dlq" k) d d' := by
  simp only [flattenYandexFunctionTriggerInvokeWithRetry, ResourceData.Set, ok_bind] at h
  cases hq : f.DeadLetterQueue with
  | none =>
    simp only [hq, pure_eq_ok, Except.ok.injEq] at h
    subst h
    exact agreesOff_mono (fun k hk => Or.inl hk) (SetBlock_agreesOff _ _ _)
  | some q =>
    simp only [hq, Except.ok.injEq] at h
    subst h
    exact agreesOff_trans
      (agreesOff_mono (fun k hk => Or.inl hk) (SetBlock_agreesOff _ _ _))
      (agreesOff_mono (fun k hk => Or.inr hk) (SetBlock_agreesOff _ _ _))

theorem top_agreesOff (env : Env) (d : ResourceData) (trig : Trigger) :
    agreesOff (fun k => k ∈ topLevelKeys)
      d (((((d.SetStr "name" trig.Name).SetStr "folder_id" trig.FolderId).SetStr "description"
        trig.Description).SetStr "created_at" (env.getTimestamp trig.CreatedAt)).SetMap "labels"
        trig.Labels) := by
  intro k hk
  simp only [topLevelKeys, List.mem_cons, List.mem_singleton, List.not_mem_nil, or_false,
    not_or] at hk
  obtain ⟨h1, h2, h3, h4, h5⟩ := hk
  simp [ResourceData.SetStr, ResourceData.SetMap, h1, h2, h3, h4, h5]



theorem written_top (trig : Trigger) (k : String) (h : k ∈ topLevelKeys) : written trig k :=
  Or.inl h

theorem written_function (trig : Trigger) (k : String) (h : touches "function" k) :
    written trig k := Or.inr (Or.inl h)

theorem written_invoke (trig : Trigger) (k : String)
    (h : touches "function" k ∨ touches "dlq" k) : written trig k := by
  rcases h with h | h
  · exact Or.inr (Or.inl h)
  · exact Or.inr (Or.inr (Or.inl h))

theorem written_variant (trig : Trigger) (r : Trigger_Rule) (k : String)
    (hr : trig.Rule = some r) (h : touches (variantKey r) k) : written trig k :=
  Or.inr (Or.inr (Or.inr ⟨r, hr, h⟩))

theorem withRetry_option_agreesOff (trig : Trigger) (d d' : ResourceData)
    (act : Option InvokeFunctionWithRetry)
    (h : (match act with
          | some function => flattenYandexFunctionTriggerInvokeWithRetry d function
          | none => pure d) = Except.ok d') :
    agreesOff (written trig) d d' := by
  cases act with
  | none =>
    simp only [pure_eq_ok, Except.ok.injEq] at h
    subst h
    exact agreesOff_refl _ _
  | some f => exact agreesOff_mono (written_invoke trig) (invokeWithRetry_agreesOff d d' f h)

theorem once_option_agreesOff (trig : Trigger) (d d' : ResourceData)
    (act : Option InvokeFunctionOnce)
    (h : (match act with
          | some function => flattenYandexFunctionTriggerInvokeOnce d function
          | none => pure d) = Except.ok d') :
    agreesOff (written trig) d d' := by
  cases act with
  | none =>
    simp only [pure_eq_ok, Except.ok.injEq] at h
    subst h
    exact agreesOff_refl _ _
  | some f => exact agreesOff_mono (written_function trig) (invokeOnce_agreesOff d d' f h)

/-- The projector changes no path outside `written trig`. -/
theorem flatten_agreesOff (env : Env) (d d' : ResourceData) (trig : Trigger)
    (h : flattenYandexFunctionTrigger env d trig = .ok d') : agreesOff (written trig) d d' := by
  have htop := agreesOff_mono (written_top trig) (top_agreesOff env d trig)
  cases hr : trig.Rule with
  | none =>
    simp only [flattenYandexFunctionTrigger, hr, GetIotMessage, GetMessageQueue, GetObjectStorage,
      GetTimer, GetCloudLogs, GetLogging, pure_eq_ok, Except.ok.injEq] at h
    subst h
    exact htop
  | some r =>
    cases r with
    | IotMessage iot =>
      simp only [flattenYandexFunctionTrigger, hr, GetIotMessage, ResourceData.Set, ok_bind] at h
      exact agreesOff_trans htop (agreesOff_trans
        (agreesOff_mono (written_variant trig _ · hr) (SetBlock_agreesOff _ triggerTypeIoT _))
        (withRetry_option_agreesOff trig _ _ _ h))
    | MessageQueue mq =>
      simp only [flattenYandexFunctionTrigger, hr, GetIotMessage, GetMessageQueue, ResourceData.Set,
        ok_bind, bind_eq_ok] at h
      obtain ⟨m, -, h⟩ := h
      exact agreesOff_trans htop (agreesOff_trans
        (agreesOff_mono (written_variant trig _ · hr) (SetBlock_agreesOff _ triggerTypeMessageQueue _))
        (once_option_agreesOff trig _ _ _ h))
    | ObjectStorage st =>
      simp only [flattenYandexFunctionTrigger, hr, GetIotMessage, GetMessageQueue, GetObjectStorage,
        ResourceData.Set, ok_bind] at h
      exact agreesOff_trans htop (agreesOff_trans
        (agreesOff_mono (written_variant trig _ · hr) (SetBlock_agreesOff _ triggerTypeObjectStorage _))
        (withRetry_option_agreesOff trig _ _ _ h))
    | Timer t =>
      simp only [flattenYandexFunctionTrigger, hr, GetIotMessage, GetMessageQueue, GetObjectStorage,
        GetTimer, ResourceData.Set, ok_bind] at h
      refine agreesOff_trans htop (agreesOff_trans
        (agreesOff_mono (written_variant trig _ · hr) (SetBlock_agreesOff _ triggerTypeTimer
          [("cron_expression", Value.str t.CronExpression)])) ?_)
      cases hw : t.GetInvokeFunctionWithRetry with
      | some f =>
        simp only [hw] at h
        exact agreesOff_mono (written_invoke trig) (invokeWithRetry_agreesOff _ _ f h)
      | none =>
        simp only [hw] at h
        exact once_option_agreesOff trig _ _ _ h
    | CloudLogs lg =>
      simp only [flattenYandexFunctionTrigger, hr, GetIotMessage, GetMessageQueue, GetObjectStorage,
        GetTimer, GetCloudLogs, ResourceData.Set, ok_bind, bind_eq_ok, Except.ok.injEq] at h
      obtain ⟨m, -, d1, h1, h⟩ := h
      subst h
      exact agreesOff_trans htop (agreesOff_trans
        (withRetry_option_agreesOff trig _ _ _ h1)
        (agreesOff_mono (written_variant trig _ · hr) (SetBlock_agreesOff _ triggerTypeLogGroup _)))
    | Logging lg =>
      simp only [flattenYandexFunctionTrigger, hr, GetIotMessage, GetMessageQueue, GetObjectStorage,
        GetTimer, GetCloudLogs, GetLogging, ResourceData.Set, ok_bind, bind_eq_ok, Except.ok.injEq] at h
      obtain ⟨m, -, d1, h1, h⟩ := h
      subst h
      exact agreesOff_trans htop (agreesOff_trans
        (withRetry_option_agreesOff trig _ _ _ h1)
        (agreesOff_mono (written_variant trig _ · hr) (SetBlock_agreesOff _ triggerTypeLogging _)))



/-! ## Paths of different blocks are different -/

theorem incomparable_append (a b : List Char) (h : incomparable a b = true) (x y : List Char) :
    a ++ x ≠ b ++ y := by
  induction a generalizing b with
  | nil => simp [incomparable] at h
  | cons c cs ih =>
    cases b with
    | nil => simp [incomparable] at h
    | cons e es =>
      simp only [incomparable] at h
      by_cases hce : c = e
      · simp only [hce, if_true] at h
        intro heq
        simp only [List.cons_append, List.cons.injEq] at heq
        exact ih es h heq.2
      · intro heq
        simp only [List.cons_append, List.cons.injEq] at heq
        exact hce heq.1

theorem String_append_ne (a b : String) (h : incomparable a.data b.data = true) (x y : String) :
    a ++ x ≠ b ++ y := by
  intro heq
  have := congrArg String.data heq
  simp only [String.data_append] at this
  exact incomparable_append _ _ h _ _ this

theorem projectorKeys_incomparable :
    ∀ a ∈ projectorKeys, ∀ b ∈ projectorKeys, a ≠ b → incomparable a.data b.data = true := by
  decide

theorem not_touches_of_ne (a b : String) (ha : a ∈ projectorKeys) (hb : b ∈ projectorKeys)
    (hab : a ≠ b) (k : String) (hk : touches b k) : ¬ touches a k ∧ k ≠ a := by
  have hinc := projectorKeys_incomparable a ha b hb hab
  have key : ∀ x y : String, a ++ x ≠ b ++ y := String_append_ne a b hinc
  rcases hk with rfl | ⟨f, rfl⟩
  · refine ⟨?_, fun h => hab h.symm⟩
    rintro (h | ⟨g, h⟩)
    · exact hab h.symm
    · exact key (".0." ++ g) "" (by simpa [String.append_assoc] using h.symm)
  · refine ⟨?_, ?_⟩
    · rintro (h | ⟨g, h⟩)
      · exact key "" (".0." ++ f) (by simpa [String.append_assoc] using h.symm)
      · exact key (".0." ++ g) (".0." ++ f) (by simpa [String.append_assoc] using h.symm)
    · intro h
      exact key "" (".0." ++ f) (by simpa [String.append_assoc] using h.symm)



/-! ## C10: the projector writes one variant block only -/

theorem variantKey_mem (r : Trigger_Rule) : variantKey r ∈ functionTriggerTypesList := by
  cases r <;> simp [variantKey, functionTriggerTypesList]

theorem mem_projectorKeys_of_variant (v : String) (h : v ∈ functionTriggerTypesList) :
    v ∈ projectorKeys := by
  simp only [projectorKeys, List.mem_append]
  exact Or.inl (Or.inl h)

theorem not_written_other_variant (trig : Trigger) (v : String)
    (hv : v ∈ functionTriggerTypesList) (hne : trig.Rule.map variantKey ≠ some v)
    (k : String) (hk : touches v k) : ¬ written trig k := by
  have hvp := mem_projectorKeys_of_variant v hv
  have hv6 : v ∈ functionTriggerTypesList := hv
  simp only [functionTriggerTypesList, triggerTypeIoT, triggerTypeMessageQueue,
    triggerTypeObjectStorage, triggerTypeTimer, triggerTypeLogGroup, triggerTypeLogging,
    List.mem_cons, List.mem_singleton, List.not_mem_nil, or_false] at hv
  rintro (ht | hf | hd | ⟨r, hr, ht⟩)
  · have hmem : k ∈ projectorKeys := by
      simp only [projectorKeys, List.mem_append]
      exact Or.inr ht
    have hkv : k ≠ v := by
      intro h
      subst h
      simp only [topLevelKeys, List.mem_cons, List.mem_singleton, List.not_mem_nil, or_false] at ht
      rcases hv with h | h | h | h | h | h <;> rw [h] at ht <;> revert ht <;> decide
    exact (not_touches_of_ne k v hmem hvp hkv k hk).2 rfl
  · have hfv : "function" ≠ v := by
      rcases hv with h | h | h | h | h | h <;> rw [h] <;> decide
    exact (not_touches_of_ne "function" v (by decide) hvp hfv k hk).1 hf
  · have hdv : "dlq" ≠ v := by
      rcases hv with h | h | h | h | h | h <;> rw [h] <;> decide
    exact (not_touches_of_ne "dlq" v (by decide) hvp hdv k hk).1 hd
  · have hrv : variantKey r ≠ v := by
      intro h
      exact hne (by rw [hr, Option.map_some', h])
    exact (not_touches_of_ne (variantKey r) v
      (mem_projectorKeys_of_variant _ (variantKey_mem r)) hvp hrv k hk).1 ht

theorem invoke_lists_keep (d d' : ResourceData) (v : String) (hv : v ∈ functionTriggerTypesList)
    (h : agreesOff (fun k => touches "function" k ∨ touches "dlq" k) d d') :
    d'.lists v = d.lists v := by
  have hvp := mem_projectorKeys_of_variant v hv
  simp only [functionTriggerTypesList, triggerTypeIoT, triggerTypeMessageQueue,
    triggerTypeObjectStorage, triggerTypeTimer, triggerTypeLogGroup, triggerTypeLogging,
    List.mem_cons, List.mem_singleton, List.not_mem_nil, or_false] at hv
  have hfv : "function" ≠ v := by
    rcases hv with h | h | h | h | h | h <;> rw [h] <;> decide
  have hdv : "dlq" ≠ v := by
    rcases hv with h | h | h | h | h | h <;> rw [h] <;> decide
  refine (h v ?_).2.2.2.1
  rintro (hf | hd)
  · exact (not_touches_of_ne "function" v (by decide) hvp hfv v (Or.inl rfl)).1 hf
  · exact (not_touches_of_ne "dlq" v (by decide) hvp hdv v (Or.inl rfl)).1 hd

theorem SetBlock_lists_self (d : ResourceData) (key : String) (m : List (String × Value)) :
    (d.SetBlock key m).lists key = 1 := by
  simp [ResourceData.SetBlock]

theorem withRetry_option_lists (d d' : ResourceData) (v : String)
    (hv : v ∈ functionTriggerTypesList) (act : Option InvokeFunctionWithRetry)
    (h : (match act with
          | some function => flattenYandexFunctionTriggerInvokeWithRetry d function
          | none => pure d) = Except.ok d') :
    d'.lists v = d.lists v := by
  cases act with
  | none =>
    simp only [pure_eq_ok, Except.ok.injEq] at h
    subst h
    rfl
  | some f => exact invoke_lists_keep d d' v hv (invokeWithRetry_agreesOff d d' f h)

theorem once_option_lists (d d' : ResourceData) (v : String)
    (hv : v ∈ functionTriggerTypesList) (act : Option InvokeFunctionOnce)
    (h : (match act with
          | some function => flattenYandexFunctionTriggerInvokeOnce d function
          | none => pure d) = Except.ok d') :
    d'.lists v = d.lists v := by
  cases act with
  | none =>
    simp only [pure_eq_ok, Except.ok.injEq] at h
    subst h
    rfl
  | some f =>
    exact invoke_lists_keep d d' v hv
      (agreesOff_mono (fun k hk => Or.inl hk) (invokeOnce_agreesOff d d' f h))

theorem flatten_lists_variant (env : Env) (d d' : ResourceData) (trig : Trigger)
    (r : Trigger_Rule) (hr : trig.Rule = some r)
    (h : flattenYandexFunctionTrigger env d trig = .ok d') : d'.lists (variantKey r) = 1 := by
  cases r with
  | IotMessage iot =>
    simp only [flattenYandexFunctionTrigger, hr, GetIotMessage, ResourceData.Set, ok_bind] at h
    rw [withRetry_option_lists _ d' _ (variantKey_mem _) _ h]
    exact SetBlock_lists_self _ _ _
  | MessageQueue mq =>
    simp only [flattenYandexFunctionTrigger, hr, GetIotMessage, GetMessageQueue, ResourceData.Set,
      ok_bind, bind_eq_ok] at h
    obtain ⟨m, -, h⟩ := h
    rw [once_option_lists _ d' _ (variantKey_mem _) _ h]
    exact SetBlock_lists_self _ _ _
  | ObjectStorage st =>
    simp only [flattenYandexFunctionTrigger, hr, GetIotMessage, GetMessageQueue, GetObjectStorage,
      ResourceData.Set, ok_bind] at h
    rw [withRetry_option_lists _ d' _ (variantKey_mem _) _ h]
    exact SetBlock_lists_self _ _ _
  | Timer t =>
    simp only [flattenYandexFunctionTrigger, hr, GetIotMessage, GetMessageQueue, GetObjectStorage,
      GetTimer, ResourceData.Set, ok_bind] at h
    cases hw : t.GetInvokeFunctionWithRetry with
    | some f =>
      simp only [hw] at h
      rw [invoke_lists_keep _ d' _ (variantKey_mem _) (invokeWithRetry_agreesOff _ _ f h)]
      exact SetBlock_lists_self _ _ _
    | none =>
      simp only [hw] at h
      rw [once_option_lists _ d' _ (variantKey_mem _) _ h]
      exact SetBlock_lists_self _ _ _
  | CloudLogs lg =>
    simp only [flattenYandexFunctionTrigger, hr, GetIotMessage, GetMessageQueue, GetObjectStorage,
      GetTimer, GetCloudLogs, ResourceData.Set, ok_bind, bind_eq_ok, Except.ok.injEq] at h
    obtain ⟨m, -, d1, -, h⟩ := h
    subst h
    exact SetBlock_lists_self _ _ _
  | Logging lg =>
    simp only [flattenYandexFunctionTrigger, hr, GetIotMessage, GetMessageQueue, GetObjectStorage,
      GetTimer, GetCloudLogs, GetLogging, ResourceData.Set, ok_bind, bind_eq_ok, Except.ok.injEq] at h
    obtain ⟨m, -, d1, -, h⟩ := h
    subst h
    exact SetBlock_lists_self _ _ _

/-- C10. For every response and every configuration, a successful
    `flattenYandexFunctionTrigger` leaves every variant block other than the
    one of the rule present in the response as it was (the block itself and
    each path of its item, in every store), gives the block of the rule
    present one item, and, when the response has no rule, succeeds and leaves
    all six variant blocks as they were. -/
theorem flatten_writes_one_variant (env : Env) (d : ResourceData) (trig : Trigger) :
    (∀ d', flattenYandexFunctionTrigger env d trig = .ok d' →
      (∀ v ∈ functionTriggerTypesList, trig.Rule.map variantKey ≠ some v →
        d'.lists v = d.lists v ∧
        ∀ field : String,
          d'.strs (v ++ ".0." ++ field) = d.strs (v ++ ".0." ++ field) ∧
          d'.bools (v ++ ".0." ++ field) = d.bools (v ++ ".0." ++ field) ∧
          d'.sets (v ++ ".0." ++ field) = d.sets (v ++ ".0." ++ field)) ∧
      (∀ r, trig.Rule = some r → d'.lists (variantKey r) = 1)) ∧
    (trig.Rule = none →
      ∃ d', flattenYandexFunctionTrigger env d trig = .ok d' ∧
        ∀ v ∈ functionTriggerTypesList, d'.lists v = d.lists v) := by
  have main : ∀ d', flattenYandexFunctionTrigger env d trig = .ok d' →
      ∀ v ∈ functionTriggerTypesList, trig.Rule.map variantKey ≠ some v →
        d'.lists v = d.lists v ∧
        ∀ field : String,
          d'.strs (v ++ ".0." ++ field) = d.strs (v ++ ".0." ++ field) ∧
          d'.bools (v ++ ".0." ++ field) = d.bools (v ++ ".0." ++ field) ∧
          d'.sets (v ++ ".0." ++ field) = d.sets (v ++ ".0." ++ field) := by
    intro d' h v hv hne
    have hfr := flatten_agreesOff env d d' trig h
    refine ⟨(hfr v (not_written_other_variant trig v hv hne v (Or.inl rfl))).2.2.2.1, ?_⟩
    intro field
    obtain ⟨a1, a2, a3, -⟩ :=
      hfr (v ++ ".0." ++ field) (not_written_other_variant trig v hv hne _ (Or.inr ⟨field, rfl⟩))
    exact ⟨a1, a2, a3⟩
  refine ⟨fun d' h => ⟨main d' h, fun r hr => flatten_lists_variant env d d' trig r hr h⟩, ?_⟩
  intro hr
  have hok : ∃ d', flattenYandexFunctionTrigger env d trig = .ok d' := by
    refine ⟨((((d.SetStr "name" trig.Name).SetStr "folder_id" trig.FolderId).SetStr "description"
        trig.Description).SetStr "created_at" (env.getTimestamp trig.CreatedAt)).SetMap "labels"
        trig.Labels, ?_⟩
    simp only [flattenYandexFunctionTrigger, hr, GetIotMessage, GetMessageQueue, GetObjectStorage,
      GetTimer, GetCloudLogs, GetLogging, pure_eq_ok]
  obtain ⟨d', hd'⟩ := hok
  exact ⟨d', hd', fun v hv => (main d' hd' v hv (by simp [hr])).1⟩


theorem flatten_writes_one_variant_witness :
    ∃ d', flattenYandexFunctionTrigger sampleEnv ResourceData.fresh timerTrigger = .ok d' ∧
      d'.lists "timer" = 1 ∧ d'.lists "iot" = 0 ∧ d'.strs "message_queue.0.queue_id" = "" := by
  have h := (flatten_writes_one_variant sampleEnv ResourceData.fresh timerTrigger).1 _ rfl
  exact ⟨_, rfl, h.2 _ rfl, (h.1 "iot" (by decide) (by decide)).1,
    ((h.1 "message_queue" (by decide) (by decide)).2 "queue_id").1⟩



/-! ## C4: object-storage event kinds -/

theorem objectStorageEvents_spec (env : Env) (d : ResourceData) :
    (objectStorageEvents env d).Nodup ∧
    ∀ e, e ∈ objectStorageEvents env d ↔
      (e = .CREATE_OBJECT ∧ d.bools "object_storage.0.create" = true) ∨
      (e = .UPDATE_OBJECT ∧ d.bools "object_storage.0.update" = true) ∨
      (e = .DELETE_OBJECT ∧ d.bools "object_storage.0.delete" = true) := by
  unfold objectStorageEvents
  cases env.eventsOrder <;>
    simp only [ResourceData.GetBool, RangeOrder.visit, List.foldl] <;>
    cases d.bools "object_storage.0.create" <;>
    cases d.bools "object_storage.0.update" <;>
    cases d.bools "object_storage.0.delete" <;>
    refine ⟨by simp, fun e => ?_⟩ <;> cases e <;> simp

theorem storageEventEntries_eq (evs : List Trigger_ObjectStorageEventType) :
    storageEventEntries evs =
      evs.filterMap (fun t => (eventTypeName t).map (fun name => (name, Value.bool true))) := by
  unfold storageEventEntries
  rw [foldl_append_toList _ (fun t => (eventTypeName t).map (fun name => (name, Value.bool true)))]
  · rfl
  · intro ys x
    cases eventTypeName x <;> simp

theorem setField_true_bools (d : ResourceData) (key field : String) (k : String) :
    (d.setField key field (Value.bool true)).bools k =
      (decide (k = key ++ ".0." ++ field) || d.bools k) := by
  by_cases h : k = key ++ ".0." ++ field <;> simp [ResourceData.setField, h]

theorem foldl_setField_events (key : String) (evs : List Trigger_ObjectStorageEventType)
    (d : ResourceData) (k : String) :
    ((evs.filterMap (fun t => (eventTypeName t).map (fun name => (name, Value.bool true)))).foldl
      (fun acc kv => acc.setField key kv.1 kv.2) d).bools k =
      (decide ((k = key ++ ".0." ++ "create" ∧ Trigger_ObjectStorageEventType.CREATE_OBJECT ∈ evs) ∨
        (k = key ++ ".0." ++ "update" ∧ Trigger_ObjectStorageEventType.UPDATE_OBJECT ∈ evs) ∨
        (k = key ++ ".0." ++ "delete" ∧ Trigger_ObjectStorageEventType.DELETE_OBJECT ∈ evs)) ||
        d.bools k) := by
  induction evs generalizing d with
  | nil => simp
  | cons t ts ih =>
    have hc : eventTypeName .CREATE_OBJECT = some "create" := rfl
    have hu : eventTypeName .UPDATE_OBJECT = some "update" := rfl
    have hd : eventTypeName .DELETE_OBJECT = some "delete" := rfl
    have hn : eventTypeName .UNSPECIFIED = none := rfl
    cases t <;>
      simp only [List.filterMap_cons, hc, hu, hd, hn, Option.map_some', Option.map_none',
        List.foldl_cons, ih, setField_true_bools, List.mem_cons, reduceCtorEq, false_or, true_or,
        and_true, Bool.decide_or, Bool.decide_and] <;>
      generalize decide (k = key ++ ".0." ++ "create") = b1 <;>
      generalize decide (k = key ++ ".0." ++ "update") = b2 <;>
      generalize decide (k = key ++ ".0." ++ "delete") = b3 <;>
      generalize decide (Trigger_ObjectStorageEventType.CREATE_OBJECT ∈ ts) = m1 <;>
      generalize decide (Trigger_ObjectStorageEventType.UPDATE_OBJECT ∈ ts) = m2 <;>
      generalize decide (Trigger_ObjectStorageEventType.DELETE_OBJECT ∈ ts) = m3 <;>
      generalize d.bools k = x <;>
      cases b1 <;> cases b2 <;> cases b3 <;> cases m1 <;> cases m2 <;> cases m3 <;> cases x <;> rfl

theorem foldl_setField_events_strs (key : String) (evs : List Trigger_ObjectStorageEventType)
    (d : ResourceData) :
    ((evs.filterMap (fun t => (eventTypeName t).map (fun name => (name, Value.bool true)))).foldl
      (fun acc kv => acc.setField key kv.1 kv.2) d).strs = d.strs := by
  induction evs generalizing d with
  | nil => rfl
  | cons t ts ih =>
    have hc : eventTypeName .CREATE_OBJECT = some "create" := rfl
    have hu : eventTypeName .UPDATE_OBJECT = some "update" := rfl
    have hd : eventTypeName .DELETE_OBJECT = some "delete" := rfl
    have hn : eventTypeName .UNSPECIFIED = none := rfl
    cases t <;>
      simp only [List.filterMap_cons, hc, hu, hd, hn, Option.map_some', Option.map_none',
        List.foldl_cons, ih] <;> rfl

theorem invokeWithRetry_ok (d : ResourceData) (f : InvokeFunctionWithRetry) :
    ∃ d', flattenYandexFunctionTriggerInvokeWithRetry d f = .ok d' := by
  simp only [flattenYandexFunctionTriggerInvokeWithRetry, ResourceData.Set, ok_bind]
  cases f.DeadLetterQueue with
  | none => exact ⟨_, rfl⟩
  | some q => exact ⟨_, rfl⟩

theorem withRetry_option_ok (d : ResourceData) (act : Option InvokeFunctionWithRetry)
    (r : Except Fault ResourceData)
    (hr : r = (match act with
          | some function => flattenYandexFunctionTriggerInvokeWithRetry d function
          | none => pure d)) :
    ∃ d', r = Except.ok d' ∧
      agreesOff (fun k => touches "function" k ∨ touches "dlq" k) d d' := by
  subst hr
  cases act with
  | none => exact ⟨d, rfl, agreesOff_refl _ _⟩
  | some f =>
    obtain ⟨d', h⟩ := invokeWithRetry_ok d f
    exact ⟨d', h, invokeWithRetry_agreesOff d d' f h⟩

theorem once_option_ok (d : ResourceData) (act : Option InvokeFunctionOnce)
    (r : Except Fault ResourceData)
    (hr : r = (match act with
          | some function => flattenYandexFunctionTriggerInvokeOnce d function
          | none => pure d)) :
    ∃ d', r = Except.ok d' ∧
      agreesOff (fun k => touches "function" k ∨ touches "dlq" k) d d' := by
  subst hr
  cases act with
  | none => exact ⟨d, rfl, agreesOff_refl _ _⟩
  | some f =>
    exact ⟨_, rfl, agreesOff_mono (fun k hk => Or.inl hk) (invokeOnce_agreesOff d _ f rfl)⟩

theorem variant_path_keep (d d' : ResourceData) (v : String) (hv : v ∈ functionTriggerTypesList)
    (h : agreesOff (fun k => touches "function" k ∨ touches "dlq" k) d d') (field : String) :
    d'.strs (v ++ ".0." ++ field) = d.strs (v ++ ".0." ++ field) ∧
    d'.bools (v ++ ".0." ++ field) = d.bools (v ++ ".0." ++ field) ∧
    d'.sets (v ++ ".0." ++ field) = d.sets (v ++ ".0." ++ field) := by
  have hvp := mem_projectorKeys_of_variant v hv
  simp only [functionTriggerTypesList, triggerTypeIoT, triggerTypeMessageQueue,
    triggerTypeObjectStorage, triggerTypeTimer, triggerTypeLogGroup, triggerTypeLogging,
    List.mem_cons, List.mem_singleton, List.not_mem_nil, or_false] at hv
  have hfv : "function" ≠ v := by
    rcases hv with h | h | h | h | h | h <;> rw [h] <;> decide
  have hdv : "dlq" ≠ v := by
    rcases hv with h | h | h | h | h | h <;> rw [h] <;> decide
  have ht : touches v (v ++ ".0." ++ field) := Or.inr ⟨field, rfl⟩
  obtain ⟨a1, a2, a3, -⟩ := h (v ++ ".0." ++ field) (by
    rintro (hf | hd)
    · exact (not_touches_of_ne "function" v (by decide) hvp hfv _ ht).1 hf
    · exact (not_touches_of_ne "dlq" v (by decide) hvp hdv _ ht).1 hd)
  exact ⟨a1, a2, a3⟩

theorem flatten_object_storage (env : Env) (d0 : ResourceData) (trig : Trigger)
    (st : Trigger_ObjectStorage) (hr : trig.Rule = some (.ObjectStorage st)) :
    ∃ d', flattenYandexFunctionTrigger env d0 trig = .ok d' ∧
      d'.strs "object_storage.0.bucket_id" = st.BucketId ∧
      d'.strs "object_storage.0.prefix" = st.Prefix ∧
      d'.strs "object_storage.0.suffix" = st.Suffix ∧
      d'.bools "object_storage.0.create" =
        (decide (Trigger_ObjectStorageEventType.CREATE_OBJECT ∈ st.EventType) ||
          d0.bools "object_storage.0.create") ∧
      d'.bools "object_storage.0.update" =
        (decide (Trigger_ObjectStorageEventType.UPDATE_OBJECT ∈ st.EventType) ||
          d0.bools "object_storage.0.update") ∧
      d'.bools "object_storage.0.delete" =
        (decide (Trigger_ObjectStorageEventType.DELETE_OBJECT ∈ st.EventType) ||
          d0.bools "object_storage.0.delete") := by
  simp only [flattenYandexFunctionTrigger, hr, GetIotMessage, GetMessageQueue, GetObjectStorage,
    ResourceData.Set, ok_bind]
  obtain ⟨d', hd', hag⟩ := withRetry_option_ok
    ((((((d0.SetStr "name" trig.Name).SetStr "folder_id" trig.FolderId).SetStr "description"
      trig.Description).SetStr "created_at" (env.getTimestamp trig.CreatedAt)).SetMap "labels"
      trig.Labels).SetBlock triggerTypeObjectStorage
      ([("bucket_id", Value.str st.BucketId), ("prefix", Value.str st.Prefix),
        ("suffix", Value.str st.Suffix)] ++ storageEventEntries st.EventType)) st.Action _ rfl
  refine ⟨d', hd', ?_⟩
  have hk := variant_path_keep _ d' "object_storage" (by decide) hag
  have e1 := hk "bucket_id"
  have e2 := hk "prefix"
  have e3 := hk "suffix"
  have e4 := hk "create"
  have e5 := hk "update"
  have e6 := hk "delete"
  have s1 : "object_storage" ++ ".0." ++ "bucket_id" = "object_storage.0.bucket_id" := by decide
  have s2 : "object_storage" ++ ".0." ++ "prefix" = "object_storage.0.prefix" := by decide
  have s3 : "object_storage" ++ ".0." ++ "suffix" = "object_storage.0.suffix" := by decide
  have s4 : "object_storage" ++ ".0." ++ "create" = "object_storage.0.create" := by decide
  have s5 : "object_storage" ++ ".0." ++ "update" = "object_storage.0.update" := by decide
  have s6 : "object_storage" ++ ".0." ++ "delete" = "object_storage.0.delete" := by decide
  rw [s1] at e1
  rw [s2] at e2
  rw [s3] at e3
  rw [s4] at e4
  rw [s5] at e5
  rw [s6] at e6
  refine ⟨e1.1.trans ?_, e2.1.trans ?_, e3.1.trans ?_, e4.2.1.trans ?_, e5.2.1.trans ?_,
    e6.2.1.trans ?_⟩ <;>
  simp only [ResourceData.SetBlock, List.foldl_append, storageEventEntries_eq,
    foldl_setField_events, foldl_setField_events_strs, triggerTypeObjectStorage] <;>
  simp [ResourceData.setField, ResourceData.SetStr, ResourceData.SetMap]


/-- C4. For each of the eight combinations of `create`, `update` and `delete`
    in the `object_storage` block of a configuration whose only variant block
    it is (folder id resolved, retry texts valid), and for each order in
    which the map of event names is visited, the rule is built, its
    `EventType` has no duplicate and contains exactly the kinds whose boolean
    is true; projecting a response with that rule into a configuration sets
    to true exactly those booleans and leaves the others as they were (unset
    when the configuration is fresh). -/
theorem object_storage_events_round_trip (env : Env) (d : ResourceData)
    (ho : onlyPopulated d "object_storage") (hr : retryTextValid d)
    (hf : ∃ fid, env.getFolderID d = .ok fid) :
    ∃ req st, resourceYandexFunctionTriggerCreate env d = .ok req ∧
      req.Rule = some (.ObjectStorage st) ∧
      st.EventType.Nodup ∧
      (∀ e, e ∈ st.EventType ↔
        (e = .CREATE_OBJECT ∧ d.bools "object_storage.0.create" = true) ∨
        (e = .UPDATE_OBJECT ∧ d.bools "object_storage.0.update" = true) ∨
        (e = .DELETE_OBJECT ∧ d.bools "object_storage.0.delete" = true)) ∧
      ∀ (d0 : ResourceData) (trig : Trigger), trig.Rule = req.Rule →
        ∃ d', flattenYandexFunctionTrigger env d0 trig = .ok d' ∧
          d'.bools "object_storage.0.create" =
            (d.bools "object_storage.0.create" || d0.bools "object_storage.0.create") ∧
          d'.bools "object_storage.0.update" =
            (d.bools "object_storage.0.update" || d0.bools "object_storage.0.update") ∧
          d'.bools "object_storage.0.delete" =
            (d.bools "object_storage.0.delete" || d0.bools "object_storage.0.delete") := by
  obtain ⟨fid, hf⟩ := hf
  obtain ⟨rs, hrs, -⟩ := expandRetrySettings_ok env d hr
  obtain ⟨hnd, hmem⟩ := objectStorageEvents_spec env d
  refine ⟨_, _, create_object_storage env d fid rs _ hf hrs (expandDLQSettings_eq d) ho, rfl,
    hnd, hmem, ?_⟩
  intro d0 trig ht
  obtain ⟨d', hd', -, -, -, e1, e2, e3⟩ := flatten_object_storage env d0 trig _ ht
  refine ⟨d', hd', ?_, ?_, ?_⟩
  · rw [e1]
    congr 1
    rw [Bool.eq_iff_iff]
    simp [hmem]
  · rw [e2]
    congr 1
    rw [Bool.eq_iff_iff]
    simp [hmem]
  · rw [e3]
    congr 1
    rw [Bool.eq_iff_iff]
    simp [hmem]

theorem object_storage_events_round_trip_witness :
    ∃ req st, resourceYandexFunctionTriggerCreate sampleEnv storageConfig = .ok req ∧
      req.Rule = some (.ObjectStorage st) ∧
      st.EventType.Nodup ∧
      Trigger_ObjectStorageEventType.CREATE_OBJECT ∈ st.EventType ∧
      Trigger_ObjectStorageEventType.UPDATE_OBJECT ∉ st.EventType ∧
      ∃ d', flattenYandexFunctionTrigger sampleEnv ResourceData.fresh
              { Id := "t1", FolderId := req.FolderId, CreatedAt := none, Name := req.Name,
                Description := req.Description, Labels := req.Labels, Rule := req.Rule } = .ok d' ∧
        d'.bools "object_storage.0.create" = true ∧
        d'.bools "object_storage.0.update" = false ∧
        d'.bools "object_storage.0.delete" = true := by
  obtain ⟨req, st, h1, h2, h3, h4, h5⟩ :=
    object_storage_events_round_trip sampleEnv storageConfig (by decide) (by decide) ⟨"b1g", rfl⟩
  obtain ⟨d', hd', e1, e2, e3⟩ := h5 ResourceData.fresh
    { Id := "t1", FolderId := req.FolderId, CreatedAt := none, Name := req.Name,
      Description := req.Description, Labels := req.Labels, Rule := req.Rule } rfl
  refine ⟨req, st, h1, h2, h3, (h4 _).2 (Or.inl ⟨rfl, by decide⟩), ?_, d', hd', ?_, ?_, ?_⟩
  · intro hmem
    have := (h4 _).1 hmem
    revert this
    decide
  · rw [e1]; decide
  · rw [e2]; decide
  · rw [e3]; decide



/-! ## C6: decimal texts -/

theorem digitVal_lt (c : Char) (dg : Nat) (h : digitVal c = some dg) : dg < 10 := by
  unfold digitVal at h
  split at h
  · simp only [Option.some.injEq] at h
    omega
  · simp at h

theorem digitChar_digitVal (c : Char) (dg : Nat) (h : digitVal c = some dg) : digitChar dg = c := by
  unfold digitVal at h
  split at h
  · rename_i hc
    simp only [Option.some.injEq] at h
    subst h
    unfold digitChar
    have : 48 + (c.toNat - 48) = c.toNat := by omega
    rw [this]
    exact Char.ofNat_toNat c
  · simp at h

theorem digitVal_digitChar (dg : Nat) (h : dg < 10) : digitVal (digitChar dg) = some dg := by
  interval_cases dg <;> decide

theorem digitChar_zero : digitChar 0 = '0' := by decide

theorem digitChar_ne_zero (dg : Nat) (h : dg < 10) (h0 : dg ≠ 0) : digitChar dg ≠ '0' := by
  interval_cases dg <;> first | exact absurd rfl h0 | decide

theorem digitVal_zero_char (c : Char) (h : digitVal c = some 0) : c = '0' := by
  rw [← digitChar_digitVal c 0 h, digitChar_zero]

theorem parseUintLoop_le (cs : List Char) (n u : Nat) (h : parseUintLoop cs n = .ok u) : n ≤ u := by
  induction cs generalizing n with
  | nil =>
    simp only [parseUintLoop, Except.ok.injEq] at h
    omega
  | cons c cs ih =>
    simp only [parseUintLoop] at h
    cases hd : digitVal c with
    | none => simp [hd] at h
    | some dg =>
      simp only [hd] at h
      split at h
      · simp at h
      · split at h
        · simp at h
        · have := ih _ h
          omega

theorem parseUintLoop_snoc (cs : List Char) (c : Char) (n u : Nat)
    (h : parseUintLoop (cs ++ [c]) n = .ok u) :
    ∃ u' dg, parseUintLoop cs n = .ok u' ∧ digitVal c = some dg ∧ u = u' * 10 + dg := by
  induction cs generalizing n with
  | nil =>
    simp only [List.nil_append, parseUintLoop] at h
    cases hd : digitVal c with
    | none => simp [hd] at h
    | some dg =>
      simp only [hd] at h
      split at h
      · simp at h
      · split at h
        · simp at h
        · simp only [Except.ok.injEq] at h
          exact ⟨n, dg, rfl, rfl, h.symm⟩
  | cons e es ih =>
    simp only [List.cons_append, parseUintLoop] at h ⊢
    cases hd : digitVal e with
    | none => simp [hd] at h
    | some dg =>
      simp only [hd] at h ⊢
      split at h
      · simp at h
      · split at h
        · simp at h
        · rename_i h1 h2
          simp only [h1, h2, if_false]
          exact ih _ h

theorem formatBits_small (u : Nat) (h : u < 10) : formatBits u = [digitChar u] := by
  rw [formatBits]
  simp [h]

theorem formatBits_step (u : Nat) (h : 10 ≤ u) :
    formatBits u = formatBits (u / 10) ++ [digitChar (u % 10)] := by
  rw [formatBits]
  simp [Nat.not_lt.mpr h]

theorem canonDigits_head (c : Char) (cs : List Char) (h : canonDigits (c :: cs) = true)
    (hne : cs ≠ []) : c ≠ '0' := by
  cases cs with
  | nil => exact absurd rfl hne
  | cons e es =>
    unfold canonDigits at h
    split at h
    · simp at h
    · rename_i heq
      simp at heq
    · rename_i c' _ _ heq
      simp only [List.cons.injEq] at heq
      obtain ⟨rfl, -⟩ := heq
      simpa using h

theorem canonDigits_snoc (cs : List Char) (c : Char) (h : canonDigits (cs ++ [c]) = true)
    (hne : cs ≠ []) : canonDigits cs = true ∧ cs ≠ ['0'] := by
  cases cs with
  | nil => exact absurd rfl hne
  | cons e es =>
    have he : e ≠ '0' := canonDigits_head e (es ++ [c]) h (by simp)
    refine ⟨?_, ?_⟩
    · unfold canonDigits
      split
      · rename_i heq
        simp at heq
      · rename_i heq
        simp only [List.cons.injEq] at heq
        exact absurd heq.1 he
      · rename_i c' _ _ heq
        simp only [List.cons.injEq] at heq
        obtain ⟨rfl, -⟩ := heq
        simpa using he
    · intro heq
      simp only [List.cons.injEq] at heq
      exact he heq.1

/-- Printing the value of a canonical digit list gives the list back. -/
theorem formatBits_parse (ds : List Char) (u : Nat) (h : parseUintLoop ds 0 = .ok u)
    (hc : canonDigits ds = true) : formatBits u = ds ∧ (ds ≠ ['0'] → 0 < u) := by
  induction ds using List.reverseRecOn generalizing u with
  | nil => simp [canonDigits] at hc
  | append_singleton cs c ih =>
    obtain ⟨u', dg, hu', hdg, rfl⟩ := parseUintLoop_snoc cs c 0 u h
    have hlt := digitVal_lt c dg hdg
    have hch := digitChar_digitVal c dg hdg
    by_cases hcs : cs = []
    · subst hcs
      simp only [parseUintLoop, Except.ok.injEq] at hu'
      subst hu'
      simp only [List.nil_append, Nat.zero_mul, Nat.zero_add]
      refine ⟨by rw [formatBits_small dg hlt, hch], ?_⟩
      intro hne
      rcases Nat.eq_zero_or_pos dg with h0 | h0
      · subst h0
        exact absurd (by rw [digitVal_zero_char c hdg]) hne
      · exact h0
    · obtain ⟨hcc, hnz⟩ := canonDigits_snoc cs c hc hcs
      obtain ⟨hfmt, hpos⟩ := ih u' hu' hcc
      have hu'pos := hpos hnz
      refine ⟨?_, fun _ => by omega⟩
      rw [formatBits_step _ (by omega)]
      have h1 : (u' * 10 + dg) / 10 = u' := by omega
      have h2 : (u' * 10 + dg) % 10 = dg := by omega
      rw [h1, h2, hfmt, hch]


theorem formatBits_head (u : Nat) :
    ∃ c cs dg, formatBits u = c :: cs ∧ dg < 10 ∧ c = digitChar dg ∧ (dg = 0 → u = 0 ∧ cs = []) := by
  induction u using Nat.strong_induction_on with
  | _ u ih =>
    by_cases hu : u < 10
    · exact ⟨digitChar u, [], u, formatBits_small u hu, hu, rfl, fun h => ⟨h, rfl⟩⟩
    · have h10 : 10 ≤ u := Nat.le_of_not_lt hu
      obtain ⟨c, cs, dg, hfmt, hlt, hc, h0⟩ := ih (u / 10) (by omega)
      refine ⟨c, cs ++ [digitChar (u % 10)], dg, ?_, hlt, hc, ?_⟩
      · rw [formatBits_step u h10, hfmt, List.cons_append]
      · intro hz
        have := (h0 hz).1
        omega

theorem canonDigits_cons_ne (c : Char) (cs : List Char) (h : c ≠ '0') :
    canonDigits (c :: cs) = true := by
  unfold canonDigits
  split
  · rename_i heq
    simp at heq
  · rename_i heq
    simp only [List.cons.injEq] at heq
    exact absurd heq.1 h
  · rename_i c' _ _ heq
    simp only [List.cons.injEq] at heq
    obtain ⟨rfl, -⟩ := heq
    simpa using h

theorem formatBits_canon (u : Nat) :
    canonDigits (formatBits u) = true ∧ (formatBits u = ['0'] → u = 0) := by
  obtain ⟨c, cs, dg, hfmt, hlt, hc, h0⟩ := formatBits_head u
  rw [hfmt]
  by_cases hz : dg = 0
  · obtain ⟨hu, hcs⟩ := h0 hz
    subst hz
    rw [hc, hcs, digitChar_zero]
    exact ⟨rfl, fun _ => hu⟩
  · have hne : c ≠ '0' := by
      rw [hc]
      exact digitChar_ne_zero dg hlt hz
    refine ⟨canonDigits_cons_ne c cs hne, ?_⟩
    intro heq
    simp only [List.cons.injEq] at heq
    exact absurd heq.1 hne

theorem formatBits_head_not_sign (u : Nat) (cs : List Char) :
    formatBits u ≠ '+' :: cs ∧ formatBits u ≠ '-' :: cs := by
  obtain ⟨c, cs', dg, hfmt, hlt, hc, -⟩ := formatBits_head u
  rw [hfmt, hc]
  constructor <;>
  · intro heq
    simp only [List.cons.injEq] at heq
    have h1 := heq.1
    revert h1
    interval_cases dg <;> decide

theorem ParseUint_eq (ds : List Char) (u : Nat) (h : ParseUint ds = .ok u) :
    ds ≠ [] ∧ parseUintLoop ds 0 = .ok u := by
  cases ds with
  | nil => simp [ParseUint] at h
  | cons c cs => exact ⟨by simp, h⟩

/-- The digit texts that print back as themselves are the canonical ones. -/
theorem formatBits_eq_iff (ds : List Char) (u : Nat) (h : ParseUint ds = .ok u) :
    formatBits u = ds ↔ canonDigits ds = true := by
  obtain ⟨-, hl⟩ := ParseUint_eq ds u h
  constructor
  · intro heq
    rw [← heq]
    exact (formatBits_canon u).1
  · intro hc
    exact (formatBits_parse ds u hl hc).1

theorem String_mk_eq_iff (l : List Char) (s : String) : String.mk l = s ↔ l = s.data := by
  constructor
  · intro h
    rw [← h]
  · intro h
    rw [h]


theorem ParseInt_ok_cases (s : String) (n : Int) (h : ParseInt s = .ok n) :
    ∃ c cs un, s.data = c :: cs ∧
      ParseUint (if c = '+' ∨ c = '-' then cs else c :: cs) = .ok un ∧
      ((c = '-' ∧ n = -(un : Int) ∧ un ≤ 2 ^ 63) ∨ (c ≠ '-' ∧ n = (un : Int) ∧ un < 2 ^ 63)) := by
  unfold ParseInt at h
  cases hs : s.data with
  | nil => simp [hs] at h
  | cons c cs =>
    simp only [hs] at h
    cases hp : ParseUint (if c = '+' ∨ c = '-' then cs else c :: cs) with
    | error e =>
      rw [hp] at h
      cases e <;> simp at h
    | ok un =>
      rw [hp] at h
      refine ⟨c, cs, un, rfl, hp, ?_⟩
      by_cases hneg : c = '-'
      · simp only [hneg, not_true_eq_false, false_and, if_false, true_and, decide_True] at h
        split at h
        · simp at h
        · rename_i hle
          simp only [if_true, Except.ok.injEq] at h
          exact Or.inl ⟨hneg, h.symm, by omega⟩
      · simp only [hneg, not_false_eq_true, true_and, false_and, if_false, decide_False] at h
        split at h
        · simp at h
        · rename_i hlt
          simp only [Bool.false_eq_true, if_false, Except.ok.injEq] at h
          exact Or.inr ⟨hneg, h.symm, by omega⟩

theorem canonicalDecimal_plus (s : String) (cs : List Char) (hs : s.data = '+' :: cs) :
    canonicalDecimal s = false := by
  simp [canonicalDecimal, hs]

theorem canonicalDecimal_minus (s : String) (cs : List Char) (hs : s.data = '-' :: cs) :
    canonicalDecimal s = (canonDigits cs && cs != ['0']) := by
  simp [canonicalDecimal, hs]

theorem canonicalDecimal_digits (s : String) (c : Char) (cs : List Char) (hs : s.data = c :: cs)
    (h1 : c ≠ '+') (h2 : c ≠ '-') : canonicalDecimal s = canonDigits (c :: cs) := by
  unfold canonicalDecimal
  rw [hs]
  split
  · rename_i heq
    simp only [List.cons.injEq] at heq
    exact absurd heq.1 h1
  · rename_i heq
    simp only [List.cons.injEq] at heq
    exact absurd heq.1 h2
  · rfl

/-- Printing a parsed value gives the text back exactly for canonical texts. -/
theorem formatInt_parse_iff (s : String) (n : Int) (h : ParseInt s = .ok n) :
    FormatInt n = s ↔ canonicalDecimal s = true := by
  obtain ⟨c, cs, un, hs, hp, hcase⟩ := ParseInt_ok_cases s n h
  rcases hcase with ⟨hc, hn, -⟩ | ⟨hc, hn, -⟩
  · subst hc
    simp only [or_true, if_true] at hp
    rw [canonicalDecimal_minus s cs hs]
    obtain ⟨-, hl⟩ := ParseUint_eq cs un hp
    rcases Nat.eq_zero_or_pos un with h0 | hpos
    · subst h0
      have hn0 : n = 0 := by simpa using hn
      subst hn0
      have hf : FormatInt 0 = String.mk (formatBits 0) := by simp [FormatInt]
      rw [hf, String_mk_eq_iff, hs]
      constructor
      · intro heq
        exact absurd heq (formatBits_head_not_sign 0 cs).2
      · intro hcan
        simp only [Bool.and_eq_true, bne_iff_ne, ne_eq] at hcan
        have := (formatBits_parse cs 0 hl hcan.1).2 hcan.2
        omega
    · have hneg : n < 0 := by omega
      have habs : n.natAbs = un := by omega
      have hf : FormatInt n = String.mk ('-' :: formatBits un) := by
        simp [FormatInt, hneg, habs]
      rw [hf, String_mk_eq_iff, hs]
      simp only [List.cons.injEq, true_and, Bool.and_eq_true, bne_iff_ne, ne_eq]
      rw [formatBits_eq_iff cs un hp]
      constructor
      · intro hcan
        refine ⟨hcan, ?_⟩
        intro hz
        have h1 := (formatBits_parse cs un hl hcan).1
        rw [hz] at h1
        have := (formatBits_canon un).2 h1
        omega
      · exact fun hcan => hcan.1
  · have hnn : ¬ n < 0 := by omega
    have habs : n.natAbs = un := by omega
    have hf : FormatInt n = String.mk (formatBits un) := by
      simp [FormatInt, hnn, habs]
    rw [hf, String_mk_eq_iff, hs]
    by_cases hplus : c = '+'
    · subst hplus
      rw [canonicalDecimal_plus s cs hs]
      constructor
      · intro heq
        exact absurd heq (formatBits_head_not_sign un cs).1
      · intro hcan
        exact absurd hcan (by simp)
    · simp only [hplus, hc, or_self, if_false] at hp
      rw [canonicalDecimal_digits s c cs hs hplus hc]
      exact formatBits_eq_iff (c :: cs) un hp

/-- C6 as amended. For every text `s` that `strconv.ParseInt(s, 10, 64)`
    accepts, with value `n`, `strconv.FormatInt(n, 10)` is `s` exactly when
    `s` is in the form `FormatInt` prints: no `+` sign, no leading zero, no
    `-0`. -/
theorem FormatInt_ParseInt_iff (s : String) (n : Int) (h : ParseInt s = .ok n) :
    FormatInt n = s ↔ canonicalDecimal s = true :=
  formatInt_parse_iff s n h

/-- C6 as stated fails: `"+5"` is accepted with value `5`, which prints as
    `"5"`. -/
theorem FormatInt_ParseInt_counterexample :
    ¬ (∀ (s : String) (n : Int), ParseInt s = .ok n → FormatInt n = s) := by
  intro h
  have h5 : ParseInt "+5" = .ok 5 := by decide
  have hf : FormatInt 5 = "5" := by
    simp [FormatInt, formatBits_small, digitChar]
  have := h "+5" 5 h5
  rw [hf] at this
  exact absurd this (by decide)

theorem FormatInt_ParseInt_iff_witness :
    (FormatInt 10 = "10" ↔ canonicalDecimal "10" = true) ∧ canonicalDecimal "10" = true ∧
    (FormatInt 7 = "007" ↔ canonicalDecimal "007" = true) ∧ canonicalDecimal "007" = false :=
  ⟨FormatInt_ParseInt_iff "10" 10 (by decide), by decide,
   FormatInt_ParseInt_iff "007" 7 (by decide), by decide⟩



/-! ## The projector on each variant: what it stores -/

theorem not_touches_block_top (b t : String) (hb : b ∈ projectorKeys) (ht : t ∈ projectorKeys)
    (hne : b ≠ t) : ¬ touches b t :=
  (not_touches_of_ne b t hb ht hne t (Or.inl rfl)).1

theorem top_keep (d d' : ResourceData)
    (h : agreesOff (fun k => touches "function" k ∨ touches "dlq" k) d d') :
    d'.strs "name" = d.strs "name" ∧ d'.strs "description" = d.strs "description" ∧
    d'.maps "labels" = d.maps "labels" := by
  have n1 : ¬ (touches "function" "name" ∨ touches "dlq" "name") := by
    rintro (h | h)
    · exact not_touches_block_top "function" "name" (by decide) (by decide) (by decide) h
    · exact not_touches_block_top "dlq" "name" (by decide) (by decide) (by decide) h
  have n2 : ¬ (touches "function" "description" ∨ touches "dlq" "description") := by
    rintro (h | h)
    · exact not_touches_block_top "function" "description" (by decide) (by decide) (by decide) h
    · exact not_touches_block_top "dlq" "description" (by decide) (by decide) (by decide) h
  have n3 : ¬ (touches "function" "labels" ∨ touches "dlq" "labels") := by
    rintro (h | h)
    · exact not_touches_block_top "function" "labels" (by decide) (by decide) (by decide) h
    · exact not_touches_block_top "dlq" "labels" (by decide) (by decide) (by decide) h
  exact ⟨(h _ n1).1, (h _ n2).1, (h _ n3).2.2.2.2⟩

theorem block_top_keep (d : ResourceData) (v : String) (hv : v ∈ functionTriggerTypesList)
    (m : List (String × Value)) :
    (d.SetBlock v m).strs "name" = d.strs "name" ∧
    (d.SetBlock v m).strs "description" = d.strs "description" ∧
    (d.SetBlock v m).maps "labels" = d.maps "labels" := by
  have hvp := mem_projectorKeys_of_variant v hv
  have h := SetBlock_agreesOff d v m
  simp only [functionTriggerTypesList, triggerTypeIoT, triggerTypeMessageQueue,
    triggerTypeObjectStorage, triggerTypeTimer, triggerTypeLogGroup, triggerTypeLogging,
    List.mem_cons, List.mem_singleton, List.not_mem_nil, or_false] at hv
  have n1 : v ≠ "name" := by
    rcases hv with h | h | h | h | h | h <;> rw [h] <;> decide
  have n2 : v ≠ "description" := by
    rcases hv with h | h | h | h | h | h <;> rw [h] <;> decide
  have n3 : v ≠ "labels" := by
    rcases hv with h | h | h | h | h | h <;> rw [h] <;> decide
  exact ⟨(h _ (not_touches_block_top v "name" hvp (by decide) n1)).1,
    (h _ (not_touches_block_top v "description" hvp (by decide) n2)).1,
    (h _ (not_touches_block_top v "labels" hvp (by decide) n3)).2.2.2.2⟩

/-- The configuration after the five top-level writes of the projector. -/
theorem top_values (env : Env) (d0 : ResourceData) (trig : Trigger) :
    (((((d0.SetStr "name" trig.Name).SetStr "folder_id" trig.FolderId).SetStr "description"
      trig.Description).SetStr "created_at" (env.getTimestamp trig.CreatedAt)).SetMap "labels"
      trig.Labels).strs "name" = trig.Name ∧
    (((((d0.SetStr "name" trig.Name).SetStr "folder_id" trig.FolderId).SetStr "description"
      trig.Description).SetStr "created_at" (env.getTimestamp trig.CreatedAt)).SetMap "labels"
      trig.Labels).strs "description" = trig.Description ∧
    (((((d0.SetStr "name" trig.Name).SetStr "folder_id" trig.FolderId).SetStr "description"
      trig.Description).SetStr "created_at" (env.getTimestamp trig.CreatedAt)).SetMap "labels"
      trig.Labels).maps "labels" = trig.Labels := by
  simp [ResourceData.SetStr, ResourceData.SetMap]

theorem mem_setAdd (xs : List String) (x y : String) : y ∈ setAdd xs x ↔ y ∈ xs ∨ y = x := by
  unfold setAdd
  by_cases h : x ∈ xs
  · simp only [h, if_true]
    constructor
    · exact Or.inl
    · rintro (h1 | h1)
      · exact h1
      · rw [h1]; exact h
  · simp [h]

theorem mem_foldl_setAdd (xs acc : List String) (y : String) :
    y ∈ xs.foldl setAdd acc ↔ y ∈ acc ∨ y ∈ xs := by
  induction xs generalizing acc with
  | nil => simp
  | cons x xs ih =>
    simp only [List.foldl_cons, ih, mem_setAdd, List.mem_cons]
    tauto

theorem mem_stringSetOf (env : Env) (xs : List String) (y : String) :
    y ∈ stringSetOf env xs ↔ y ∈ xs := by
  simp [stringSetOf, (env.setList_perm _).mem_iff, mem_foldl_setAdd]

theorem mem_levelNames_aux (levels : List LogLevel_Level) (acc : List String) (y : String) :
    y ∈ levels.foldl
        (fun acc level =>
          match levelEnumToName level with
          | some l => setAdd acc l
          | none => acc) acc ↔
      y ∈ acc ∨ ∃ v ∈ levels, levelEnumToName v = some y := by
  induction levels generalizing acc with
  | nil => simp
  | cons v vs ih =>
    simp only [List.foldl_cons, ih, List.mem_cons, exists_eq_or_imp]
    cases hv : levelEnumToName v with
    | none => simp
    | some l =>
      simp only [mem_setAdd, Option.some.injEq]
      constructor
      · rintro ((h | h) | h)
        · exact Or.inl h
        · exact Or.inr (Or.inl h.symm)
        · exact Or.inr (Or.inr h)
      · rintro (h | h | h)
        · exact Or.inl (Or.inl h)
        · exact Or.inl (Or.inr h.symm)
        · exact Or.inr h

theorem mem_levelNames (env : Env) (levels : List LogLevel_Level) (y : String) :
    y ∈ levelNames env levels ↔ ∃ v ∈ levels, levelEnumToName v = some y := by
  unfold levelNames
  rw [(env.setList_perm _).mem_iff, mem_levelNames_aux]
  simp


theorem flatten_iot (env : Env) (d0 : ResourceData) (trig : Trigger) (iot : Trigger_IoTMessage)
    (hr : trig.Rule = some (.IotMessage iot)) :
    ∃ d', flattenYandexFunctionTrigger env d0 trig = .ok d' ∧
      d'.strs "name" = trig.Name ∧ d'.strs "description" = trig.Description ∧
      d'.maps "labels" = trig.Labels ∧
      d'.strs "iot.0.registry_id" = iot.RegistryId ∧
      d'.strs "iot.0.device_id" = iot.DeviceId ∧
      d'.strs "iot.0.topic" = iot.MqttTopic := by
  simp only [flattenYandexFunctionTrigger, hr, GetIotMessage, ResourceData.Set, ok_bind]
  obtain ⟨d', hd', hag⟩ := withRetry_option_ok _ iot.Action _ rfl
  refine ⟨d', hd', ?_⟩
  obtain ⟨t1, t2, t3⟩ := top_keep _ d' hag
  obtain ⟨b1, b2, b3⟩ := block_top_keep
    (((((d0.SetStr "name" trig.Name).SetStr "folder_id" trig.FolderId).SetStr "description"
      trig.Description).SetStr "created_at" (env.getTimestamp trig.CreatedAt)).SetMap "labels"
      trig.Labels) triggerTypeIoT (by decide)
    [("registry_id", Value.str iot.RegistryId), ("device_id", Value.str iot.DeviceId),
      ("topic", Value.str iot.MqttTopic)]
  obtain ⟨v1, v2, v3⟩ := top_values env d0 trig
  have hk := variant_path_keep _ d' "iot" (by decide) hag
  have e1 := (hk "registry_id").1
  have e2 := (hk "device_id").1
  have e3 := (hk "topic").1
  have s1 : "iot" ++ ".0." ++ "registry_id" = "iot.0.registry_id" := by decide
  have s2 : "iot" ++ ".0." ++ "device_id" = "iot.0.device_id" := by decide
  have s3 : "iot" ++ ".0." ++ "topic" = "iot.0.topic" := by decide
  rw [s1] at e1
  rw [s2] at e2
  rw [s3] at e3
  refine ⟨t1.trans (b1.trans v1), t2.trans (b2.trans v2), t3.trans (b3.trans v3),
    e1.trans ?_, e2.trans ?_, e3.trans ?_⟩ <;>
  simp [ResourceData.SetBlock, ResourceData.setField, triggerTypeIoT]

theorem flatten_timer (env : Env) (d0 : ResourceData) (trig : Trigger) (timer : Trigger_Timer)
    (hr : trig.Rule = some (.Timer timer)) :
    ∃ d', flattenYandexFunctionTrigger env d0 trig = .ok d' ∧
      d'.strs "name" = trig.Name ∧ d'.strs "description" = trig.Description ∧
      d'.maps "labels" = trig.Labels ∧
      d'.strs "timer.0.cron_expression" = timer.CronExpression := by
  simp only [flattenYandexFunctionTrigger, hr, GetIotMessage, GetMessageQueue, GetObjectStorage,
    GetTimer, ResourceData.Set, ok_bind]
  have hex : ∃ d', (match timer.GetInvokeFunctionWithRetry with
      | some function => flattenYandexFunctionTriggerInvokeWithRetry
          ((((((d0.SetStr "name" trig.Name).SetStr "folder_id" trig.FolderId).SetStr "description"
            trig.Description).SetStr "created_at" (env.getTimestamp trig.CreatedAt)).SetMap "labels"
            trig.Labels).SetBlock triggerTypeTimer
            [("cron_expression", Value.str timer.CronExpression)]) function
      | none =>
        match timer.GetInvokeFunction with
        | some function => flattenYandexFunctionTriggerInvokeOnce
            ((((((d0.SetStr "name" trig.Name).SetStr "folder_id" trig.FolderId).SetStr "description"
              trig.Description).SetStr "created_at" (env.getTimestamp trig.CreatedAt)).SetMap "labels"
              trig.Labels).SetBlock triggerTypeTimer
              [("cron_expression", Value.str timer.CronExpression)]) function
        | none => pure
            ((((((d0.SetStr "name" trig.Name).SetStr "folder_id" trig.FolderId).SetStr "description"
              trig.Description).SetStr "created_at" (env.getTimestamp trig.CreatedAt)).SetMap "labels"
              trig.Labels).SetBlock triggerTypeTimer
              [("cron_expression", Value.str timer.CronExpression)])) = Except.ok d' ∧
      agreesOff (fun k => touches "function" k ∨ touches "dlq" k)
        ((((((d0.SetStr "name" trig.Name).SetStr "folder_id" trig.FolderId).SetStr "description"
          trig.Description).SetStr "created_at" (env.getTimestamp trig.CreatedAt)).SetMap "labels"
          trig.Labels).SetBlock triggerTypeTimer
          [("cron_expression", Value.str timer.CronExpression)]) d' := by
    cases hw : timer.GetInvokeFunctionWithRetry with
    | some f =>
      obtain ⟨d', h⟩ := invokeWithRetry_ok
        ((((((d0.SetStr "name" trig.Name).SetStr "folder_id" trig.FolderId).SetStr "description"
          trig.Description).SetStr "created_at" (env.getTimestamp trig.CreatedAt)).SetMap "labels"
          trig.Labels).SetBlock triggerTypeTimer
          [("cron_expression", Value.str timer.CronExpression)]) f
      exact ⟨d', h, invokeWithRetry_agreesOff _ d' f h⟩
    | none => exact once_option_ok _ timer.GetInvokeFunction _ rfl
  obtain ⟨d', hd', hag⟩ := hex
  refine ⟨d', hd', ?_⟩
  obtain ⟨t1, t2, t3⟩ := top_keep _ d' hag
  obtain ⟨b1, b2, b3⟩ := block_top_keep
    (((((d0.SetStr "name" trig.Name).SetStr "folder_id" trig.FolderId).SetStr "description"
      trig.Description).SetStr "created_at" (env.getTimestamp trig.CreatedAt)).SetMap "labels"
      trig.Labels) triggerTypeTimer (by decide)
    [("cron_expression", Value.str timer.CronExpression)]
  obtain ⟨v1, v2, v3⟩ := top_values env d0 trig
  have e1 := (variant_path_keep _ d' "timer" (by decide) hag "cron_expression").1
  have s1 : "timer" ++ ".0." ++ "cron_expression" = "timer.0.cron_expression" := by decide
  rw [s1] at e1
  refine ⟨t1.trans (b1.trans v1), t2.trans (b2.trans v2), t3.trans (b3.trans v3), e1.trans ?_⟩
  simp [ResourceData.SetBlock, ResourceData.setField, triggerTypeTimer]


theorem flatten_message_queue (env : Env) (d0 : ResourceData) (trig : Trigger)
    (mq : Trigger_MessageQueue) (hr : trig.Rule = some (.MessageQueue mq))
    (hb : ∀ b, mq.BatchSettings = some b → ∃ c, b.Cutoff = some c) :
    ∃ d', flattenYandexFunctionTrigger env d0 trig = .ok d' ∧
      d'.strs "name" = trig.Name ∧ d'.strs "description" = trig.Description ∧
      d'.maps "labels" = trig.Labels ∧
      d'.strs "message_queue.0.queue_id" = mq.QueueId ∧
      d'.strs "message_queue.0.service_account_id" = mq.ServiceAccountId ∧
      d'.strs "message_queue.0.visibility_timeout" =
        (mq.VisibilityTimeout.map (fun t => FormatInt t.Seconds)).getD
          (d0.strs "message_queue.0.visibility_timeout") ∧
      d'.strs "message_queue.0.batch_size" =
        (mq.BatchSettings.map (fun b => FormatInt b.Size)).getD
          (d0.strs "message_queue.0.batch_size") ∧
      d'.strs "message_queue.0.batch_cutoff" =
        ((mq.BatchSettings.bind (fun b => b.Cutoff)).map (fun c => FormatInt c.Seconds)).getD
          (d0.strs "message_queue.0.batch_cutoff") := by
  cases hvt : mq.VisibilityTimeout <;> cases hbs : mq.BatchSettings
  case none.none =>
    simp only [flattenYandexFunctionTrigger, hr, GetIotMessage, GetMessageQueue, ResourceData.Set,
      hvt, hbs, ok_bind, pure_eq_ok]
    obtain ⟨d', hd', hag⟩ := once_option_ok _ mq.Action _ rfl
    refine ⟨d', hd', ?_⟩
    obtain ⟨t1, t2, t3⟩ := top_keep _ d' hag
    have hk := variant_path_keep _ d' "message_queue" (by decide) hag
    have e1 : d'.strs "message_queue.0.queue_id" = _ := (hk "queue_id").1
    have e2 : d'.strs "message_queue.0.service_account_id" = _ := (hk "service_account_id").1
    have e3 : d'.strs "message_queue.0.visibility_timeout" = _ := (hk "visibility_timeout").1
    have e4 : d'.strs "message_queue.0.batch_size" = _ := (hk "batch_size").1
    have e5 : d'.strs "message_queue.0.batch_cutoff" = _ := (hk "batch_cutoff").1
    refine ⟨t1.trans ?_, t2.trans ?_, t3.trans ?_, e1.trans ?_, e2.trans ?_, e3.trans ?_,
      e4.trans ?_, e5.trans ?_⟩ <;>
    simp [ResourceData.SetBlock, ResourceData.setField, ResourceData.SetStr, ResourceData.SetMap,
      triggerTypeMessageQueue]
  case none.some b =>
    obtain ⟨c, hc⟩ := hb b hbs
    simp only [flattenYandexFunctionTrigger, hr, GetIotMessage, GetMessageQueue, ResourceData.Set,
      hvt, hbs, hc, batchEntries, cutoffSeconds, ok_bind, pure_eq_ok]
    obtain ⟨d', hd', hag⟩ := once_option_ok _ mq.Action _ rfl
    refine ⟨d', hd', ?_⟩
    obtain ⟨t1, t2, t3⟩ := top_keep _ d' hag
    have hk := variant_path_keep _ d' "message_queue" (by decide) hag
    have e1 : d'.strs "message_queue.0.queue_id" = _ := (hk "queue_id").1
    have e2 : d'.strs "message_queue.0.service_account_id" = _ := (hk "service_account_id").1
    have e3 : d'.strs "message_queue.0.visibility_timeout" = _ := (hk "visibility_timeout").1
    have e4 : d'.strs "message_queue.0.batch_size" = _ := (hk "batch_size").1
    have e5 : d'.strs "message_queue.0.batch_cutoff" = _ := (hk "batch_cutoff").1
    refine ⟨t1.trans ?_, t2.trans ?_, t3.trans ?_, e1.trans ?_, e2.trans ?_, e3.trans ?_,
      e4.trans ?_, e5.trans ?_⟩ <;>
    simp [ResourceData.SetBlock, ResourceData.setField, ResourceData.SetStr, ResourceData.SetMap,
      triggerTypeMessageQueue, hc]
  case some.none t =>
    simp only [flattenYandexFunctionTrigger, hr, GetIotMessage, GetMessageQueue, ResourceData.Set,
      hvt, hbs, ok_bind, pure_eq_ok]
    obtain ⟨d', hd', hag⟩ := once_option_ok _ mq.Action _ rfl
    refine ⟨d', hd', ?_⟩
    obtain ⟨t1, t2, t3⟩ := top_keep _ d' hag
    have hk := variant_path_keep _ d' "message_queue" (by decide) hag
    have e1 : d'.strs "message_queue.0.queue_id" = _ := (hk "queue_id").1
    have e2 : d'.strs "message_queue.0.service_account_id" = _ := (hk "service_account_id").1
    have e3 : d'.strs "message_queue.0.visibility_timeout" = _ := (hk "visibility_timeout").1
    have e4 : d'.strs "message_queue.0.batch_size" = _ := (hk "batch_size").1
    have e5 : d'.strs "message_queue.0.batch_cutoff" = _ := (hk "batch_cutoff").1
    refine ⟨t1.trans ?_, t2.trans ?_, t3.trans ?_, e1.trans ?_, e2.trans ?_, e3.trans ?_,
      e4.trans ?_, e5.trans ?_⟩ <;>
    simp [ResourceData.SetBlock, ResourceData.setField, ResourceData.SetStr, ResourceData.SetMap,
      triggerTypeMessageQueue]
  case some.some t b =>
    obtain ⟨c, hc⟩ := hb b hbs
    simp only [flattenYandexFunctionTrigger, hr, GetIotMessage, GetMessageQueue, ResourceData.Set,
      hvt, hbs, hc, batchEntries, cutoffSeconds, ok_bind, pure_eq_ok]
    obtain ⟨d', hd', hag⟩ := once_option_ok _ mq.Action _ rfl
    refine ⟨d', hd', ?_⟩
    obtain ⟨t1, t2, t3⟩ := top_keep _ d' hag
    have hk := variant_path_keep _ d' "message_queue" (by decide) hag
    have e1 : d'.strs "message_queue.0.queue_id" = _ := (hk "queue_id").1
    have e2 : d'.strs "message_queue.0.service_account_id" = _ := (hk "service_account_id").1
    have e3 : d'.strs "message_queue.0.visibility_timeout" = _ := (hk "visibility_timeout").1
    have e4 : d'.strs "message_queue.0.batch_size" = _ := (hk "batch_size").1
    have e5 : d'.strs "message_queue.0.batch_cutoff" = _ := (hk "batch_cutoff").1
    refine ⟨t1.trans ?_, t2.trans ?_, t3.trans ?_, e1.trans ?_, e2.trans ?_, e3.trans ?_,
      e4.trans ?_, e5.trans ?_⟩ <;>
    simp [ResourceData.SetBlock, ResourceData.setField, ResourceData.SetStr, ResourceData.SetMap,
      triggerTypeMessageQueue, hc]


theorem flatten_log_group (env : Env) (d0 : ResourceData) (trig : Trigger)
    (lg : Trigger_CloudLogs) (hr : trig.Rule = some (.CloudLogs lg))
    (hb : ∀ b, lg.BatchSettings = some b → ∃ c, b.Cutoff = some c) :
    ∃ d', flattenYandexFunctionTrigger env d0 trig = .ok d' ∧
      d'.strs "name" = trig.Name ∧ d'.strs "description" = trig.Description ∧
      d'.maps "labels" = trig.Labels ∧
      d'.sets "log_group.0.log_group_ids" = stringSetOf env lg.LogGroupId ∧
      d'.strs "log_group.0.batch_size" =
        (lg.BatchSettings.map (fun b => FormatInt b.Size)).getD
          (d0.strs "log_group.0.batch_size") ∧
      d'.strs "log_group.0.batch_cutoff" =
        ((lg.BatchSettings.bind (fun b => b.Cutoff)).map (fun c => FormatInt c.Seconds)).getD
          (d0.strs "log_group.0.batch_cutoff") := by
  cases hbs : lg.BatchSettings
  case none =>
    simp only [flattenYandexFunctionTrigger, hr, GetIotMessage, GetMessageQueue, GetObjectStorage, GetTimer, GetCloudLogs, ResourceData.Set,
      hbs, batchEntries, cutoffSeconds, ok_bind, pure_eq_ok]
    obtain ⟨dinv, hinv, hag⟩ := withRetry_option_ok
      (((((d0.SetStr "name" trig.Name).SetStr "folder_id" trig.FolderId).SetStr "description"
      trig.Description).SetStr "created_at" (env.getTimestamp trig.CreatedAt)).SetMap "labels"
      trig.Labels) lg.Action _ rfl
    simp only [pure_eq_ok] at hinv
    rw [hinv]
    simp only [ok_bind]
    refine ⟨_, rfl, ?_⟩
    obtain ⟨t1, t2, t3⟩ := top_keep _ dinv hag
    have hk := variant_path_keep _ dinv "log_group" (by decide) hag
    have e4 : dinv.strs "log_group.0.batch_size" = _ := (hk "batch_size").1
    have e5 : dinv.strs "log_group.0.batch_cutoff" = _ := (hk "batch_cutoff").1
    simp [ResourceData.SetBlock, ResourceData.setField, triggerTypeLogGroup, t1, t2, t3, e4, e5,
      ResourceData.SetStr, ResourceData.SetMap]
  case some b =>
    obtain ⟨c, hc⟩ := hb b hbs
    simp only [flattenYandexFunctionTrigger, hr, GetIotMessage, GetMessageQueue, GetObjectStorage, GetTimer, GetCloudLogs, ResourceData.Set,
      hbs, hc, batchEntries, cutoffSeconds, ok_bind, pure_eq_ok]
    obtain ⟨dinv, hinv, hag⟩ := withRetry_option_ok
      (((((d0.SetStr "name" trig.Name).SetStr "folder_id" trig.FolderId).SetStr "description"
      trig.Description).SetStr "created_at" (env.getTimestamp trig.CreatedAt)).SetMap "labels"
      trig.Labels) lg.Action _ rfl
    simp only [pure_eq_ok] at hinv
    rw [hinv]
    simp only [ok_bind]
    refine ⟨_, rfl, ?_⟩
    obtain ⟨t1, t2, t3⟩ := top_keep _ dinv hag
    have hk := variant_path_keep _ dinv "log_group" (by decide) hag
    have e4 : dinv.strs "log_group.0.batch_size" = _ := (hk "batch_size").1
    have e5 : dinv.strs "log_group.0.batch_cutoff" = _ := (hk "batch_cutoff").1
    simp [ResourceData.SetBlock, ResourceData.setField, triggerTypeLogGroup, t1, t2, t3, e4, e5,
      ResourceData.SetStr, ResourceData.SetMap, hc]

theorem flatten_logging (env : Env) (d0 : ResourceData) (trig : Trigger)
    (lg : Trigger_Logging) (hr : trig.Rule = some (.Logging lg))
    (hb : ∀ b, lg.BatchSettings = some b → ∃ c, b.Cutoff = some c) :
    ∃ d', flattenYandexFunctionTrigger env d0 trig = .ok d' ∧
      d'.strs "name" = trig.Name ∧ d'.strs "description" = trig.Description ∧
      d'.maps "labels" = trig.Labels ∧
      d'.strs "logging.0.group_id" = lg.LogGroupId ∧
      d'.sets "logging.0.resource_ids" = stringSetOf env lg.ResourceId ∧
      d'.sets "logging.0.resource_types" = stringSetOf env lg.ResourceType ∧
      d'.sets "logging.0.levels" = levelNames env lg.Levels ∧
      d'.strs "logging.0.batch_size" =
        (lg.BatchSettings.map (fun b => FormatInt b.Size)).getD
          (d0.strs "logging.0.batch_size") ∧
      d'.strs "logging.0.batch_cutoff" =
        ((lg.BatchSettings.bind (fun b => b.Cutoff)).map (fun c => FormatInt c.Seconds)).getD
          (d0.strs "logging.0.batch_cutoff") := by
  cases hbs : lg.BatchSettings
  case none =>
    simp only [flattenYandexFunctionTrigger, hr, GetIotMessage, GetMessageQueue, GetObjectStorage, GetTimer, GetCloudLogs, GetLogging, ResourceData.Set,
      hbs, batchEntries, cutoffSeconds, ok_bind, pure_eq_ok]
    obtain ⟨dinv, hinv, hag⟩ := withRetry_option_ok
      (((((d0.SetStr "name" trig.Name).SetStr "folder_id" trig.FolderId).SetStr "description"
      trig.Description).SetStr "created_at" (env.getTimestamp trig.CreatedAt)).SetMap "labels"
      trig.Labels) lg.Action _ rfl
    simp only [pure_eq_ok] at hinv
    rw [hinv]
    simp only [ok_bind]
    refine ⟨_, rfl, ?_⟩
    obtain ⟨t1, t2, t3⟩ := top_keep _ dinv hag
    have hk := variant_path_keep _ dinv "logging" (by decide) hag
    have e4 : dinv.strs "logging.0.batch_size" = _ := (hk "batch_size").1
    have e5 : dinv.strs "logging.0.batch_cutoff" = _ := (hk "batch_cutoff").1
    simp [ResourceData.SetBlock, ResourceData.setField, triggerTypeLogging, t1, t2, t3, e4, e5,
      ResourceData.SetStr, ResourceData.SetMap]
  case some b =>
    obtain ⟨c, hc⟩ := hb b hbs
    simp only [flattenYandexFunctionTrigger, hr, GetIotMessage, GetMessageQueue, GetObjectStorage, GetTimer, GetCloudLogs, GetLogging, ResourceData.Set,
      hbs, hc, batchEntries, cutoffSeconds, ok_bind, pure_eq_ok]
    obtain ⟨dinv, hinv, hag⟩ := withRetry_option_ok
      (((((d0.SetStr "name" trig.Name).SetStr "folder_id" trig.FolderId).SetStr "description"
      trig.Description).SetStr "created_at" (env.getTimestamp trig.CreatedAt)).SetMap "labels"
      trig.Labels) lg.Action _ rfl
    simp only [pure_eq_ok] at hinv
    rw [hinv]
    simp only [ok_bind]
    refine ⟨_, rfl, ?_⟩
    obtain ⟨t1, t2, t3⟩ := top_keep _ dinv hag
    have hk := variant_path_keep _ dinv "logging" (by decide) hag
    have e4 : dinv.strs "logging.0.batch_size" = _ := (hk "batch_size").1
    have e5 : dinv.strs "logging.0.batch_cutoff" = _ := (hk "batch_cutoff").1
    simp [ResourceData.SetBlock, ResourceData.setField, triggerTypeLogging, t1, t2, t3, e4, e5,
      ResourceData.SetStr, ResourceData.SetMap, hc]

theorem flatten_object_storage_top (env : Env) (d0 : ResourceData) (trig : Trigger)
    (st : Trigger_ObjectStorage) (hr : trig.Rule = some (.ObjectStorage st)) (d' : ResourceData)
    (h : flattenYandexFunctionTrigger env d0 trig = .ok d') :
    d'.strs "name" = trig.Name ∧ d'.strs "description" = trig.Description ∧
    d'.maps "labels" = trig.Labels := by
  simp only [flattenYandexFunctionTrigger, hr, GetIotMessage, GetMessageQueue, GetObjectStorage,
    ResourceData.Set, ok_bind] at h
  obtain ⟨d2, hd2, hag⟩ := withRetry_option_ok _ st.Action _ rfl
  rw [h] at hd2
  cases hd2
  obtain ⟨t1, t2, t3⟩ := top_keep _ d' hag
  refine ⟨t1.trans ?_, t2.trans ?_, t3.trans ?_⟩
  · exact (block_top_keep _ triggerTypeObjectStorage (by decide) _).1.trans (top_values env d0 trig).1
  · exact (block_top_keep _ triggerTypeObjectStorage (by decide) _).2.1.trans
      (top_values env d0 trig).2.1
  · exact (block_top_keep _ triggerTypeObjectStorage (by decide) _).2.2.trans
      (top_values env d0 trig).2.2


/-! ## C2: the round trip configuration, rule, configuration -/

theorem expandBatchSettings_cases (env : Env) (d : ResourceData) (pfx : String)
    (h : batchTextValid d pfx) :
    (d.strs (pfx ++ ".batch_size") = "" ∧ expandBatchSettings env d pfx = .ok none) ∨
    (d.strs (pfx ++ ".batch_size") ≠ "" ∧
      ∃ n c, ParseInt (d.strs (pfx ++ ".batch_size")) = .ok n ∧
        ParseInt (d.strs (pfx ++ ".batch_cutoff")) = .ok c ∧
        expandBatchSettings env d pfx = .ok (some { Size := n, Cutoff := some { Seconds := c } })) := by
  rcases h with h | ⟨hs, hc⟩
  · exact Or.inl ⟨h, expandBatchSettings_none env d pfx h⟩
  · obtain ⟨n, hn⟩ := (parses_iff _).1 hs
    obtain ⟨c, hc⟩ := (parses_iff _).1 hc
    have hne := ne_empty_of_parses _ hs
    exact Or.inr ⟨hne, n, c, hn, hc, expandBatchSettings_some env d pfx n c hne hn hc⟩

theorem level_inverse (name : String) (v : LogLevel_Level) :
    levelNameToEnum name = some v ↔ levelEnumToName v = some name := by
  constructor
  · intro h
    unfold levelNameToEnum at h
    by_cases h1 : name = "debug"
    · simp [h1] at h; subst h; subst h1; rfl
    by_cases h2 : name = "error"
    · simp [h2] at h; subst h; subst h2; rfl
    by_cases h3 : name = "fatal"
    · simp [h3] at h; subst h; subst h3; rfl
    by_cases h4 : name = "info"
    · simp [h4] at h; subst h; subst h4; rfl
    by_cases h5 : name = "trace"
    · simp [h5] at h; subst h; subst h5; rfl
    by_cases h6 : name = "warn"
    · simp [h6] at h; subst h; subst h6; rfl
    simp [h1, h2, h3, h4, h5, h6] at h
  · intro h
    cases v <;> simp [levelEnumToName] at h <;> subst h <;> rfl

theorem numericRoundTrip_of (d d' : ResourceData) (k : String) (n : Int)
    (hp : ParseInt (d.strs k) = .ok n) (hd : d'.strs k = FormatInt n) :
    numericRoundTrip d d' k := by
  refine ⟨n, hp, hd, ?_⟩
  rw [hd]
  exact formatInt_parse_iff _ n hp

theorem batchRoundTrip_none (d d' : ResourceData) (pfx : String)
    (hs : d.strs (pfx ++ ".batch_size") = "") (hd : d'.strs (pfx ++ ".batch_size") = "")
    (hd2 : d'.strs (pfx ++ ".batch_cutoff") = "") :
    batchRoundTrip d d' pfx :=
  ⟨fun _ => ⟨hd, hd2⟩, fun h => absurd hs h⟩

theorem batchRoundTrip_some (d d' : ResourceData) (pfx : String) (n c : Int)
    (hs : d.strs (pfx ++ ".batch_size") ≠ "")
    (hn : ParseInt (d.strs (pfx ++ ".batch_size")) = .ok n)
    (hc : ParseInt (d.strs (pfx ++ ".batch_cutoff")) = .ok c)
    (h1 : d'.strs (pfx ++ ".batch_size") = FormatInt n)
    (h2 : d'.strs (pfx ++ ".batch_cutoff") = FormatInt c) :
    batchRoundTrip d d' pfx :=
  ⟨fun h => absurd h hs,
   fun _ => ⟨numericRoundTrip_of d d' _ n hn h1, numericRoundTrip_of d d' _ c hc h2⟩⟩

theorem mem_roundTrip_levels (env : Env) (names : List String) (x : String) :
    x ∈ levelNames env (names.filterMap (fun l => levelNameToEnum (ToLower env.lowerTable l))) ↔
      ∃ l ∈ names, ToLower env.lowerTable l = x ∧ x ∈ knownLevelNames := by
  simp only [mem_levelNames, List.mem_filterMap]
  constructor
  · rintro ⟨v, ⟨l, hl, hv⟩, hx⟩
    have h1 := (level_inverse _ _).1 hv
    rw [hx] at h1
    have h2 : ToLower env.lowerTable l = x := (Option.some.inj h1).symm
    refine ⟨l, hl, h2, ?_⟩
    rw [← levelNameToEnum_isSome, ← h2, hv]
    rfl
  · rintro ⟨l, hl, h2, hk⟩
    have hs := (levelNameToEnum_isSome x).2 hk
    obtain ⟨v, hv⟩ := Option.isSome_iff_exists.1 hs
    exact ⟨v, ⟨l, hl, by rw [h2]; exact hv⟩, (level_inverse _ _).1 hv⟩


/-- C2 as amended. For every valid configuration (exactly one variant block
    populated, folder id resolved, every parsed numeric text valid) the
    request is built, and projecting a response that carries its name,
    description, labels and rule into a fresh configuration stores the name,
    description and labels as they were and, for the populated variant, every
    text and boolean field as it was, every set field with the same elements,
    every numeric text that was read as the decimal print of the value it
    parses to (which is the text itself exactly when the text is canonical),
    an empty text for a visibility timeout that was empty and for both batch
    texts when `batch_size` was empty, and as levels the lower-cased forms of
    the names that are recognised. -/
theorem round_trip (env : Env) (d : ResourceData)
    (hc : populatedCount d = 1) (hv : numericTextValid d)
    (hf : ∃ fid, env.getFolderID d = .ok fid) :
    ∃ req, resourceYandexFunctionTriggerCreate env d = .ok req ∧
      ∀ trig : Trigger, trig.Name = req.Name → trig.Description = req.Description →
        trig.Labels = req.Labels → trig.Rule = req.Rule →
        ∃ d', flattenYandexFunctionTrigger env ResourceData.fresh trig = .ok d' ∧
          d'.strs "name" = d.strs "name" ∧ d'.strs "description" = d.strs "description" ∧
          d'.maps "labels" = d.maps "labels" ∧
          (d.GetOkList "iot" = true →
            d'.strs "iot.0.registry_id" = d.strs "iot.0.registry_id" ∧
            d'.strs "iot.0.device_id" = d.strs "iot.0.device_id" ∧
            d'.strs "iot.0.topic" = d.strs "iot.0.topic") ∧
          (d.GetOkList "message_queue" = true →
            d'.strs "message_queue.0.queue_id" = d.strs "message_queue.0.queue_id" ∧
            d'.strs "message_queue.0.service_account_id" =
              d.strs "message_queue.0.service_account_id" ∧
            (d.strs "message_queue.0.visibility_timeout" = "" →
              d'.strs "message_queue.0.visibility_timeout" = "") ∧
            (d.strs "message_queue.0.visibility_timeout" ≠ "" →
              numericRoundTrip d d' "message_queue.0.visibility_timeout") ∧
            batchRoundTrip d d' "message_queue.0") ∧
          (d.GetOkList "object_storage" = true →
            d'.strs "object_storage.0.bucket_id" = d.strs "object_storage.0.bucket_id" ∧
            d'.strs "object_storage.0.prefix" = d.strs "object_storage.0.prefix" ∧
            d'.strs "object_storage.0.suffix" = d.strs "object_storage.0.suffix" ∧
            d'.bools "object_storage.0.create" = d.bools "object_storage.0.create" ∧
            d'.bools "object_storage.0.update" = d.bools "object_storage.0.update" ∧
            d'.bools "object_storage.0.delete" = d.bools "object_storage.0.delete") ∧
          (d.GetOkList "timer" = true →
            d'.strs "timer.0.cron_expression" = d.strs "timer.0.cron_expression") ∧
          (d.GetOkList "log_group" = true →
            (∀ x, x ∈ d'.sets "log_group.0.log_group_ids" ↔ x ∈ d.sets "log_group.0.log_group_ids") ∧
            batchRoundTrip d d' "log_group.0") ∧
          (d.GetOkList "logging" = true →
            d'.strs "logging.0.group_id" = d.strs "logging.0.group_id" ∧
            (∀ x, x ∈ d'.sets "logging.0.resource_ids" ↔ x ∈ d.sets "logging.0.resource_ids") ∧
            (∀ x, x ∈ d'.sets "logging.0.resource_types" ↔
              x ∈ d.sets "logging.0.resource_types") ∧
            (∀ x, x ∈ d'.sets "logging.0.levels" ↔
              ∃ l ∈ d.sets "logging.0.levels", ToLower env.lowerTable l = x ∧ x ∈ knownLevelNames) ∧
            batchRoundTrip d d' "logging.0") := by
  obtain ⟨fid, hf⟩ := hf
  obtain ⟨t, ht, ho⟩ := (populatedCount_eq_one_iff d).1 hc
  obtain ⟨hr, hmq, hlg, hlog⟩ := hv
  obtain ⟨rs, hrs, -⟩ := expandRetrySettings_ok env d hr
  have hd := expandDLQSettings_eq d
  have ho' := (onlyPopulated_iff d t).1 ho
  simp only [functionTriggerTypesList, triggerTypeIoT, triggerTypeMessageQueue,
    triggerTypeObjectStorage, triggerTypeTimer, triggerTypeLogGroup, triggerTypeLogging,
    List.mem_cons, List.mem_singleton, List.not_mem_nil, or_false] at ht
  rcases ht with rfl | rfl | rfl | rfl | rfl | rfl
  · -- iot
    simp at ho'
    refine ⟨_, create_iot env d fid rs _ hf hrs hd ho, ?_⟩
    intro trig hn hds hl hrule
    obtain ⟨d', hd', n1, n2, n3, e1, e2, e3⟩ := flatten_iot env ResourceData.fresh trig _ hrule
    refine ⟨d', hd', n1.trans hn, n2.trans hds, n3.trans hl, fun _ => ⟨e1, e2, e3⟩, ?_, ?_, ?_, ?_, ?_⟩ <;>
      intro h <;> simp [ho'] at h
  · -- message_queue
    simp at ho'
    obtain ⟨hbv, hvis⟩ := hmq ho'.2.1
    obtain ⟨vt, hvt⟩ := visibility_cases d hvis
    rcases expandBatchSettings_cases env d "message_queue.0" hbv with ⟨hs, hb⟩ | ⟨hs, n, c, hpn, hpc, hb⟩
    · refine ⟨_, create_message_queue env d fid rs _ none vt hf hrs hd ho hb hvt, ?_⟩
      intro trig hn hds hl hrule
      obtain ⟨d', hd', n1, n2, n3, e1, e2, e3, e4, e5⟩ :=
        flatten_message_queue env ResourceData.fresh trig _ hrule (by simp)
      refine ⟨d', hd', n1.trans hn, n2.trans hds, n3.trans hl, ?_, fun _ => ⟨e1, e2, ?_, ?_, ?_⟩,
        ?_, ?_, ?_, ?_⟩
      · intro h; simp [ho'] at h
      · intro h0
        rcases hvt with ⟨-, rfl⟩ | ⟨hne, -⟩
        · simpa [ResourceData.fresh] using e3
        · exact absurd h0 hne
      · intro hne
        rcases hvt with ⟨h0, -⟩ | ⟨-, tv, htv, rfl⟩
        · exact absurd h0 hne
        · exact numericRoundTrip_of d d' _ tv htv (by simpa using e3)
      · exact batchRoundTrip_none d d' _ hs (by simpa [ResourceData.fresh] using e4)
          (by simpa [ResourceData.fresh] using e5)
      · intro h; simp [ho'] at h
      · intro h; simp [ho'] at h
      · intro h; simp [ho'] at h
      · intro h; simp [ho'] at h
    · refine ⟨_, create_message_queue env d fid rs _ _ vt hf hrs hd ho hb hvt, ?_⟩
      intro trig hn hds hl hrule
      obtain ⟨d', hd', n1, n2, n3, e1, e2, e3, e4, e5⟩ :=
        flatten_message_queue env ResourceData.fresh trig _ hrule (by simp)
      refine ⟨d', hd', n1.trans hn, n2.trans hds, n3.trans hl, ?_, fun _ => ⟨e1, e2, ?_, ?_, ?_⟩,
        ?_, ?_, ?_, ?_⟩
      · intro h; simp [ho'] at h
      · intro h0
        rcases hvt with ⟨-, rfl⟩ | ⟨hne, -⟩
        · simpa [ResourceData.fresh] using e3
        · exact absurd h0 hne
      · intro hne
        rcases hvt with ⟨h0, -⟩ | ⟨-, tv, htv, rfl⟩
        · exact absurd h0 hne
        · exact numericRoundTrip_of d d' _ tv htv (by simpa using e3)
      · exact batchRoundTrip_some d d' _ n c hs hpn hpc (by simpa using e4) (by simpa using e5)
      · intro h; simp [ho'] at h
      · intro h; simp [ho'] at h
      · intro h; simp [ho'] at h
      · intro h; simp [ho'] at h
  · -- object_storage
    simp at ho'
    obtain ⟨-, hmem⟩ := objectStorageEvents_spec env d
    refine ⟨_, create_object_storage env d fid rs _ hf hrs hd ho, ?_⟩
    intro trig hn hds hl hrule
    obtain ⟨d', hd', e1, e2, e3, b1, b2, b3⟩ :=
      flatten_object_storage env ResourceData.fresh trig _ hrule
    obtain ⟨n1, n2, n3⟩ := flatten_object_storage_top env ResourceData.fresh trig _ hrule d' hd'
    refine ⟨d', hd', n1.trans hn, n2.trans hds, n3.trans hl, ?_, ?_,
      fun _ => ⟨e1, e2, e3, ?_, ?_, ?_⟩, ?_, ?_, ?_⟩
    · intro h; simp [ho'] at h
    · intro h; simp [ho'] at h
    · rw [b1, Bool.eq_iff_iff]; simp [hmem, ResourceData.fresh]
    · rw [b2, Bool.eq_iff_iff]; simp [hmem, ResourceData.fresh]
    · rw [b3, Bool.eq_iff_iff]; simp [hmem, ResourceData.fresh]
    · intro h; simp [ho'] at h
    · intro h; simp [ho'] at h
    · intro h; simp [ho'] at h
  · -- timer
    simp at ho'
    refine ⟨_, create_timer env d fid rs _ hf hrs hd ho, ?_⟩
    intro trig hn hds hl hrule
    obtain ⟨d', hd', n1, n2, n3, e1⟩ := flatten_timer env ResourceData.fresh trig _ hrule
    refine ⟨d', hd', n1.trans hn, n2.trans hds, n3.trans hl, ?_, ?_, ?_, fun _ => e1, ?_, ?_⟩ <;>
      intro h <;> simp [ho'] at h
  · -- log_group
    simp at ho'
    rcases expandBatchSettings_cases env d "log_group.0" (hlg ho'.2.2.2.2.1) with
      ⟨hs, hb⟩ | ⟨hs, n, c, hpn, hpc, hb⟩
    · refine ⟨_, create_log_group env d fid rs _ none hf hrs hd ho hb, ?_⟩
      intro trig hn hds hl hrule
      obtain ⟨d', hd', n1, n2, n3, e1, e4, e5⟩ :=
        flatten_log_group env ResourceData.fresh trig _ hrule (by simp)
      refine ⟨d', hd', n1.trans hn, n2.trans hds, n3.trans hl, ?_, ?_, ?_, ?_,
        fun _ => ⟨?_, ?_⟩, ?_⟩
      · intro h; simp [ho'] at h
      · intro h; simp [ho'] at h
      · intro h; simp [ho'] at h
      · intro h; simp [ho'] at h
      · intro x; rw [e1]; exact mem_stringSetOf env _ x
      · exact batchRoundTrip_none d d' _ hs (by simpa [ResourceData.fresh] using e4)
          (by simpa [ResourceData.fresh] using e5)
      · intro h; simp [ho'] at h
    · refine ⟨_, create_log_group env d fid rs _ _ hf hrs hd ho hb, ?_⟩
      intro trig hn hds hl hrule
      obtain ⟨d', hd', n1, n2, n3, e1, e4, e5⟩ :=
        flatten_log_group env ResourceData.fresh trig _ hrule (by simp)
      refine ⟨d', hd', n1.trans hn, n2.trans hds, n3.trans hl, ?_, ?_, ?_, ?_,
        fun _ => ⟨?_, ?_⟩, ?_⟩
      · intro h; simp [ho'] at h
      · intro h; simp [ho'] at h
      · intro h; simp [ho'] at h
      · intro h; simp [ho'] at h
      · intro x; rw [e1]; exact mem_stringSetOf env _ x
      · exact batchRoundTrip_some d d' _ n c hs hpn hpc (by simpa using e4) (by simpa using e5)
      · intro h; simp [ho'] at h
  · -- logging
    simp at ho'
    rcases expandBatchSettings_cases env d "logging.0" (hlog ho'.2.2.2.2.2) with
      ⟨hs, hb⟩ | ⟨hs, n, c, hpn, hpc, hb⟩
    · refine ⟨_, create_logging env d fid rs _ none hf hrs hd ho hb, ?_⟩
      intro trig hn hds hl hrule
      obtain ⟨d', hd', n1, n2, n3, e0, e1, e2, e3, e4, e5⟩ :=
        flatten_logging env ResourceData.fresh trig _ hrule (by simp)
      refine ⟨d', hd', n1.trans hn, n2.trans hds, n3.trans hl, ?_, ?_, ?_, ?_, ?_,
        fun _ => ⟨e0, ?_, ?_, ?_, ?_⟩⟩
      · intro h; simp [ho'] at h
      · intro h; simp [ho'] at h
      · intro h; simp [ho'] at h
      · intro h; simp [ho'] at h
      · intro h; simp [ho'] at h
      · intro x; rw [e1]; exact mem_stringSetOf env _ x
      · intro x; rw [e2]; exact mem_stringSetOf env _ x
      · intro x
        rw [e3]
        simp only [loggingLevels_eq]
        exact mem_roundTrip_levels env _ x
      · exact batchRoundTrip_none d d' _ hs (by simpa [ResourceData.fresh] using e4)
          (by simpa [ResourceData.fresh] using e5)
    · refine ⟨_, create_logging env d fid rs _ _ hf hrs hd ho hb, ?_⟩
      intro trig hn hds hl hrule
      obtain ⟨d', hd', n1, n2, n3, e0, e1, e2, e3, e4, e5⟩ :=
        flatten_logging env ResourceData.fresh trig _ hrule (by simp)
      refine ⟨d', hd', n1.trans hn, n2.trans hds, n3.trans hl, ?_, ?_, ?_, ?_, ?_,
        fun _ => ⟨e0, ?_, ?_, ?_, ?_⟩⟩
      · intro h; simp [ho'] at h
      · intro h; simp [ho'] at h
      · intro h; simp [ho'] at h
      · intro h; simp [ho'] at h
      · intro h; simp [ho'] at h
      · intro x; rw [e1]; exact mem_stringSetOf env _ x
      · intro x; rw [e2]; exact mem_stringSetOf env _ x
      · intro x
        rw [e3]
        simp only [loggingLevels_eq]
        exact mem_roundTrip_levels env _ x
      · exact batchRoundTrip_some d d' _ n c hs hpn hpc (by simpa using e4) (by simpa using e5)


theorem round_trip_witness :
    populatedCount timerConfig = 1 ∧ numericTextValid timerConfig ∧
    ∃ req, resourceYandexFunctionTriggerCreate sampleEnv timerConfig = .ok req ∧
      ∃ d', flattenYandexFunctionTrigger sampleEnv ResourceData.fresh (triggerOfRequest "t1" req)
              = .ok d' ∧
        d'.strs "name" = "tick" ∧ d'.strs "description" = "" ∧
        d'.strs "timer.0.cron_expression" = "* * * * *" := by
  obtain ⟨req, h1, h2⟩ := round_trip sampleEnv timerConfig (by decide) (by decide) ⟨"b1g", rfl⟩
  obtain ⟨d', hd', n1, n2, -, -, -, -, ht, -⟩ := h2 (triggerOfRequest "t1" req) rfl rfl rfl rfl
  exact ⟨by decide, by decide, req, h1, d', hd', n1, n2, ht (by decide)⟩

/-- C2 as stated fails. A valid `message_queue` configuration whose
    `visibility_timeout` is `"+5"` resolves to five seconds and comes back as
    `"5"`; a valid `logging` configuration whose only level is `"DEBUG"`, a
    recognised name, comes back with the level `"debug"`. -/
theorem round_trip_counterexample :
    (populatedCount plusTimeoutConfig = 1 ∧ numericTextValid plusTimeoutConfig ∧
      plusTimeoutConfig.strs "message_queue.0.visibility_timeout" = "+5" ∧
      ∃ req, resourceYandexFunctionTriggerCreate sampleEnv plusTimeoutConfig = .ok req ∧
        ∃ d', flattenYandexFunctionTrigger sampleEnv ResourceData.fresh
                (triggerOfRequest "t1" req) = .ok d' ∧
          d'.strs "message_queue.0.visibility_timeout" = "5") ∧
    (populatedCount upperLevelConfig = 1 ∧ numericTextValid upperLevelConfig ∧
      upperLevelConfig.sets "logging.0.levels" = ["DEBUG"] ∧
      loggingLevels sampleEnv upperLevelConfig = [LogLevel_Level.DEBUG] ∧
      ∃ req, resourceYandexFunctionTriggerCreate sampleEnv upperLevelConfig = .ok req ∧
        ∃ d', flattenYandexFunctionTrigger sampleEnv ResourceData.fresh
                (triggerOfRequest "t1" req) = .ok d' ∧
          d'.sets "logging.0.levels" = ["debug"]) := by
  have kq : ∀ (req : CreateTriggerRequest) (mq : Trigger_MessageQueue),
      req.Rule = some (.MessageQueue mq) → mq.BatchSettings = none →
      mq.VisibilityTimeout = some { Seconds := 5 } →
      ∃ d', flattenYandexFunctionTrigger sampleEnv ResourceData.fresh
              (triggerOfRequest "t1" req) = .ok d' ∧
        d'.strs "message_queue.0.visibility_timeout" = "5" := by
    intro req mq h1 h2 h3
    obtain ⟨d', hd', -, -, -, -, -, e3, -⟩ :=
      flatten_message_queue sampleEnv ResourceData.fresh (triggerOfRequest "t1" req) mq h1
        (by simp [h2])
    refine ⟨d', hd', ?_⟩
    rw [e3, h3]
    simp [FormatInt, formatBits_small, digitChar]
  have kl : ∀ (req : CreateTriggerRequest) (lg : Trigger_Logging),
      req.Rule = some (.Logging lg) → lg.BatchSettings = none →
      lg.Levels = [LogLevel_Level.DEBUG] →
      ∃ d', flattenYandexFunctionTrigger sampleEnv ResourceData.fresh
              (triggerOfRequest "t1" req) = .ok d' ∧
        d'.sets "logging.0.levels" = ["debug"] := by
    intro req lg h1 h2 h3
    obtain ⟨d', hd', -, -, -, -, -, -, e3, -⟩ :=
      flatten_logging sampleEnv ResourceData.fresh (triggerOfRequest "t1" req) lg h1
        (by simp [h2])
    refine ⟨d', hd', ?_⟩
    rw [e3, h3]
    decide
  refine ⟨⟨by decide, by decide, rfl, ?_⟩, ⟨by decide, by decide, rfl, by decide, ?_⟩⟩
  · have hc := create_message_queue sampleEnv plusTimeoutConfig "b1g" none none none
      (some { Seconds := 5 }) rfl (by decide) (by decide) (by decide) (by decide)
      (Or.inr ⟨by decide, 5, by decide, rfl⟩)
    exact ⟨_, hc, kq _ _ rfl rfl rfl⟩
  · have hc := create_logging sampleEnv upperLevelConfig "b1g" none none none
      rfl (by decide) (by decide) (by decide) (by decide)
    exact ⟨_, hc, kl _ _ rfl rfl (by decide)⟩



/-! ## C11: severity levels in the project direction -/

theorem setAdd_nodup (xs : List String) (x : String) (h : xs.Nodup) : (setAdd xs x).Nodup := by
  unfold setAdd
  by_cases hx : x ∈ xs
  · simpa [hx] using h
  · simp only [hx, if_false]
    exact List.Nodup.append h (List.nodup_singleton x) (by simpa using hx)

theorem levelNames_nodup_aux (levels : List LogLevel_Level) (acc : List String) (h : acc.Nodup) :
    (levels.foldl
      (fun acc level =>
        match levelEnumToName level with
        | some l => setAdd acc l
        | none => acc) acc).Nodup := by
  induction levels generalizing acc with
  | nil => simpa using h
  | cons v vs ih =>
    simp only [List.foldl_cons]
    apply ih
    cases levelEnumToName v with
    | none => exact h
    | some l => exact setAdd_nodup acc l h

theorem levelNames_nodup (env : Env) (levels : List LogLevel_Level) :
    (levelNames env levels).Nodup :=
  (env.setList_perm _).nodup_iff.2 (levelNames_nodup_aux levels [] List.nodup_nil)

theorem mem_filterMap_levelNames (env : Env) (levels : List LogLevel_Level) (v : LogLevel_Level) :
    v ∈ (levelNames env levels).filterMap levelNameToEnum ↔
      v ∈ levels ∧ (levelEnumToName v).isSome = true := by
  simp only [List.mem_filterMap, mem_levelNames]
  constructor
  · rintro ⟨x, ⟨w, hw, hwx⟩, hx⟩
    have h1 := (level_inverse x v).1 hx
    have h2 : w = v := Option.some.inj (((level_inverse x w).2 hwx).symm.trans hx)
    subst h2
    exact ⟨hw, by simp [h1]⟩
  · rintro ⟨hv, hs⟩
    obtain ⟨x, hx⟩ := Option.isSome_iff_exists.1 hs
    exact ⟨x, ⟨v, hv, hx⟩, (level_inverse x v).2 hx⟩

/-! ## C12: the field named by a parse failure -/

theorem contains_append_left (a t b : String) : contains (a ++ t ++ b) t := by
  unfold contains
  exact ⟨a.data, b.data, by simp [String.data_append]⟩

/-- A `batch_size` that does not parse: the message names `pfx.batch_size`. -/
theorem expandBatchSettings_size_error (env : Env) (d : ResourceData) (pfx : String) (e : NumErr)
    (hs : d.strs (pfx ++ ".batch_size") ≠ "")
    (he : ParseInt (d.strs (pfx ++ ".batch_size")) = .error e) :
    expandBatchSettings env d pfx = .error (Errorf
      ("Cannot define " ++ pfx ++ ".batch_size for Yandex Cloud Functions Trigger: " ++
        e.Error env.quote (d.strs (pfx ++ ".batch_size")))) ∧
    contains
      ("Cannot define " ++ pfx ++ ".batch_size for Yandex Cloud Functions Trigger: " ++
        e.Error env.quote (d.strs (pfx ++ ".batch_size")))
      (pfx ++ ".batch_size") := by
  constructor
  · simp [expandBatchSettings, ResourceData.GetOkStr, ResourceData.GetStr, hs, ParseIntText, he,
      orErrorf, error_bind]
  · have h := contains_append_left "Cannot define " (pfx ++ ".batch_size")
      (" for Yandex Cloud Functions Trigger: " ++ e.Error env.quote (d.strs (pfx ++ ".batch_size")))
    simpa [String.append_assoc] using h

/-- A `batch_cutoff` that does not parse, after a `batch_size` that does: the
    message has the prefix and `batch_cutoff` with no dot between them. -/
theorem expandBatchSettings_cutoff_error (env : Env) (d : ResourceData) (pfx : String) (n : Int)
    (e : NumErr) (hs : d.strs (pfx ++ ".batch_size") ≠ "")
    (hn : ParseInt (d.strs (pfx ++ ".batch_size")) = .ok n)
    (he : ParseInt (d.strs (pfx ++ ".batch_cutoff")) = .error e) :
    expandBatchSettings env d pfx = .error (Errorf
      ("Cannot define " ++ pfx ++ "batch_cutoff for Yandex Cloud Functions Trigger: " ++
        e.Error env.quote (d.strs (pfx ++ ".batch_cutoff")))) := by
  simp [expandBatchSettings, ResourceData.GetOkStr, ResourceData.GetStr, hs, ParseIntText, he, hn,
    orErrorf, error_bind, ok_bind]

/-- A `retry_attempts` that does not parse: the message names
    `function.retry_attempts`. -/
theorem expandRetrySettings_attempts_error (env : Env) (d : ResourceData) (e : NumErr)
    (hs : d.strs "function.0.retry_attempts" ≠ "")
    (he : ParseInt (d.strs "function.0.retry_attempts") = .error e) :
    expandRetrySettings env d = .error (Errorf
      ("Cannot define function.retry_attempts for Yandex Cloud Functions Trigger: " ++
        e.Error env.quote (d.strs "function.0.retry_attempts"))) ∧
    contains
      ("Cannot define function.retry_attempts for Yandex Cloud Functions Trigger: " ++
        e.Error env.quote (d.strs "function.0.retry_attempts"))
      "function.retry_attempts" := by
  constructor
  · simp [expandRetrySettings, ResourceData.GetOkStr, ResourceData.GetStr, hs, ParseIntText, he,
      orErrorf, error_bind]
  · have h := contains_append_left "Cannot define " "function.retry_attempts"
      (" for Yandex Cloud Functions Trigger: " ++
        e.Error env.quote (d.strs "function.0.retry_attempts"))
    simpa [String.append_assoc] using h

/-- A `retry_interval` that does not parse, the attempts being absent or
    valid: the message names `function.retry_interval`. -/
theorem expandRetrySettings_interval_error (env : Env) (d : ResourceData) (e : NumErr)
    (ha : d.strs "function.0.retry_attempts" = "" ∨
      parses (d.strs "function.0.retry_attempts") = true)
    (hs : d.strs "function.0.retry_interval" ≠ "")
    (he : ParseInt (d.strs "function.0.retry_interval") = .error e) :
    expandRetrySettings env d = .error (Errorf
      ("Cannot define function.retry_interval for Yandex Cloud Functions Trigger: " ++
        e.Error env.quote (d.strs "function.0.retry_interval"))) ∧
    contains
      ("Cannot define function.retry_interval for Yandex Cloud Functions Trigger: " ++
        e.Error env.quote (d.strs "function.0.retry_interval"))
      "function.retry_interval" := by
  constructor
  · rcases ha with ha | ha
    · simp [expandRetrySettings, ResourceData.GetOkStr, ResourceData.GetStr, hs, ha, ParseIntText, he,
        orErrorf, error_bind, ok_bind, pure_eq_ok]
    · obtain ⟨n, hn⟩ := (parses_iff _).1 ha
      have hne := ne_empty_of_parses _ ha
      simp [expandRetrySettings, ResourceData.GetOkStr, ResourceData.GetStr, hs, hne, ParseIntText, he,
        hn, orErrorf, error_bind, ok_bind, pure_eq_ok]
  · have h := contains_append_left "Cannot define " "function.retry_interval"
      (" for Yandex Cloud Functions Trigger: " ++
        e.Error env.quote (d.strs "function.0.retry_interval"))
    simpa [String.append_assoc] using h

set_option maxRecDepth 20000 in
theorem cutoff_message_lacks_path :
    ¬ contains "Cannot define message_queue.0batch_cutoff for Yandex Cloud Functions Trigger: strconv.ParseInt: parsing \"x\": invalid syntax"
      "message_queue.0.batch_cutoff" := by
  decide

set_option maxRecDepth 20000 in
theorem size_message_has_path :
    contains "Cannot define message_queue.0.batch_size for Yandex Cloud Functions Trigger: strconv.ParseInt: parsing \"x\": invalid syntax"
      "message_queue.0.batch_size" := by
  decide

/-- C12 fails on the code for `batch_cutoff`. With `batch_size = "1"` and
    `batch_cutoff = "x"` under `message_queue.0`, `expandBatchSettings` (and
    with it the create operation) fails with a message that has
    `message_queue.0batch_cutoff`, the dot missing, and so does not contain the
    path `message_queue.0.batch_cutoff`; with the two texts exchanged the
    message does contain `message_queue.0.batch_size`. -/
theorem batch_cutoff_error_misnames_path :
    expandBatchSettings sampleEnv badCutoffConfig "message_queue.0" =
      .error (Fault.error "Cannot define message_queue.0batch_cutoff for Yandex Cloud Functions Trigger: strconv.ParseInt: parsing \"x\": invalid syntax") ∧
    resourceYandexFunctionTriggerCreate sampleEnv badCutoffConfig =
      .error (Fault.error "Cannot define message_queue.0batch_cutoff for Yandex Cloud Functions Trigger: strconv.ParseInt: parsing \"x\": invalid syntax") ∧
    ¬ contains "Cannot define message_queue.0batch_cutoff for Yandex Cloud Functions Trigger: strconv.ParseInt: parsing \"x\": invalid syntax"
      "message_queue.0.batch_cutoff" ∧
    expandBatchSettings sampleEnv badSizeConfig "message_queue.0" =
      .error (Fault.error "Cannot define message_queue.0.batch_size for Yandex Cloud Functions Trigger: strconv.ParseInt: parsing \"x\": invalid syntax") ∧
    contains "Cannot define message_queue.0.batch_size for Yandex Cloud Functions Trigger: strconv.ParseInt: parsing \"x\": invalid syntax"
      "message_queue.0.batch_size" :=
  ⟨by decide, by decide, cutoff_message_lacks_path, by decide, size_message_has_path⟩



/-! ## C13: the error of the variant count -/

theorem bind_eq_error {ε α β : Type} (x : Except ε α) (f : α → Except ε β) (e : ε) :
    (x >>= f) = Except.error e ↔ x = Except.error e ∨ ∃ a, x = Except.ok a ∧ f a = Except.error e := by
  cases x <;> simp [ok_bind, error_bind]

/-- With the folder id resolved and every parsed numeric text valid, the only
    error the resolver can return is that of the variant count. -/
theorem create_error_valid (env : Env) (d : ResourceData) (fid : String) (e : Fault)
    (hf : env.getFolderID d = .ok fid) (hv : numericTextValid d)
    (h : resourceYandexFunctionTriggerCreate env d = .error e) : e = variantCountError := by
  obtain ⟨hr, hmq, hlg, hlog⟩ := hv
  obtain ⟨rs, hrs, -⟩ := expandRetrySettings_ok env d hr
  have hd := expandDLQSettings_eq d
  unfold resourceYandexFunctionTriggerCreate at h
  simp only [expandLabels, orErrorf_ok, hf, hrs, hd, ok_bind, triggerTypeIoT, triggerTypeMessageQueue,
    triggerTypeObjectStorage, triggerTypeTimer, triggerTypeLogGroup, triggerTypeLogging] at h
  rw [bind_eq_error] at h
  rcases h with h | ⟨⟨r1, c1⟩, -, h⟩
  · cases hp : d.GetOkList "iot" <;> simp [hp, pure_eq_ok] at h
  simp only [] at h
  rw [bind_eq_error] at h
  rcases h with h | ⟨⟨r2, c2⟩, -, h⟩
  · cases hp : d.GetOkList "message_queue"
    · simp [hp, pure_eq_ok] at h
    · obtain ⟨hb, hvis⟩ := hmq hp
      obtain ⟨b, hb, -⟩ := expandBatchSettings_ok env d _ hb
      rcases hvis with hvis | hvis
      · simp [hp, hb, hvis, ResourceData.GetOkStr, ok_bind, pure_eq_ok] at h
      · obtain ⟨t, ht⟩ := (parses_iff _).1 hvis
        have hne := ne_empty_of_parses _ hvis
        simp [hp, hb, hne, ResourceData.GetOkStr, ResourceData.GetStr, ParseIntText_ok _ _ _ ht,
          orErrorf_ok, ok_bind, pure_eq_ok] at h
  simp only [] at h
  rw [bind_eq_error] at h
  rcases h with h | ⟨⟨r3, c3⟩, -, h⟩
  · cases hp : d.GetOkList "object_storage" <;> simp [hp, pure_eq_ok] at h
  simp only [] at h
  rw [bind_eq_error] at h
  rcases h with h | ⟨⟨r4, c4⟩, -, h⟩
  · cases hp : d.GetOkList "timer" <;> simp [hp, pure_eq_ok] at h
  simp only [] at h
  rw [bind_eq_error] at h
  rcases h with h | ⟨⟨r5, c5⟩, -, h⟩
  · cases hp : d.GetOkList "log_group"
    · simp [hp, pure_eq_ok] at h
    · obtain ⟨b, hb, -⟩ := expandBatchSettings_ok env d _ (hlg hp)
      simp [hp, hb, ok_bind, pure_eq_ok] at h
  simp only [] at h
  rw [bind_eq_error] at h
  rcases h with h | ⟨⟨r6, c6⟩, -, h⟩
  · cases hp : d.GetOkList "logging"
    · simp [hp, pure_eq_ok] at h
    · obtain ⟨b, hb, -⟩ := expandBatchSettings_ok env d _ (hlog hp)
      simp [hp, hb, ok_bind, pure_eq_ok] at h
  simp only [] at h
  by_cases hc : c6 = 1
  · simp [hc, pure_eq_ok, ok_bind] at h
  · simp [hc, throw_eq_error, error_bind] at h
    exact h.symm


/-- C13 as amended. For every configuration in which the number of populated
    variant blocks is not one, with the folder id resolved and every numeric
    text that is parsed on the way valid, the resolver fails with the error of
    its variant-count check; when a text parsed on the way is not valid the
    resolver fails all the same, with the error met first. -/
theorem variant_count_error (env : Env) (d : ResourceData) (hc : populatedCount d ≠ 1) :
    ((∃ fid, env.getFolderID d = .ok fid) → numericTextValid d →
      resourceYandexFunctionTriggerCreate env d = .error variantCountError) ∧
    ∃ e, resourceYandexFunctionTriggerCreate env d = .error e := by
  have herr : ∃ e, resourceYandexFunctionTriggerCreate env d = .error e := by
    cases h : resourceYandexFunctionTriggerCreate env d with
    | error e => exact ⟨e, rfl⟩
    | ok req => exact absurd (create_ok_count env d req h) hc
  refine ⟨?_, herr⟩
  rintro ⟨fid, hf⟩ hv
  obtain ⟨e, he⟩ := herr
  rw [he, create_error_valid env d fid e hf hv he]

theorem variant_count_error_witness :
    populatedCount twoBlocksConfig = 2 ∧
    resourceYandexFunctionTriggerCreate sampleEnv twoBlocksConfig = .error variantCountError :=
  ⟨by decide,
   (variant_count_error sampleEnv twoBlocksConfig (by decide)).1 ⟨"b1g", rfl⟩ (by decide)⟩

set_option maxRecDepth 20000 in
theorem count_message_lacks_log_group :
    ¬ contains "Yandex Cloud Functions Trigger must have only one any iot, message_queue, object_storage, timer, logging section"
      "log_group" := by
  decide

set_option maxRecDepth 20000 in
theorem count_message_lacks_spec_text :
    ¬ contains "Yandex Cloud Functions Trigger must have only one any iot, message_queue, object_storage, timer, logging section"
      "must have exactly one of iot, message_queue, object_storage, timer, log_group, logging" := by
  decide

/-- C13 as stated fails. With a `message_queue` and a `timer` block, two
    populated blocks, and `batch_size = "x"` in the former, the resolver
    returns the parse error of `batch_size`, not the error of the variant
    count; and with no block populated the message of the error does not
    contain the text of the claim and does not name `log_group`. -/
theorem variant_count_error_counterexample :
    (populatedCount twoBlocksBadSizeConfig = 2 ∧
      resourceYandexFunctionTriggerCreate sampleEnv twoBlocksBadSizeConfig =
        .error (Fault.error "Cannot define message_queue.0.batch_size for Yandex Cloud Functions Trigger: strconv.ParseInt: parsing \"x\": invalid syntax") ∧
      resourceYandexFunctionTriggerCreate sampleEnv twoBlocksBadSizeConfig ≠
        .error variantCountError) ∧
    (populatedCount ResourceData.fresh = 0 ∧
      resourceYandexFunctionTriggerCreate sampleEnv ResourceData.fresh =
        .error (Fault.error "Yandex Cloud Functions Trigger must have only one any iot, message_queue, object_storage, timer, logging section") ∧
      ¬ contains "Yandex Cloud Functions Trigger must have only one any iot, message_queue, object_storage, timer, logging section"
        "must have exactly one of iot, message_queue, object_storage, timer, log_group, logging" ∧
      ¬ contains "Yandex Cloud Functions Trigger must have only one any iot, message_queue, object_storage, timer, logging section"
        "log_group") :=
  ⟨⟨by decide, by decide, by decide⟩,
   ⟨by decide, by decide, count_message_lacks_spec_text, count_message_lacks_log_group⟩⟩



/-! ## C14: validation comes before the call of the API -/

theorem parses_of_ok (s : String) (n : Int) (h : ParseInt s = .ok n) : parses s = true :=
  (parses_iff s).2 ⟨n, h⟩

theorem parseIntText_orErrorf_ok (quote : String → String) (text s : String) (n : Int)
    (h : orErrorf text (ParseIntText quote s) = .ok n) : parses s = true :=
  parses_of_ok s n ((ParseIntText_eq_ok quote s n).1 ((orErrorf_eq_ok _ _ _).1 h))

theorem expandRetrySettings_valid (env : Env) (d : ResourceData) (rs : Option RetrySettings)
    (h : expandRetrySettings env d = .ok rs) : retryTextValid d := by
  unfold retryTextValid
  by_cases ha : d.strs "function.0.retry_attempts" = "" <;>
    by_cases hi : d.strs "function.0.retry_interval" = ""
  · exact ⟨Or.inl ha, Or.inl hi⟩
  · refine ⟨Or.inl ha, Or.inr ?_⟩
    cases hp : ParseInt (d.strs "function.0.retry_interval") with
    | ok n => exact parses_of_ok _ n hp
    | error e =>
      simp [expandRetrySettings, ResourceData.GetOkStr, ResourceData.GetStr, ha, hi, ParseIntText, hp,
        orErrorf, error_bind, ok_bind, pure_eq_ok] at h
  · refine ⟨Or.inr ?_, Or.inl hi⟩
    cases hp : ParseInt (d.strs "function.0.retry_attempts") with
    | ok n => exact parses_of_ok _ n hp
    | error e =>
      simp [expandRetrySettings, ResourceData.GetOkStr, ResourceData.GetStr, ha, hi, ParseIntText, hp,
        orErrorf, error_bind, ok_bind, pure_eq_ok] at h
  · cases hp : ParseInt (d.strs "function.0.retry_attempts") with
    | error e =>
      simp [expandRetrySettings, ResourceData.GetOkStr, ResourceData.GetStr, ha, hi, ParseIntText, hp,
        orErrorf, error_bind, ok_bind, pure_eq_ok] at h
    | ok n =>
      cases hq : ParseInt (d.strs "function.0.retry_interval") with
      | ok m => exact ⟨Or.inr (parses_of_ok _ n hp), Or.inr (parses_of_ok _ m hq)⟩
      | error e =>
        simp [expandRetrySettings, ResourceData.GetOkStr, ResourceData.GetStr, ha, hi, ParseIntText,
          hp, hq, orErrorf, error_bind, ok_bind, pure_eq_ok] at h

theorem expandBatchSettings_valid (env : Env) (d : ResourceData) (pfx : String)
    (b : Option BatchSettings) (h : expandBatchSettings env d pfx = .ok b) :
    batchTextValid d pfx := by
  unfold batchTextValid
  by_cases hs : d.strs (pfx ++ ".batch_size") = ""
  · exact Or.inl hs
  · right
    cases hp : ParseInt (d.strs (pfx ++ ".batch_size")) with
    | error e =>
      rw [(expandBatchSettings_size_error env d pfx e hs hp).1] at h
      exact absurd h (by simp)
    | ok n =>
      cases hq : ParseInt (d.strs (pfx ++ ".batch_cutoff")) with
      | error e =>
        rw [expandBatchSettings_cutoff_error env d pfx n e hs hp hq] at h
        exact absurd h (by simp)
      | ok c => exact ⟨parses_of_ok _ n hp, parses_of_ok _ c hq⟩

/-- A request is built only from a configuration whose parsed numeric texts
    are all valid. -/
theorem create_ok_valid (env : Env) (d : ResourceData) (req : CreateTriggerRequest)
    (h : resourceYandexFunctionTriggerCreate env d = .ok req) : numericTextValid d := by
  unfold resourceYandexFunctionTriggerCreate at h
  simp only [bind_eq_ok, triggerTypeIoT, triggerTypeMessageQueue, triggerTypeObjectStorage,
    triggerTypeTimer, triggerTypeLogGroup, triggerTypeLogging] at h
  obtain ⟨labels, -, fid, -, rs, hrs, dl, -, ⟨r1, c1⟩, -, ⟨r2, c2⟩, h2, ⟨r3, c3⟩, -, ⟨r4, c4⟩, -,
    ⟨r5, c5⟩, h5, ⟨r6, c6⟩, h6, -⟩ := h
  refine ⟨expandRetrySettings_valid env d rs hrs, ?_, ?_, ?_⟩
  · intro hp
    simp only [hp, bind_eq_ok, if_true] at h2
    obtain ⟨b, hb, mq, hmq, -⟩ := h2
    refine ⟨expandBatchSettings_valid env d _ b hb, ?_⟩
    by_cases hv : d.strs "message_queue.0.visibility_timeout" = ""
    · exact Or.inl hv
    · right
      simp only [ResourceData.GetOkStr, bne_iff_ne, ne_eq, hv, not_false_eq_true, if_true,
        bind_eq_ok] at hmq
      obtain ⟨t, ht, -⟩ := hmq
      exact parseIntText_orErrorf_ok _ _ _ t ht
  · intro hp
    simp only [hp, bind_eq_ok, if_true] at h5
    obtain ⟨b, hb, -⟩ := h5
    exact expandBatchSettings_valid env d _ b hb
  · intro hp
    simp only [hp, bind_eq_ok, if_true] at h6
    obtain ⟨b, hb, -⟩ := h6
    exact expandBatchSettings_valid env d _ b hb


theorem read_calls (env : Env) (api : Api) (s : Session) :
    (resourceYandexFunctionTriggerRead env api s).1.calls = s.calls ++ [ApiCall.Get s.Id] := by
  unfold resourceYandexFunctionTriggerRead
  dsimp only
  split
  · rfl
  · split <;> rfl

/-- When the request is built it is the first request sent. -/
theorem createOp_calls (env : Env) (api : Api) (s : Session) (req : CreateTriggerRequest)
    (h : resourceYandexFunctionTriggerCreate env s.d = .ok req) :
    s.calls ++ [ApiCall.Create req] <+: (resourceYandexFunctionTriggerCreateOp env api s).1.calls := by
  unfold resourceYandexFunctionTriggerCreateOp
  simp only [h]
  cases api.Create req with
  | error err => exact List.prefix_refl _
  | ok op =>
    cases hm : op.Metadata with
    | error err => simp only [hm]; exact List.prefix_refl _
    | ok md =>
      cases md with
      | none => simp only [hm]; exact List.prefix_refl _
      | some triggerId =>
        cases hw : op.Wait with
        | some err => simp only [hm, hw]; exact List.prefix_refl _
        | none =>
          simp only [hm, hw, read_calls]
          exact List.prefix_append _ _

/-- C14. For every configuration on which the validation of the create
    operation fails (the number of populated variant blocks is not one, or one
    of the numeric texts that the operation parses, `retry_attempts`,
    `retry_interval`, or `batch_size`, `batch_cutoff`, `visibility_timeout` of
    a populated block, is not valid) the operation returns the error with the
    session as it was: no request has been sent and the id has not been set.
    The same holds for every error met while the request is built; and when
    the request is built it is the first request sent. -/
theorem create_validation_before_call (env : Env) (api : Api) (s : Session) :
    ((populatedCount s.d ≠ 1 ∨ ¬ numericTextValid s.d) →
      ∃ e, resourceYandexFunctionTriggerCreateOp env api s = (s, some e) ∧
        (resourceYandexFunctionTriggerCreateOp env api s).1.calls = s.calls ∧
        (resourceYandexFunctionTriggerCreateOp env api s).1.Id = s.Id) ∧
    (∀ e, resourceYandexFunctionTriggerCreate env s.d = .error e →
      resourceYandexFunctionTriggerCreateOp env api s = (s, some e)) ∧
    (∀ req, resourceYandexFunctionTriggerCreate env s.d = .ok req →
      s.calls ++ [ApiCall.Create req] <+:
        (resourceYandexFunctionTriggerCreateOp env api s).1.calls) := by
  have herr : ∀ e, resourceYandexFunctionTriggerCreate env s.d = .error e →
      resourceYandexFunctionTriggerCreateOp env api s = (s, some e) := by
    intro e he
    unfold resourceYandexFunctionTriggerCreateOp
    simp only [he]
  refine ⟨?_, herr, createOp_calls env api s⟩
  intro hbad
  cases h : resourceYandexFunctionTriggerCreate env s.d with
  | error e =>
    have hrun := herr e h
    exact ⟨e, hrun, by rw [hrun], by rw [hrun]⟩
  | ok req =>
    rcases hbad with hc | hv
    · exact absurd (create_ok_count env s.d req h) hc
    · exact absurd (create_ok_valid env s.d req h) hv

theorem create_validation_before_call_witness :
    ¬ numericTextValid badCutoffConfig ∧
    ∃ e, resourceYandexFunctionTriggerCreateOp sampleEnv sampleApi (Session.start badCutoffConfig) =
        (Session.start badCutoffConfig, some e) ∧
      (resourceYandexFunctionTriggerCreateOp sampleEnv sampleApi
        (Session.start badCutoffConfig)).1.calls = [] ∧
      (resourceYandexFunctionTriggerCreateOp sampleEnv sampleApi
        (Session.start badCutoffConfig)).1.Id = "" :=
  ⟨by decide,
   (create_validation_before_call sampleEnv sampleApi (Session.start badCutoffConfig)).1
     (Or.inr (by decide))⟩



/-! ## C15: the mask of the update -/

/-- The requests of the update operation: with no changed field among
    `name`, `description`, `labels` only the trigger is read; otherwise the
    update request, whose mask lists the changed ones, is sent first. -/
theorem update_calls (env : Env) (api : Api) (s : Session) :
    (["name", "description", "labels"].filter (fun p => s.HasChange p) = [] →
      (resourceYandexFunctionTriggerUpdate env api s).1.calls = s.calls ++ [ApiCall.Get s.Id]) ∧
    (["name", "description", "labels"].filter (fun p => s.HasChange p) ≠ [] →
      ∃ tail, (resourceYandexFunctionTriggerUpdate env api s).1.calls =
          s.calls ++ ApiCall.Update
            { TriggerId := s.Id, Name := s.d.strs "name", Description := s.d.strs "description",
              Labels := s.d.maps "labels",
              UpdateMask := ["name", "description", "labels"].filter (fun p => s.HasChange p) } ::
            tail ∧
        (tail = [] ∨ tail = [ApiCall.Get s.Id])) := by
  unfold resourceYandexFunctionTriggerUpdate
  simp only [expandLabels, ResourceData.GetMap, ResourceData.GetStr]
  cases h1 : s.HasChange "name" <;> cases h2 : s.HasChange "description" <;>
    cases h3 : s.HasChange "labels" <;>
    simp only [List.filter, h1, h2, h3, List.nil_append, List.cons_append, List.length_nil,
      List.length_cons, ne_eq, not_true_eq_false, if_false, if_true, Bool.false_eq_true,
      read_calls, true_implies, false_implies, and_true, true_and, not_false_eq_true,
      Nat.add_one_ne_zero, List.cons_ne_nil, reduceCtorEq] <;>
    (split
     · exact ⟨[], by simp, Or.inl rfl⟩
     · exact ⟨[ApiCall.Get s.Id], by simp [read_calls], Or.inr rfl⟩)


/-- C15. For every session, whatever `HasChange` answers: the requests that
    the update operation sends hold an update request exactly when one of
    `name`, `description`, `labels` has changed; the mask of every update
    request sent is the list of the changed ones among `name`, `description`,
    `labels`, a sub-list of that list in its order, so no other path is ever
    in the mask; and the request carries the id, name, description and labels
    of the configuration. -/
theorem update_mask (env : Env) (api : Api) (s : Session) :
    ∃ sent : List ApiCall,
      (resourceYandexFunctionTriggerUpdate env api s).1.calls = s.calls ++ sent ∧
      ((∃ req, ApiCall.Update req ∈ sent) ↔
        ["name", "description", "labels"].filter (fun p => s.HasChange p) ≠ []) ∧
      (∀ req, ApiCall.Update req ∈ sent →
        req.UpdateMask = ["name", "description", "labels"].filter (fun p => s.HasChange p) ∧
        req.UpdateMask.Sublist ["name", "description", "labels"] ∧
        (∀ p, p ∈ req.UpdateMask ↔ p ∈ ["name", "description", "labels"] ∧ s.HasChange p = true) ∧
        req.TriggerId = s.Id ∧ req.Name = s.d.strs "name" ∧
        req.Description = s.d.strs "description" ∧ req.Labels = s.d.maps "labels") ∧
      (sent.filter (fun c => c matches ApiCall.Update _)).length ≤ 1 := by
  obtain ⟨h0, h1⟩ := update_calls env api s
  by_cases hm : ["name", "description", "labels"].filter (fun p => s.HasChange p) = []
  · refine ⟨[ApiCall.Get s.Id], h0 hm, ?_, ?_, ?_⟩
    · simp [hm]
    · intro req hreq
      simp at hreq
    · simp
  · obtain ⟨tail, hc, ht⟩ := h1 hm
    refine ⟨_ :: tail, hc, ?_, ?_, ?_⟩
    · refine ⟨fun _ => hm, fun _ => ⟨_, List.mem_cons_self _ _⟩⟩
    · intro req hreq
      have hreq' : req =
          { TriggerId := s.Id, Name := s.d.strs "name", Description := s.d.strs "description",
            Labels := s.d.maps "labels",
            UpdateMask := ["name", "description", "labels"].filter (fun p => s.HasChange p) } := by
        rcases ht with rfl | rfl <;> simpa using hreq
      subst hreq'
      refine ⟨rfl, List.filter_sublist _, ?_, rfl, rfl, rfl, rfl⟩
      intro p
      simp only [List.mem_filter]
    · rcases ht with rfl | rfl <;> simp



/-! ## C16: batch settings without a cutoff -/

theorem flatten_no_rule (env : Env) (d0 : ResourceData) (trig : Trigger) (hr : trig.Rule = none) :
    ∃ d', flattenYandexFunctionTrigger env d0 trig = .ok d' := by
  simp [flattenYandexFunctionTrigger, hr, GetIotMessage, GetMessageQueue, GetObjectStorage,
    GetTimer, GetCloudLogs, GetLogging, pure_eq_ok]

theorem flatten_panic (env : Env) (d0 : ResourceData) (trig : Trigger)
    (h : batchWithoutCutoff trig = true) :
    flattenYandexFunctionTrigger env d0 trig =
      .error (Fault.panic "invalid memory address or nil pointer dereference") := by
  unfold batchWithoutCutoff at h
  cases hr : trig.Rule with
  | none => simp [hr] at h
  | some r =>
    cases r with
    | IotMessage iot => simp [hr] at h
    | ObjectStorage st => simp [hr] at h
    | Timer t => simp [hr] at h
    | MessageQueue mq =>
      simp only [hr] at h
      cases hb : mq.BatchSettings with
      | none => simp [hb] at h
      | some b =>
        simp only [hb, Option.isNone_iff_eq_none] at h
        simp [flattenYandexFunctionTrigger, hr, GetIotMessage, GetMessageQueue, hb, h, batchEntries,
          cutoffSeconds, error_bind]
    | CloudLogs lg =>
      simp only [hr] at h
      cases hb : lg.BatchSettings with
      | none => simp [hb] at h
      | some b =>
        simp only [hb, Option.isNone_iff_eq_none] at h
        simp [flattenYandexFunctionTrigger, hr, GetIotMessage, GetMessageQueue, GetObjectStorage,
          GetTimer, GetCloudLogs, hb, h, batchEntries, cutoffSeconds, error_bind]
    | Logging lg =>
      simp only [hr] at h
      cases hb : lg.BatchSettings with
      | none => simp [hb] at h
      | some b =>
        simp only [hb, Option.isNone_iff_eq_none] at h
        simp [flattenYandexFunctionTrigger, hr, GetIotMessage, GetMessageQueue, GetObjectStorage,
          GetTimer, GetCloudLogs, GetLogging, hb, h, batchEntries, cutoffSeconds, error_bind]

theorem flatten_returns (env : Env) (d0 : ResourceData) (trig : Trigger)
    (h : batchWithoutCutoff trig = false) :
    ∃ d', flattenYandexFunctionTrigger env d0 trig = .ok d' := by
  unfold batchWithoutCutoff at h
  cases hr : trig.Rule with
  | none => exact flatten_no_rule env d0 trig hr
  | some r =>
    cases r with
    | IotMessage iot =>
      obtain ⟨d', hd', -⟩ := flatten_iot env d0 trig iot hr
      exact ⟨d', hd'⟩
    | ObjectStorage st =>
      obtain ⟨d', hd', -⟩ := flatten_object_storage env d0 trig st hr
      exact ⟨d', hd'⟩
    | Timer t =>
      obtain ⟨d', hd', -⟩ := flatten_timer env d0 trig t hr
      exact ⟨d', hd'⟩
    | MessageQueue mq =>
      simp only [hr] at h
      obtain ⟨d', hd', -⟩ := flatten_message_queue env d0 trig mq hr (by
        intro b hb
        simp only [hb] at h
        cases hc : b.Cutoff with
        | none => simp [hc] at h
        | some c => exact ⟨c, rfl⟩)
      exact ⟨d', hd'⟩
    | CloudLogs lg =>
      simp only [hr] at h
      obtain ⟨d', hd', -⟩ := flatten_log_group env d0 trig lg hr (by
        intro b hb
        simp only [hb] at h
        cases hc : b.Cutoff with
        | none => simp [hc] at h
        | some c => exact ⟨c, rfl⟩)
      exact ⟨d', hd'⟩
    | Logging lg =>
      simp only [hr] at h
      obtain ⟨d', hd', -⟩ := flatten_logging env d0 trig lg hr (by
        intro b hb
        simp only [hb] at h
        cases hc : b.Cutoff with
        | none => simp [hc] at h
        | some c => exact ⟨c, rfl⟩)
      exact ⟨d', hd'⟩

/-- C16 fails on the code. For every response whose message-queue, log-group
    or logging rule has batch settings with a nil `Cutoff`, the projector reads
    `batch.Cutoff.Seconds` through the nil pointer and panics, in every
    configuration; for every other response it returns a configuration.  An
    absent retry interval, which `flattenYandexFunctionTriggerInvokeWithRetry`
    guards, is of the second kind. -/
theorem flatten_panics_without_cutoff (env : Env) (d0 : ResourceData) (trig : Trigger) :
    (batchWithoutCutoff trig = true →
      flattenYandexFunctionTrigger env d0 trig =
        .error (Fault.panic "invalid memory address or nil pointer dereference")) ∧
    (batchWithoutCutoff trig = false →
      ∃ d', flattenYandexFunctionTrigger env d0 trig = .ok d') :=
  ⟨flatten_panic env d0 trig, flatten_returns env d0 trig⟩

theorem flatten_panics_without_cutoff_witness :
    flattenYandexFunctionTrigger sampleEnv ResourceData.fresh noCutoffTrigger =
      .error (Fault.panic "invalid memory address or nil pointer dereference") ∧
    ∃ d', flattenYandexFunctionTrigger sampleEnv ResourceData.fresh noIntervalTrigger = .ok d' :=
  ⟨(flatten_panics_without_cutoff sampleEnv ResourceData.fresh noCutoffTrigger).1 (by decide),
   (flatten_panics_without_cutoff sampleEnv ResourceData.fresh noIntervalTrigger).2 (by decide)⟩



/-! ## C17: the conflicting types -/

theorem foldl_append_filter {α : Type} (p : α → Bool) (xs acc : List α) :
    xs.foldl (fun res x => if p x = true then res ++ [x] else res) acc = acc ++ xs.filter p := by
  induction xs generalizing acc with
  | nil => simp
  | cons x xs ih =>
    simp only [List.foldl_cons, ih, List.filter_cons]
    cases p x <;> simp

theorem functionTriggerConflictingTypes_eq (t : String) :
    functionTriggerConflictingTypes t = functionTriggerTypesList.filter (fun u => u ≠ t) := by
  unfold functionTriggerConflictingTypes
  have h := foldl_append_filter (fun u : String => decide (u ≠ t)) functionTriggerTypesList []
  simp only [decide_eq_true_eq, List.nil_append] at h
  exact h

theorem functionTriggerTypesList_nodup : functionTriggerTypesList.Nodup := by decide

/-- C17. For each of the six trigger types `t`, `functionTriggerConflictingTypes t`
    is `functionTriggerTypesList` without `t`, in list order: five types,
    without `t` and without duplicates.  For distinct types `a` and `b` of the
    list, `a` conflicts with `b` and `b` with `a`.  For a string that is not
    one of the six types the result is the whole list. -/
theorem conflicting_types (t : String) :
    functionTriggerConflictingTypes t = functionTriggerTypesList.filter (fun u => u ≠ t) ∧
    (functionTriggerConflictingTypes t).Sublist functionTriggerTypesList ∧
    t ∉ functionTriggerConflictingTypes t ∧
    (functionTriggerConflictingTypes t).Nodup ∧
    (∀ u, u ∈ functionTriggerConflictingTypes t ↔ u ∈ functionTriggerTypesList ∧ u ≠ t) ∧
    (t ∈ functionTriggerTypesList → (functionTriggerConflictingTypes t).length = 5) ∧
    (∀ b, t ∈ functionTriggerTypesList → b ∈ functionTriggerTypesList →
      (t ∈ functionTriggerConflictingTypes b ↔ b ∈ functionTriggerConflictingTypes t)) ∧
    (∀ b, t ∈ functionTriggerTypesList → b ∈ functionTriggerTypesList → t ≠ b →
      t ∈ functionTriggerConflictingTypes b ∧ b ∈ functionTriggerConflictingTypes t) ∧
    (t ∉ functionTriggerTypesList → functionTriggerConflictingTypes t = functionTriggerTypesList) := by
  have hmem : ∀ a u, u ∈ functionTriggerConflictingTypes a ↔ u ∈ functionTriggerTypesList ∧ u ≠ a := by
    intro a u
    rw [functionTriggerConflictingTypes_eq]
    simp [List.mem_filter]
  refine ⟨functionTriggerConflictingTypes_eq t, ?_, ?_, ?_, hmem t, ?_, ?_, ?_, ?_⟩
  · rw [functionTriggerConflictingTypes_eq]; exact List.filter_sublist _
  · intro h; exact ((hmem t t).1 h).2 rfl
  · rw [functionTriggerConflictingTypes_eq]
    exact functionTriggerTypesList_nodup.filter _
  · intro ht
    simp only [functionTriggerTypesList, triggerTypeIoT, triggerTypeMessageQueue,
      triggerTypeObjectStorage, triggerTypeTimer, triggerTypeLogGroup, triggerTypeLogging,
      List.mem_cons, List.mem_singleton, List.not_mem_nil, or_false] at ht
    rcases ht with rfl | rfl | rfl | rfl | rfl | rfl <;> decide
  · intro b ht hb
    rw [hmem, hmem]
    constructor
    · intro h; exact ⟨hb, fun e => h.2 e.symm⟩
    · intro h; exact ⟨ht, fun e => h.2 e.symm⟩
  · intro b ht hb hne
    exact ⟨(hmem b t).2 ⟨ht, hne⟩, (hmem t b).2 ⟨hb, fun e => hne e.symm⟩⟩
  · intro ht
    rw [functionTriggerConflictingTypes_eq, List.filter_eq_self]
    intro u hu
    simp only [ne_eq, decide_not, Bool.not_eq_eq_eq_not, Bool.not_true, decide_eq_false_iff_not]
    intro e
    exact ht (e ▸ hu)

theorem conflicting_types_witness :
    functionTriggerConflictingTypes "timer" =
      ["iot", "message_queue", "object_storage", "log_group", "logging"] ∧
    (functionTriggerConflictingTypes "timer").length = 5 ∧
    ("timer" ∈ functionTriggerConflictingTypes "iot" ∧
      "iot" ∈ functionTriggerConflictingTypes "timer") ∧
    functionTriggerConflictingTypes "queue" = functionTriggerTypesList :=
  ⟨(conflicting_types "timer").1.trans (by decide),
   (conflicting_types "timer").2.2.2.2.2.1 (by decide),
   (conflicting_types "timer").2.2.2.2.2.2.2.1 "iot" (by decide) (by decide) (by decide),
   (conflicting_types "queue").2.2.2.2.2.2.2.2 (by decide)⟩



/-! ## C18: from the wire to the configuration and back, for batch settings -/

theorem parseUintLoop_append_one (cs : List Char) (c : Char) (n u dg : Nat)
    (h : parseUintLoop cs n = .ok u) (hd : digitVal c = some dg) (hb : u * 10 + dg ≤ maxUint64) :
    parseUintLoop (cs ++ [c]) n = .ok (u * 10 + dg) := by
  induction cs generalizing n with
  | nil =>
    simp only [parseUintLoop, Except.ok.injEq] at h
    subst h
    have h1 : ¬ n ≥ maxUint64 / 10 + 1 := by
      unfold maxUint64 at hb ⊢
      omega
    have h2 : ¬ n * 10 + dg > maxUint64 := by omega
    simp only [List.nil_append, parseUintLoop, hd, h1, h2, if_false]
  | cons x xs ih =>
    simp only [parseUintLoop] at h
    cases hx : digitVal x with
    | none => simp [hx] at h
    | some dx =>
      simp only [hx] at h
      by_cases h1 : n ≥ maxUint64 / 10 + 1
      · simp [h1] at h
      · by_cases h2 : n * 10 + dx > maxUint64
        · simp [h1, h2] at h
        · simp only [h1, h2, if_false] at h
          simp only [List.cons_append, parseUintLoop, hx, h1, h2, if_false]
          exact ih (n * 10 + dx) h

theorem parseUintLoop_formatBits (u : Nat) (h : u ≤ maxUint64) :
    parseUintLoop (formatBits u) 0 = .ok u := by
  induction u using Nat.strong_induction_on with
  | _ u ih =>
    by_cases hu : u < 10
    · rw [formatBits_small u hu]
      have h2 : ¬ 0 * 10 + u > maxUint64 := by omega
      have h1 : ¬ (0 : Nat) ≥ maxUint64 / 10 + 1 := by unfold maxUint64; omega
      simp only [parseUintLoop, digitVal_digitChar u hu, h1, h2, if_false]
      simp
    · have h10 : 10 ≤ u := Nat.le_of_not_lt hu
      rw [formatBits_step u h10]
      have hprev := ih (u / 10) (by omega) (by omega)
      have hdg := digitVal_digitChar (u % 10) (Nat.mod_lt u (by omega))
      have hb : u / 10 * 10 + u % 10 ≤ maxUint64 := by omega
      have := parseUintLoop_append_one (formatBits (u / 10)) (digitChar (u % 10)) 0 (u / 10)
        (u % 10) hprev hdg hb
      rw [this]
      congr 1
      omega

theorem ParseUint_formatBits (u : Nat) (h : u ≤ maxUint64) : ParseUint (formatBits u) = .ok u := by
  obtain ⟨c, cs, dg, hfmt, -⟩ := formatBits_head u
  have hl := parseUintLoop_formatBits u h
  rw [hfmt] at hl ⊢
  exact hl

/-- Printing a 64-bit signed value and parsing the text gives the value. -/
theorem ParseInt_FormatInt (n : Int) (hlo : -(2 : Int) ^ 63 ≤ n) (hhi : n < (2 : Int) ^ 63) :
    ParseInt (FormatInt n) = .ok n := by
  have hmax : n.natAbs ≤ maxUint64 := by unfold maxUint64; omega
  have hp := ParseUint_formatBits n.natAbs hmax
  obtain ⟨c, cs, dg, hfmt, -⟩ := formatBits_head n.natAbs
  by_cases hn : n < 0
  · have hd : (FormatInt n).data = '-' :: formatBits n.natAbs := by simp [FormatInt, hn]
    unfold ParseInt
    simp only [hd, or_true, if_true, hp]
    have h1 : ¬ n.natAbs > 2 ^ 63 := by omega
    simp only [not_true_eq_false, false_and, if_false, true_and, h1, if_true]
    congr 1
    omega
  · have hd : (FormatInt n).data = c :: cs := by simp [FormatInt, hn, hfmt]
    have hs := formatBits_head_not_sign n.natAbs cs
    rw [hfmt] at hs hp
    have hc1 : c ≠ '+' := fun e => hs.1 (by rw [e])
    have hc2 : c ≠ '-' := fun e => hs.2 (by rw [e])
    unfold ParseInt
    simp only [hd, hc1, hc2, or_self, if_false, hp]
    have h1 : ¬ n.natAbs ≥ 2 ^ 63 := by omega
    simp only [not_false_eq_true, true_and, h1, if_false, false_and]
    congr 1
    omega


theorem FormatInt_ne_empty (n : Int) (hlo : -(2 : Int) ^ 63 ≤ n) (hhi : n < (2 : Int) ^ 63) :
    FormatInt n ≠ "" :=
  ne_empty_of_parses _ (parses_of_ok _ n (ParseInt_FormatInt n hlo hhi))

/-- C18. For every response with a message-queue rule whose batch settings
    have a 64-bit signed size and a cutoff of a 64-bit signed number of
    seconds, the projector stores `batch_size` and `batch_cutoff` as the
    decimal prints of the two values, and `expandBatchSettings` on the
    configuration so written succeeds with that size and that number of
    seconds (the batch settings themselves when the cutoff has no
    nanoseconds).  Printing any 64-bit signed value, zero and the negative
    ones included, and parsing the text gives the value back. -/
theorem batch_wire_round_trip :
    (∀ (env : Env) (d0 : ResourceData) (trig : Trigger) (mq : Trigger_MessageQueue)
      (b : BatchSettings) (c : Duration),
      trig.Rule = some (.MessageQueue mq) → mq.BatchSettings = some b → b.Cutoff = some c →
      -(2 : Int) ^ 63 ≤ b.Size → b.Size < (2 : Int) ^ 63 →
      -(2 : Int) ^ 63 ≤ c.Seconds → c.Seconds < (2 : Int) ^ 63 →
      ∃ d', flattenYandexFunctionTrigger env d0 trig = .ok d' ∧
        d'.strs "message_queue.0.batch_size" = FormatInt b.Size ∧
        d'.strs "message_queue.0.batch_cutoff" = FormatInt c.Seconds ∧
        expandBatchSettings env d' "message_queue.0" =
          .ok (some { Size := b.Size, Cutoff := some { Seconds := c.Seconds } }) ∧
        (c.Nanos = 0 → expandBatchSettings env d' "message_queue.0" = .ok (some b))) ∧
    (∀ n : Int, -(2 : Int) ^ 63 ≤ n → n < (2 : Int) ^ 63 → ParseInt (FormatInt n) = .ok n) := by
  refine ⟨?_, ParseInt_FormatInt⟩
  intro env d0 trig mq b c hr hb hc hn1 hn2 hc1 hc2
  obtain ⟨d', hd', -, -, -, -, -, -, e4, e5⟩ :=
    flatten_message_queue env d0 trig mq hr (by
      intro b' hb'
      rw [hb] at hb'
      cases hb'
      exact ⟨c, hc⟩)
  have hk1 : "message_queue.0" ++ ".batch_size" = "message_queue.0.batch_size" := by decide
  have hk2 : "message_queue.0" ++ ".batch_cutoff" = "message_queue.0.batch_cutoff" := by decide
  have e4' : d'.strs "message_queue.0.batch_size" = FormatInt b.Size := by
    rw [e4, hb]; rfl
  have e5' : d'.strs "message_queue.0.batch_cutoff" = FormatInt c.Seconds := by
    rw [e5, hb]; simp [hc]
  have hex : expandBatchSettings env d' "message_queue.0" =
      .ok (some { Size := b.Size, Cutoff := some { Seconds := c.Seconds } }) := by
    apply expandBatchSettings_some
    · rw [hk1, e4']; exact FormatInt_ne_empty _ hn1 hn2
    · rw [hk1, e4']; exact ParseInt_FormatInt _ hn1 hn2
    · rw [hk2, e5']; exact ParseInt_FormatInt _ hc1 hc2
  refine ⟨d', hd', e4', e5', hex, ?_⟩
  intro h0
  rw [hex]
  cases b with
  | mk size cutoff =>
    cases c with
    | mk secs nanos =>
      simp only at hc h0
      subst hc h0
      rfl

theorem batch_wire_round_trip_witness :
    ∃ d', flattenYandexFunctionTrigger sampleEnv ResourceData.fresh batchTrigger = .ok d' ∧
      d'.strs "message_queue.0.batch_size" = "0" ∧
      d'.strs "message_queue.0.batch_cutoff" = "-7" ∧
      expandBatchSettings sampleEnv d' "message_queue.0" =
        .ok (some { Size := 0, Cutoff := some { Seconds := -7 } }) := by
  obtain ⟨d', hd', e1, e2, e3, -⟩ :=
    batch_wire_round_trip.1 sampleEnv ResourceData.fresh batchTrigger
      { QueueId := "q1", ServiceAccountId := "sa1",
        BatchSettings := some { Size := 0, Cutoff := some { Seconds := -7 } },
        Action := some { FunctionId := "fn1", FunctionTag := "", ServiceAccountId := "" } }
      { Size := 0, Cutoff := some { Seconds := -7 } } { Seconds := -7 } rfl rfl rfl
      (by decide) (by decide) (by decide) (by decide)
  refine ⟨d', hd', e1.trans ?_, e2.trans ?_, e3⟩
  · simp [FormatInt, formatBits_small, digitChar]
  · simp [FormatInt, formatBits_small, digitChar]



/-! ## C11: the levels stored by the projector -/

theorem batchWithoutCutoff_logging (trig : Trigger) (lg : Trigger_Logging)
    (hr : trig.Rule = some (.Logging lg)) :
    batchWithoutCutoff trig = false ↔ ∀ b, lg.BatchSettings = some b → ∃ c, b.Cutoff = some c := by
  unfold batchWithoutCutoff
  simp only [hr]
  cases hb : lg.BatchSettings with
  | none => simp
  | some b =>
    cases hc : b.Cutoff with
    | none => simp [hc]
    | some c => simp [hc]

/-- C11. For every response with a Logging rule and every configuration:
    whenever the projector returns, the names stored under `logging.0.levels`
    are, as a set, the names that `levelEnumToName` has for the values of
    `Levels` (a name is stored exactly when it is the name of one of the
    values, no name twice), and resolving the stored names through
    `levelNameToEnum` gives exactly the values of `Levels` that have a name.
    The projector returns whenever the batch settings, if present, carry a
    cutoff, and whether it returns does not depend on `Levels`: no value, with
    or without a name, raises an error.  The unspecified level has no name,
    and `levelNameToEnum` and `levelEnumToName` are inverse to each other. -/
theorem levels_projected (env : Env) (d0 : ResourceData) (trig : Trigger) (lg : Trigger_Logging)
    (hr : trig.Rule = some (.Logging lg)) :
    (∀ d', flattenYandexFunctionTrigger env d0 trig = .ok d' →
      (∀ x, x ∈ d'.sets "logging.0.levels" ↔ ∃ v ∈ lg.Levels, levelEnumToName v = some x) ∧
      (d'.sets "logging.0.levels").Nodup ∧
      (∀ v, v ∈ (d'.sets "logging.0.levels").filterMap levelNameToEnum ↔
        v ∈ lg.Levels ∧ ∃ name, levelEnumToName v = some name)) ∧
    ((∀ b, lg.BatchSettings = some b → ∃ c, b.Cutoff = some c) →
      ∃ d', flattenYandexFunctionTrigger env d0 trig = .ok d') ∧
    (∀ levels : List LogLevel_Level,
      (∃ d', flattenYandexFunctionTrigger env d0
          { trig with Rule := some (.Logging { lg with Levels := levels }) } = .ok d') ↔
        ∃ d', flattenYandexFunctionTrigger env d0 trig = .ok d') ∧
    levelEnumToName LogLevel_Level.LEVEL_UNSPECIFIED = none ∧
    (∀ name v, levelNameToEnum name = some v ↔ levelEnumToName v = some name) := by
  refine ⟨?_, ?_, ?_, rfl, level_inverse⟩
  · intro d' hd'
    have hb : ∀ b, lg.BatchSettings = some b → ∃ c, b.Cutoff = some c := by
      apply (batchWithoutCutoff_logging trig lg hr).1
      cases hbw : batchWithoutCutoff trig with
      | false => rfl
      | true =>
        rw [flatten_panic env d0 trig hbw] at hd'
        exact absurd hd' (by simp)
    obtain ⟨d'', hd'', -, -, -, -, -, -, e3, -⟩ := flatten_logging env d0 trig lg hr hb
    rw [hd''] at hd'
    cases hd'
    refine ⟨?_, ?_, ?_⟩
    · intro x; rw [e3]; exact mem_levelNames env _ x
    · rw [e3]; exact levelNames_nodup env _
    · intro v
      rw [e3, mem_filterMap_levelNames, Option.isSome_iff_exists]
  · intro hb
    exact flatten_returns env d0 trig ((batchWithoutCutoff_logging trig lg hr).2 hb)
  · intro levels
    have hsame : batchWithoutCutoff
        { trig with Rule := some (.Logging { lg with Levels := levels }) } =
        batchWithoutCutoff trig := by
      unfold batchWithoutCutoff
      simp only [hr]
    cases hbw : batchWithoutCutoff trig with
    | false =>
      rw [hbw] at hsame
      exact ⟨fun _ => flatten_returns env d0 trig hbw, fun _ => flatten_returns env d0 _ hsame⟩
    | true =>
      rw [hbw] at hsame
      rw [flatten_panic env d0 trig hbw, flatten_panic env d0 _ hsame]

theorem levels_projected_witness :
    ∃ d', flattenYandexFunctionTrigger sampleEnv ResourceData.fresh loggingTrigger = .ok d' ∧
      (∀ x, x ∈ d'.sets "logging.0.levels" ↔ x = "debug" ∨ x = "warn") ∧
      (d'.sets "logging.0.levels").Nodup ∧
      (∀ v, v ∈ (d'.sets "logging.0.levels").filterMap levelNameToEnum ↔
        v = LogLevel_Level.DEBUG ∨ v = LogLevel_Level.WARN) := by
  have h := levels_projected sampleEnv ResourceData.fresh loggingTrigger
    { LogGroupId := "g1", ResourceId := [], ResourceType := [],
      Levels := [.DEBUG, .LEVEL_UNSPECIFIED, .DEBUG, .WARN],
      Action := none } rfl
  obtain ⟨d', hd'⟩ := h.2.1 (by simp)
  obtain ⟨h1, h2, h3⟩ := h.1 d' hd'
  refine ⟨d', hd', ?_, h2, ?_⟩
  · intro x
    rw [h1]
    simp [levelEnumToName, eq_comm]
  · intro v
    rw [h3]
    cases v <;> simp [levelEnumToName]


end Yandex
